import Mathlib

/-!
# Data stack and frame reification of `src/core/m-stacks.c`

A shallow embedding of the data-stack operations (`Expand_Data_Stack_May_Fail`,
`Pop_Stack_Values_Core`, `Pop_Stack_Values_Reversed`) and of
`Reify_Frame_Context_Maybe_Fulfilling`, followed by theorems about them.

Conventions of the embedding:

* a `REBVAL*` into an array is the index of the cell inside the array's data
  (`DS_Movable_Base` is always `ARR_HEAD(DS_Array)`, so `DS_Movable_Base + n`
  is cell `n` of `DS_Array`);
* a `REBSER*` / `REBARR*` is the index of the node in the list of allocated
  nodes, a `REBFRM*` the index of the frame in the list of frames;
* `REBCNT` / `REBDSP` are 32-bit unsigned, written as `Nat` with an explicit
  `% 2 ^ 32` where the source adds;
* `assert` is checked exactly when `NDEBUG` is not defined.
-/

namespace RenC

/-! ## Cells and series nodes -/

/-- A value cell (`REBVAL`). Only the distinctions the module makes are kept:
the END marker, the unreadable blank, debug trash, a `FRAME!` value with its
three fields, and any other value (its payload kept as a number). -/
inductive Cell where
  | END
  | Unreadable
  | Trash
  | Frame (varlist : Nat) (phase : Nat) (binding : Option Nat)
  | Value (payload : Int)
  deriving DecidableEq, Repr

/-- The test `IS_END(v)`. -/
def IS_END (c : Cell) : Bool :=
  match c with
  | Cell.END => true
  | _ => false

/-- The test `IS_TRASH_DEBUG(v)`. -/
def IS_TRASH_DEBUG (c : Cell) : Bool :=
  match c with
  | Cell.Trash => true
  | _ => false

/-- Header flag bits of a series node that the module reads or writes. -/
structure SeriesFlags where
  ARRAY_FLAG_VARLIST : Bool
  ARRAY_FLAG_VOIDS_LEGAL : Bool
  NODE_FLAG_MANAGED : Bool
  deriving DecidableEq, Repr

/-- Info bits of a series node that the module reads or writes. -/
structure SeriesInfo where
  SERIES_INFO_HAS_DYNAMIC : Bool
  SERIES_INFO_HOLD : Bool
  SERIES_INFO_SHARED_KEYLIST : Bool
  SERIES_INFO_INACCESSIBLE : Bool
  CONTEXT_INFO_STACK : Bool
  deriving DecidableEq, Repr

/-- An array node (`REBSER` holding `REBVAL` cells). `data` is the allocated
cell memory, so `SER_REST` is `data.length`; `len` is `ARR_LEN`. -/
structure REBSER where
  flags : SeriesFlags
  bits : SeriesInfo
  link_keylist : Option Nat
  misc_f : Option Nat
  len : Nat
  data : List Cell
  deriving DecidableEq, Repr

/-- No header flag set. -/
def SeriesFlags.none : SeriesFlags :=
  { ARRAY_FLAG_VARLIST := false, ARRAY_FLAG_VOIDS_LEGAL := false, NODE_FLAG_MANAGED := false }

/-- No info bit set. -/
def SeriesInfo.none : SeriesInfo :=
  { SERIES_INFO_HAS_DYNAMIC := false, SERIES_INFO_HOLD := false,
    SERIES_INFO_SHARED_KEYLIST := false, SERIES_INFO_INACCESSIBLE := false,
    CONTEXT_INFO_STACK := false }

/-- The capacity `SER_REST(s)` in cells. -/
def SER_REST (s : REBSER) : Nat := s.data.length

/-- The cell `*ARR_AT(a, n)`, or `none` when `n` is outside the allocation
(where the C read has no defined result). -/
def ARR_AT (s : REBSER) (n : Nat) : Option Cell := s.data[n]?

/-- The cells `0 .. len - 1` of an array: its contents up to the terminator. -/
def ARR_cells (s : REBSER) : List Cell := s.data.take s.len

/-- Wrap-around of the 32-bit unsigned `REBCNT`. -/
def REBCNT_wrap (n : Nat) : Nat := n % 2 ^ 32

/-! ## Errors and outcomes -/

/-- Ways a call can end other than by returning. -/
inductive Error where
  | Stack_Overflow
  | No_Memory
  | Assertion (line : Nat)
  | Bad_Pointer
  | Read_Only
  deriving DecidableEq, Repr

/-- Result of running a procedure on a state of type `σ`: it returns with a new
state, or it raises an error (or stops at an assertion) in the state reached
at that point. -/
inductive Outcome (σ : Type) where
  | returned (s : σ)
  | failed (e : Error) (s : σ)
  deriving DecidableEq, Repr

/-- The state in which a call ended, however it ended. -/
def Outcome.state {σ : Type} : Outcome σ → σ
  | Outcome.returned s => s
  | Outcome.failed _ s => s

/-! ## The data stack -/

/-- The data-stack globals: the array `DS_Array` and the index `DS_Index`
(read through the macro `DSP`). -/
structure DataStack where
  DS_Array : REBSER
  DS_Index : Nat
  deriving DecidableEq, Repr

/-- The macro `DSP`. -/
def DSP (s : DataStack) : Nat := s.DS_Index

/-- Build and platform parameters that the module takes from headers which
are not part of it: whether `NDEBUG` is defined, the constant `STACK_LIMIT`,
the contents `junk i` of cell `i` of memory fresh from the allocator, the
accessor `FUNC_PARAMLIST` from a function to its parameter list, and the
debug-build consistency check `ASSERT_CONTEXT` (given the allocated nodes and
the varlist of the context). -/
structure Config where
  NDEBUG : Bool
  STACK_LIMIT : Nat
  junk : Nat → Cell
  FUNC_PARAMLIST : Nat → Nat
  ASSERT_CONTEXT : List REBSER → Nat → Bool

/-- Modelled from the spec: `grow_buffer(buffer, new_len)` (may relocate) of
the heap/series allocator; `Extend_Series` itself is outside the module.
The capacity grows by `delta` cells at the tail, the length and the existing
cells are kept, the new cells hold whatever the allocator left there. A
capacity that does not fit the 32-bit `REBCNT` cannot be satisfied
(allocation failure). -/
def Extend_Series (cfg : Config) (s : REBSER) (delta : Nat) : Option REBSER :=
  if SER_REST s + delta < 2 ^ 32 then
    some { s with data := s.data ++ (List.range delta).map (fun i => cfg.junk (s.data.length + i)) }
  else
    none

/-- Modelled from the spec: "rewrites the end-marker at the new tail"; the
macro `TERM_ARRAY_LEN(a, len)` sets the length and writes END at `len`. -/
def TERM_ARRAY_LEN (s : REBSER) (len : Nat) : REBSER :=
  { s with len := len, data := s.data.set len Cell.END }

/-- The fill loop of `Expand_Data_Stack_May_Fail`,
`for (n = len_old; n < len_new; ++n) { Init_Unreadable_Blank(value); ++value; }`,
as a function of the number of iterations left (`len_new - n`), the cursor
`value` and the cell memory. It returns the memory and the final cursor. -/
def Expand_fill : Nat → Nat → List Cell → List Cell × Nat
  | 0, value, data => (data, value)
  | k + 1, value, data => Expand_fill k (value + 1) (data.set value Cell.Unreadable)

/-- The entry assertions of `Expand_Data_Stack_May_Fail` (debug build):
the cell at `DS_Movable_Base + DSP` is an END and is the array tail, that is
`DSP` equals the array length. -/
def Expand_entry_ok (s : DataStack) : Bool :=
  (match ARR_AT s.DS_Array (DSP s) with
    | some end_top => IS_END end_top
    | none => false) &&
  decide (DSP s = s.DS_Array.len)

/-- The procedure `Expand_Data_Stack_May_Fail(amount)`. -/
def Expand_Data_Stack_May_Fail (cfg : Config) (s : DataStack) (amount : Nat) :
    Outcome DataStack :=
  let len_old := s.DS_Array.len
  if !cfg.NDEBUG && !Expand_entry_ok s then
    Outcome.failed (Error.Assertion 161) s
  else if REBCNT_wrap (SER_REST s.DS_Array + amount) ≥ cfg.STACK_LIMIT then
    Outcome.failed Error.Stack_Overflow s
  else
    match Extend_Series cfg s.DS_Array amount with
    | none => Outcome.failed Error.No_Memory s
    | some a =>
      let value := DSP s
      let len_new := REBCNT_wrap (len_old + amount)
      let filled := Expand_fill (len_new - len_old) value a.data
      let a2 := TERM_ARRAY_LEN { a with data := filled.1 } len_new
      let s2 : DataStack := { s with DS_Array := a2 }
      if !cfg.NDEBUG && decide (filled.2 ≠ a2.len) then
        Outcome.failed (Error.Assertion 202) s2
      else
        Outcome.returned s2

/-- The walk of an array copy: reads `len` cells upward from index `head` of
the memory `mem` (a read outside the allocation, undefined in C, yields END
here). -/
def copy_cells_forward : Nat → Nat → List Cell → List Cell
  | 0, _, _ => []
  | k + 1, head, mem => mem.getD head Cell.END :: copy_cells_forward k (head + 1) mem

/-- The walk of a reversed array copy: reads `len` cells downward from index
`head` of the memory `mem` (a read outside the allocation yields END here). -/
def copy_cells_backward : Nat → Nat → List Cell → List Cell
  | 0, _, _ => []
  | k + 1, head, mem => mem.getD head Cell.END :: copy_cells_backward k (head - 1) mem

/-- A fresh, terminated array holding `cells`, with header flags `flags`. -/
def Make_Array_Of (flags : SeriesFlags) (cells : List Cell) : REBSER :=
  { flags := flags, bits := { SeriesInfo.none with SERIES_INFO_HAS_DYNAMIC := true },
    link_keylist := none, misc_f := none,
    len := cells.length, data := cells ++ [Cell.END] }

/-- Modelled from the spec: `Copy_Values_Len_Shallow_Core(head, specifier,
len, flags)`, outside the module, "copies cells ... into a newly created,
independently owned array, in original order": `len` cells starting at `head`. -/
def Copy_Values_Len_Shallow_Core (mem : List Cell) (head len : Nat) (flags : SeriesFlags) :
    REBSER :=
  Make_Array_Of flags (copy_cells_forward len head mem)

/-- Modelled from the spec: `Copy_Values_Len_Reversed_Shallow(head, specifier,
len)`, outside the module, copies "in ... reverse order": `len` cells
starting at `head` and walking down. -/
def Copy_Values_Len_Reversed_Shallow (mem : List Cell) (head len : Nat) : REBSER :=
  Make_Array_Of SeriesFlags.none (copy_cells_backward len head mem)

/-- Modelled from the spec: `drop_to(index)` "decrements `DSP`" down to the
saved mark (macro `DS_DROP_TO`). -/
def DS_DROP_TO (s : DataStack) (dsp : Nat) : DataStack :=
  { s with DS_Index := dsp }

/-- The function `Pop_Stack_Values_Core(dsp_start, flags)`: the new array and
the data stack afterwards. The mark is at or below `DSP` (`DS_DROP_TO`
asserts it), so the unsigned `DSP - dsp_start` does not wrap. -/
def Pop_Stack_Values_Core (s : DataStack) (dsp_start : Nat) (flags : SeriesFlags) :
    REBSER × DataStack :=
  let array := Copy_Values_Len_Shallow_Core s.DS_Array.data
    (dsp_start + 1) -- DS_AT(dsp_start + 1)
    (DSP s - dsp_start) -- len
    flags
  (array, DS_DROP_TO s dsp_start)

/-- The function `Pop_Stack_Values_Reversed(dsp_start)`: the new array and the
data stack afterwards. -/
def Pop_Stack_Values_Reversed (s : DataStack) (dsp_start : Nat) : REBSER × DataStack :=
  let array := Copy_Values_Len_Reversed_Shallow s.DS_Array.data
    (DSP s) -- DS_TOP
    (DSP s - dsp_start) -- len
  (array, DS_DROP_TO s dsp_start)

/-- Modelled from the spec: `push(value)` "writes at index `DSP+1`" and
"then advances `DSP`" (macro `DS_PUSH`, here on a stack that has room). -/
def DS_PUSH (s : DataStack) (v : Cell) : DataStack :=
  { s with DS_Array := { s.DS_Array with data := s.DS_Array.data.set (DSP s + 1) v },
           DS_Index := DSP s + 1 }

/-! ## Frames and reification -/

/-- A frame (`REBFRM`), with the fields and tests the module uses:
`Is_Any_Function_Frame(f)`, `Is_Function_Frame_Fulfilling(f)`, `f->varlist`
(`none` for NULL), `f->phase`, `f->binding`, `FRM_UNDERLYING(f)` and the bit
`f->flags.bits & DO_FLAG_NATIVE_HOLD`. -/
structure REBFRM where
  Is_Any_Function_Frame : Bool
  Is_Function_Frame_Fulfilling : Bool
  varlist : Option Nat
  phase : Nat
  binding : Option Nat
  underlying : Nat
  DO_FLAG_NATIVE_HOLD : Bool
  deriving DecidableEq, Repr

/-- The memory the reifier works on: the allocated array nodes (a `REBARR*` is
an index into `nodes`) and the frames (a `REBFRM*` is an index into `frames`). -/
structure Memory where
  nodes : List REBSER
  frames : List REBFRM
  deriving DecidableEq, Repr

/-- Applies `g` to the node that `p` points to (nothing to do when `p` points
at no node). -/
def modify_node (nodes : List REBSER) (p : Nat) (g : REBSER → REBSER) : List REBSER :=
  match nodes[p]? with
  | some a => nodes.set p (g a)
  | none => nodes

/-- The allocator call `Alloc_Singular_Array_Core(flags)`, outside the module:
a fresh node holding a single cell, with the given header flags. -/
def Alloc_Singular_Array_Core (flags : SeriesFlags) : REBSER :=
  { flags := flags, bits := SeriesInfo.none, link_keylist := none, misc_f := none,
    len := 1, data := [Cell.Trash] }

/-- The statement `SET_SER_FLAG(s, ARRAY_FLAG_VARLIST)`. -/
def SET_ARRAY_FLAG_VARLIST (a : REBSER) : REBSER :=
  { a with flags := { a.flags with ARRAY_FLAG_VARLIST := true } }

/-- The statement `SET_SER_INFO(s, CONTEXT_INFO_STACK)`. -/
def SET_CONTEXT_INFO_STACK (a : REBSER) : REBSER :=
  { a with bits := { a.bits with CONTEXT_INFO_STACK := true } }

/-- The statement `SET_SER_INFO(s, SERIES_INFO_HOLD)`. -/
def SET_SERIES_INFO_HOLD (a : REBSER) : REBSER :=
  { a with bits := { a.bits with SERIES_INFO_HOLD := true } }

/-- The statement `SET_SER_INFO(s, SERIES_INFO_SHARED_KEYLIST)`. -/
def SET_SERIES_INFO_SHARED_KEYLIST (a : REBSER) : REBSER :=
  { a with bits := { a.bits with SERIES_INFO_SHARED_KEYLIST := true } }

/-- Modelled from the spec: "attaches the function's shared parameter-name
list as the new context's key list (shared, not copied ...)"; the macro
`INIT_CTX_KEYLIST_SHARED(c, keylist)` marks the key list as shared and stores
the pointer to it in the varlist's link. -/
def INIT_CTX_KEYLIST_SHARED (nodes : List REBSER) (c keylist : Nat) : List REBSER :=
  modify_node (modify_node nodes keylist SET_SERIES_INFO_SHARED_KEYLIST) c
    (fun a => { a with link_keylist := some keylist })

/-- Modelled from the spec: "registers the frame's storage with the collector
as a managed root (`MANAGE`)"; the macro `MANAGE_ARRAY(a)` sets the managed
bit of the node. -/
def MANAGE_ARRAY (a : REBSER) : REBSER :=
  { a with flags := { a.flags with NODE_FLAG_MANAGED := true } }

/-- The three stores through `rootvar`: `VAL_RESET_HEADER(rootvar, REB_FRAME)`
and the assignments of `payload.any_context.varlist`,
`payload.any_context.phase` and `extra.binding`. -/
def Init_Rootvar (varlist : Nat) (fr : REBFRM) (a : REBSER) : REBSER :=
  { a with data := a.data.set 0 (Cell.Frame varlist fr.phase fr.binding) }

/-- Lines 284-299 of `Reify_Frame_Context_Maybe_Fulfilling`: flag the
existing varlist, or allocate a singular one and store it in `f->varlist`.
Returns the memory and the varlist pointer. -/
def Reify_varlist (cfg : Config) (m : Memory) (f : Nat) (fr : REBFRM) :
    Except (Error × Memory) (Memory × Nat) :=
  match fr.varlist with
  | some v =>
    match m.nodes[v]? with
    | none => Except.error (Error.Bad_Pointer, m)
    | some a =>
      if !cfg.NDEBUG && a.flags.ARRAY_FLAG_VARLIST then
        Except.error (Error.Assertion 290, m)
      else
        let m1 : Memory := { m with nodes := modify_node m.nodes v SET_ARRAY_FLAG_VARLIST }
        if !cfg.NDEBUG && !(match ARR_AT a 0 with
            | some root => IS_TRASH_DEBUG root
            | none => false) then
          Except.error (Error.Assertion 293, m1)
        else if !cfg.NDEBUG && !a.bits.SERIES_INFO_HAS_DYNAMIC then
          Except.error (Error.Assertion 294, m1)
        else
          Except.ok (m1, v)
  | none =>
    let v := m.nodes.length
    let a := SET_CONTEXT_INFO_STACK
      (Alloc_Singular_Array_Core { SeriesFlags.none with ARRAY_FLAG_VARLIST := true })
    Except.ok ({ nodes := m.nodes ++ [a], frames := m.frames.set f { fr with varlist := some v } }, v)

/-- Lines 301-348 of `Reify_Frame_Context_Maybe_Fulfilling`, run on the nodes
with `f->varlist = v`: key list, root slot, back-reference, hold bit,
management and the closing debug checks. A store through a pointer to no
node or no cell ends the run with `Bad_Pointer`. -/
def Reify_context (cfg : Config) (m : Memory) (f : Nat) (fr : REBFRM) (v : Nat) :
    Outcome Memory :=
  let keylist := cfg.FUNC_PARAMLIST fr.underlying
  if m.nodes[keylist]? = none then Outcome.failed Error.Bad_Pointer m else
  let n2 := INIT_CTX_KEYLIST_SHARED m.nodes v keylist
  if (n2[v]?.bind fun a => a.data[0]?) = none then
    Outcome.failed Error.Bad_Pointer { m with nodes := n2 }
  else
  let n3 := modify_node n2 v (Init_Rootvar v fr)
  let n4 := modify_node n3 v (fun a => { a with misc_f := some f })
  let n5 := if fr.DO_FLAG_NATIVE_HOLD then modify_node n4 v SET_SERIES_INFO_HOLD else n4
  if !cfg.NDEBUG && decide ((n5[keylist]?.map fun a => a.flags.NODE_FLAG_MANAGED) ≠ some true) then
    Outcome.failed (Error.Assertion 336) { m with nodes := n5 }
  else
  let n6 := modify_node n5 v MANAGE_ARRAY
  if !cfg.NDEBUG && !fr.Is_Function_Frame_Fulfilling && !cfg.ASSERT_CONTEXT n6 v then
    Outcome.failed (Error.Assertion 346) { m with nodes := n6 }
  else if !cfg.NDEBUG &&
      -- CTX_VARS_UNAVAILABLE(c): the varlist is marked inaccessible
      decide ((n6[v]?.map fun a => a.bits.SERIES_INFO_INACCESSIBLE) ≠ some false) then
    Outcome.failed (Error.Assertion 347) { m with nodes := n6 }
  else
    Outcome.returned { m with nodes := n6 }

/-- The procedure `Reify_Frame_Context_Maybe_Fulfilling(f)`. -/
def Reify_Frame_Context_Maybe_Fulfilling (cfg : Config) (m : Memory) (f : Nat) :
    Outcome Memory :=
  match m.frames[f]? with
  | none => Outcome.failed Error.Bad_Pointer m
  | some fr =>
    if !cfg.NDEBUG && !fr.Is_Any_Function_Frame then
      Outcome.failed (Error.Assertion 282) m
    else
      match Reify_varlist cfg m f fr with
      | Except.error (e, m1) => Outcome.failed e m1
      | Except.ok (m1, v) => Reify_context cfg m1 f fr v

/-- The varlist `f->varlist` of frame `f`, when the frame exists and the
pointer is not NULL. -/
def FRM_varlist (m : Memory) (f : Nat) : Option Nat :=
  m.frames[f]?.bind fun fr => fr.varlist

/-- The key list `CTX_KEYLIST(CTX(f->varlist))` of the context of frame `f`. -/
def FRM_CTX_KEYLIST (m : Memory) (f : Nat) : Option Nat :=
  (FRM_varlist m f).bind fun v => m.nodes[v]?.bind fun a => a.link_keylist

/-! ## Auxiliary descriptions of the reified nodes -/

/-- What lines 301-337 do to the node at index `i`, for varlist `v` and key
list `k`. -/
def Reify_node (f v k : Nat) (fr : REBFRM) (i : Nat) (a : REBSER) : REBSER :=
  let a1 := if i = k then SET_SERIES_INFO_SHARED_KEYLIST a else a
  if i = v then
    let a4 : REBSER := { Init_Rootvar v fr { a1 with link_keylist := some k } with misc_f := some f }
    MANAGE_ARRAY (if fr.DO_FLAG_NATIVE_HOLD then SET_SERIES_INFO_HOLD a4 else a4)
  else a1

/-- The nodes with which `Reify_context` ends when it returns. -/
def Reify_nodes (nodes : List REBSER) (f v k : Nat) (fr : REBFRM) : List REBSER :=
  modify_node
    (if fr.DO_FLAG_NATIVE_HOLD then
      modify_node (modify_node (modify_node (INIT_CTX_KEYLIST_SHARED nodes v k) v
        (Init_Rootvar v fr)) v (fun a => { a with misc_f := some f })) v SET_SERIES_INFO_HOLD
    else
      modify_node (modify_node (INIT_CTX_KEYLIST_SHARED nodes v k) v
        (Init_Rootvar v fr)) v (fun a => { a with misc_f := some f }))
    v MANAGE_ARRAY

/-- The node that the else branch of lines 284-299 allocates. -/
def Reify_fresh_varlist : REBSER :=
  SET_CONTEXT_INFO_STACK
    (Alloc_Singular_Array_Core { SeriesFlags.none with ARRAY_FLAG_VARLIST := true })

/-! ## Example states -/

/-- An empty data stack with room for three values: the unreadable cell at
index 0, three free slots, the END marker at index 4. -/
def ex_empty_stack : DataStack :=
  { DS_Array :=
      { flags := { SeriesFlags.none with ARRAY_FLAG_VOIDS_LEGAL := true },
        bits := { SeriesInfo.none with SERIES_INFO_HAS_DYNAMIC := true },
        link_keylist := none, misc_f := none, len := 4,
        data := [Cell.Unreadable, Cell.Unreadable, Cell.Unreadable, Cell.Unreadable, Cell.END] },
    DS_Index := 0 }

/-- The stack after pushing 10, 20, 30 from mark 0. -/
def ex_stack_10_20_30 : DataStack :=
  DS_PUSH (DS_PUSH (DS_PUSH ex_empty_stack (Cell.Value 10)) (Cell.Value 20)) (Cell.Value 30)

/-- A full data stack: 10, 20, 30 pushed and the stack pointer moved onto the
END marker by the push that asks for the expansion. -/
def ex_full_stack : DataStack :=
  { ex_stack_10_20_30 with DS_Index := 4 }

/-- A debug build with a stack limit of 1000 cells and trash in fresh memory. -/
def ex_config : Config :=
  { NDEBUG := false, STACK_LIMIT := 1000, junk := fun _ => Cell.Trash,
    FUNC_PARAMLIST := fun fn => fn,
    ASSERT_CONTEXT := fun nodes v =>
      decide ((nodes[v]?.map fun a => a.flags.ARRAY_FLAG_VARLIST) = some true) }

/-- The same parameters in a release build (`NDEBUG` defined). -/
def ex_config_release : Config :=
  { ex_config with NDEBUG := true }

/-- A managed parameter list of two parameters (node 0 in the examples). -/
def ex_paramlist : REBSER :=
  { flags := { SeriesFlags.none with NODE_FLAG_MANAGED := true },
    bits := { SeriesInfo.none with SERIES_INFO_HAS_DYNAMIC := true },
    link_keylist := none, misc_f := none, len := 3,
    data := [Cell.Value 0, Cell.Value 1, Cell.Value 2, Cell.END] }

/-- Argument storage of a call with two arguments 7 and 8, not yet a context:
the root slot is trash (node 1 in the examples). -/
def ex_arglist : REBSER :=
  { flags := SeriesFlags.none,
    bits := { SeriesInfo.none with SERIES_INFO_HAS_DYNAMIC := true },
    link_keylist := none, misc_f := none, len := 3,
    data := [Cell.Trash, Cell.Value 7, Cell.Value 8, Cell.END] }

/-- A frame running function 0 on the arguments in node 1, under a native
hold. -/
def ex_frame0 : REBFRM :=
  { Is_Any_Function_Frame := true, Is_Function_Frame_Fulfilling := false,
    varlist := some 1, phase := 0, binding := none, underlying := 0,
    DO_FLAG_NATIVE_HOLD := true }

/-- A frame running the same function 0, still fulfilling its arguments and
without a varlist. -/
def ex_frame1 : REBFRM :=
  { Is_Any_Function_Frame := true, Is_Function_Frame_Fulfilling := true,
    varlist := none, phase := 0, binding := some 1, underlying := 0,
    DO_FLAG_NATIVE_HOLD := false }

/-- Two nodes (the parameter list and the argument storage) and two frames. -/
def ex_memory : Memory :=
  { nodes := [ex_paramlist, ex_arglist], frames := [ex_frame0, ex_frame1] }

/-- The example memory after frame 0 was reified in the debug build. -/
def ex_memory_reified0 : Memory :=
  (Reify_Frame_Context_Maybe_Fulfilling ex_config ex_memory 0).state

/-- The example memory after frame 0 and then frame 1 were reified in the
debug build. -/
def ex_memory_reified01 : Memory :=
  (Reify_Frame_Context_Maybe_Fulfilling ex_config ex_memory_reified0 1).state


/-! ## Popping into an existing array -/

/-- An ANY-ARRAY! value (`REBVAL`): the array `VAL_ARRAY(v)` it refers to and
its position `VAL_INDEX(v)`. -/
structure ANY_ARRAY where
  VAL_ARRAY : REBSER
  VAL_INDEX : Nat
  deriving DecidableEq, Repr

/-- Modelled from the spec: "inserts into an existing caller-supplied growable
sequence at a given position"; `Insert_Series(s, index, data, len)`, outside
the module, puts the `len` cells `values` at position `index` of the array,
moving the cells from `index` on behind them, and returns the position after
the inserted cells. An array too long for the 32-bit `REBCNT` cannot be
allocated. -/
def Insert_Series (s : REBSER) (index : Nat) (values : List Cell) : Option (REBSER × Nat) :=
  if s.len + values.length < 2 ^ 32 then
    some ({ s with len := s.len + values.length,
                   data := (ARR_cells s).take index ++ values ++ (ARR_cells s).drop index
                     ++ [Cell.END] },
          index + values.length)
  else
    none

/-- The procedure `Pop_Stack_Values_Into(into, dsp_start)`. The test of
`FAIL_IF_READ_ONLY_ARRAY`, which is outside the module, is the parameter
`read_only`. The state is the value `into` and the data stack. -/
def Pop_Stack_Values_Into (read_only : REBSER → Bool) (into : ANY_ARRAY) (s : DataStack)
    (dsp_start : Nat) : Outcome (ANY_ARRAY × DataStack) :=
  let len := DSP s - dsp_start
  -- values = ARR_AT(DS_Array, dsp_start + 1), read over `len` cells
  let values := copy_cells_forward len (dsp_start + 1) s.DS_Array.data
  if read_only into.VAL_ARRAY then
    Outcome.failed Error.Read_Only (into, s)
  else
    match Insert_Series into.VAL_ARRAY into.VAL_INDEX values with
    | none => Outcome.failed Error.No_Memory (into, s)
    | some (a, index) =>
      Outcome.returned ({ VAL_ARRAY := a, VAL_INDEX := index }, DS_DROP_TO s dsp_start)

/-! ## Startup and shutdown of the stacks -/

/-- Sizes that the module takes from headers which are not part of it. -/
structure ChunkConfig where
  BASE_CHUNKER_SIZE : Nat
  CS_CHUNKER_PAYLOAD : Nat
  BASE_CHUNK_SIZE : Nat

/-- A chunk header (`struct Reb_Chunk`): whether its header is END-like, the
chunk below it (chunker and byte offset), its byte offset and size, and its
value cells. The cell `values[0]` lies `BASE_CHUNK_SIZE` bytes after the start
of the chunk. -/
structure Reb_Chunk where
  header_endlike : Bool
  prev : Option (Nat × Nat)
  offset : Nat
  size : Nat
  values : List Cell
  deriving DecidableEq, Repr

/-- A chunker (`struct Reb_Chunker`): the next chunker, the payload size in
bytes, and the chunks in its payload, each with the byte offset at which it
starts. -/
structure Reb_Chunker where
  next : Option Nat
  size : Nat
  payload : List (Nat × Reb_Chunk)
  deriving DecidableEq, Repr

/-- The globals of the module. A pointer to a chunker is an index into
`chunkers`, a pointer to a chunk a chunker together with a byte offset into
its payload. `allocated` lists the blocks obtained from `Alloc_Mem` that are
live (pointer and byte count), `freed` the calls of `Free_Mem`. -/
structure Globals where
  chunkers : List Reb_Chunker
  allocated : List (Nat × Nat)
  freed : List (Nat × Nat)
  TG_Root_Chunker : Option Nat
  TG_Top_Chunk : Option (Nat × Nat)
  stack : DataStack
  DS_Array_freed : Bool
  TG_Frame_Stack : Option Nat
  deriving DecidableEq, Repr

/-- The allocator call `Make_Array_Core(capacity, flags)`, outside the module:
an empty array with room for `capacity` cells and the terminator, holding
whatever the allocator left there. -/
def Make_Array_Core (cfg : Config) (capacity : Nat) (flags : SeriesFlags) : REBSER :=
  { flags := flags, bits := { SeriesInfo.none with SERIES_INFO_HAS_DYNAMIC := true },
    link_keylist := none, misc_f := none, len := 0,
    data := (List.range (capacity + 1)).map cfg.junk }

/-- The data-stack array as `Startup_Stacks` sets it up before the first
expansion: one unreadable blank and the END marker. -/
def Startup_DS_Array (cfg : Config) : REBSER :=
  let a := Make_Array_Core cfg 1 { SeriesFlags.none with ARRAY_FLAG_VOIDS_LEGAL := true }
  -- Init_Unreadable_Blank(ARR_HEAD(DS_Array))
  let a1 := { a with data := a.data.set 0 Cell.Unreadable }
  TERM_ARRAY_LEN a1 1

/-- Modelled from the spec: `pop()` "decrements `DSP`" (macro `DS_DROP`). -/
def DS_DROP (s : DataStack) : DataStack :=
  { s with DS_Index := s.DS_Index - 1 }

/-- The procedure `Startup_Stacks(size)`, run on the globals `g`. -/
def Startup_Stacks (cfg : Config) (cc : ChunkConfig) (g : Globals) (size : Nat) :
    Outcome Globals :=
  -- TG_Root_Chunker = Alloc_Mem(BASE_CHUNKER_SIZE + CS_CHUNKER_PAYLOAD)
  let root := g.chunkers.length
  -- the first chunk, at the start of the payload; the END-like header written
  -- BASE_CHUNK_SIZE bytes after it is the header of its cell values[0]
  let chunk : Reb_Chunk :=
    { header_endlike := true, prev := none, offset := 0, size := cc.BASE_CHUNK_SIZE,
      values := [Cell.END] }
  let chunker : Reb_Chunker :=
    { next := none, size := cc.CS_CHUNKER_PAYLOAD, payload := [(0, chunk)] }
  let g1 : Globals :=
    { g with chunkers := g.chunkers ++ [chunker],
             allocated := g.allocated ++ [(root, cc.BASE_CHUNKER_SIZE + cc.CS_CHUNKER_PAYLOAD)],
             TG_Root_Chunker := some root,
             TG_Top_Chunk := some (root, 0) }
  if !cfg.NDEBUG && !(match chunk.values[0]? with
      | some v => IS_END v
      | none => false) then
    Outcome.failed (Error.Assertion 71) g1
  else
    let s1 : DataStack := { DS_Array := Startup_DS_Array cfg, DS_Index := 1 }
    match Expand_Data_Stack_May_Fail cfg s1 size with
    | Outcome.failed e s2 => Outcome.failed e { g1 with stack := s2, DS_Array_freed := false }
    | Outcome.returned s2 =>
      Outcome.returned
        { g1 with stack := DS_DROP s2, DS_Array_freed := false, TG_Frame_Stack := none }

/-- The memory call `Free_Mem(ptr, bytes)`, outside the module: the block is
no longer live and the call is recorded. -/
def Free_Mem (g : Globals) (ptr bytes : Nat) : Globals :=
  { g with allocated := g.allocated.erase (ptr, bytes), freed := g.freed ++ [(ptr, bytes)] }

/-- The test `IS_UNREADABLE_IF_DEBUG(v)` as the debug build evaluates it. -/
def IS_UNREADABLE_IF_DEBUG (c : Cell) : Bool :=
  match c with
  | Cell.Unreadable => true
  | _ => false

/-- The procedure `Shutdown_Stacks()`, run on the globals `g`. Following a
pointer to no chunker ends the run with `Bad_Pointer`. -/
def Shutdown_Stacks (cfg : Config) (cc : ChunkConfig) (g : Globals) : Outcome Globals :=
  if !cfg.NDEBUG && decide (g.TG_Frame_Stack ≠ none) then
    Outcome.failed (Error.Assertion 115) g
  else if !cfg.NDEBUG && decide (DSP g.stack ≠ 0) then
    Outcome.failed (Error.Assertion 116) g
  else if !cfg.NDEBUG && !(match ARR_AT g.stack.DS_Array 0 with
      | some head => IS_UNREADABLE_IF_DEBUG head
      | none => false) then
    Outcome.failed (Error.Assertion 117) g
  else
    -- Free_Array(DS_Array)
    let g1 := { g with DS_Array_freed := true }
    if !cfg.NDEBUG && decide (g1.TG_Top_Chunk ≠ g1.TG_Root_Chunker.map fun r => (r, 0)) then
      Outcome.failed (Error.Assertion 121) g1
    else
      match g1.TG_Root_Chunker.bind fun r => g1.chunkers[r]?.map fun c => (r, c) with
      | none => Outcome.failed Error.Bad_Pointer g1
      | some (r, root) =>
        match root.next with
        | some n =>
          match g1.chunkers[n]? with
          | none => Outcome.failed Error.Bad_Pointer g1
          | some next =>
            let g2 := Free_Mem g1 n (next.size + cc.BASE_CHUNKER_SIZE)
            Outcome.returned (Free_Mem g2 r (root.size + cc.BASE_CHUNKER_SIZE))
        | none => Outcome.returned (Free_Mem g1 r (root.size + cc.BASE_CHUNKER_SIZE))

/-- Sizes for the examples: 16 bytes of chunker header, 2048 bytes of payload,
32 bytes of chunk header. -/
def ex_chunk_config : ChunkConfig :=
  { BASE_CHUNKER_SIZE := 16, CS_CHUNKER_PAYLOAD := 2048, BASE_CHUNK_SIZE := 32 }

/-- Globals before `Startup_Stacks`: nothing allocated. -/
def ex_globals : Globals :=
  { chunkers := [], allocated := [], freed := [], TG_Root_Chunker := none,
    TG_Top_Chunk := none, stack := ex_empty_stack, DS_Array_freed := true,
    TG_Frame_Stack := some 0 }

/-- The globals after `Startup_Stacks(3)` in the example debug build. -/
def ex_globals_started : Globals :=
  (Startup_Stacks ex_config ex_chunk_config ex_globals 3).state

/-- A target block holding 1, 2, 3, positioned at index 1. -/
def ex_into : ANY_ARRAY :=
  { VAL_ARRAY := Make_Array_Of SeriesFlags.none [Cell.Value 1, Cell.Value 2, Cell.Value 3],
    VAL_INDEX := 1 }

/-- A read-only test for the examples: an array on hold is read-only. -/
def ex_read_only (a : REBSER) : Bool := a.bits.SERIES_INFO_HOLD

/-- The target block of the examples put on hold. -/
def ex_into_held : ANY_ARRAY :=
  { ex_into with VAL_ARRAY := SET_SERIES_INFO_HOLD ex_into.VAL_ARRAY }

/-! ## Integer parsing and forming of `src/core/f-math.c`

A byte is a `Nat`; a NUL-terminated string is the list of its bytes before the
terminator and a `REBYTE*` into it is an index, so that reading at the end of
the list gives the terminator 0. `REBINT` is 32-bit signed and `REBI64` 64-bit
signed, written as `Int` with an explicit wrap where the source computes. -/

/-- Wrap-around into the 32-bit signed `REBINT`. -/
def REBINT_wrap (x : Int) : Int := (x + 2 ^ 31) % 2 ^ 32 - 2 ^ 31

/-- Wrap-around into the 64-bit signed `REBI64`. -/
def REBI64_wrap (x : Int) : Int := (x + 2 ^ 63) % 2 ^ 64 - 2 ^ 63

/-- The byte `*cp` of the string `s`. -/
def byte_at (s : List Nat) (cp : Nat) : Nat := s.getD cp 0

/-- The loop `while (*cp >= '0' && *cp <= '9') { value = (value * 10) + (*cp - '0'); cp++; }`
of `Grab_Int`, on the bytes from `cp` on: the final `cp` and `value`. -/
def Grab_Int_digits : List Nat → Nat → Int → Nat × Int
  | [], cp, value => (cp, value)
  | c :: rest, cp, value =>
    if 48 ≤ c ∧ c ≤ 57 then
      Grab_Int_digits rest (cp + 1) (REBINT_wrap (value * 10 + ((c - 48 : Nat) : Int)))
    else (cp, value)

/-- The function `Grab_Int(cp, val)` on the string `s`: the returned position
and the integer stored in `*val`. -/
def Grab_Int (s : List Nat) (cp : Nat) : Nat × Int :=
  let neg := decide (byte_at s cp = 45)
  let cp1 := if byte_at s cp = 45 then cp + 1 else if byte_at s cp = 43 then cp + 1 else cp
  let r := Grab_Int_digits (s.drop cp1) cp1 0
  (r.1, if neg then REBINT_wrap (-r.2) else r.2)

/-- The first loop of `Grab_Int_Scale`,
`for (; scale > 0 && *cp >= '0' && *cp <= '9'; scale--) { ... cp++; }`, on the
bytes from `cp` on: the bytes left, the final `cp`, `value` and `scale`. -/
def Grab_Int_Scale_digits : List Nat → Nat → Int → Nat → List Nat × Nat × Int × Nat
  | [], cp, value, scale => ([], cp, value, scale)
  | c :: rest, cp, value, scale =>
    if 0 < scale ∧ 48 ≤ c ∧ c ≤ 57 then
      Grab_Int_Scale_digits rest (cp + 1)
        (REBI64_wrap (value * 10 + ((c - 48 : Nat) : Int))) (scale - 1)
    else (c :: rest, cp, value, scale)

/-- The loop `while (*cp >= '0' && *cp <= '9') cp++;` on the bytes from `cp`
on. -/
def Grab_Int_Scale_skip : List Nat → Nat → Nat
  | [], cp => cp
  | c :: rest, cp => if 48 ≤ c ∧ c ≤ 57 then Grab_Int_Scale_skip rest (cp + 1) else cp

/-- The loop `for (; scale > 0; scale--) value *= 10;`. -/
def Grab_Int_Scale_full : Nat → Int → Int
  | 0, value => value
  | scale + 1, value => Grab_Int_Scale_full scale (REBI64_wrap (value * 10))

/-- The function `Grab_Int_Scale(cp, val, scale)` on the string `s`: the
returned position and the integer stored in `*val`. -/
def Grab_Int_Scale (s : List Nat) (cp : Nat) (scale : Nat) : Nat × Int :=
  let r := Grab_Int_Scale_digits (s.drop cp) cp 0 scale
  let c := r.1.headD 0
  let value := if 53 ≤ c ∧ c ≤ 57 then REBI64_wrap (r.2.2.1 + 1) else r.2.2.1
  let cp2 := Grab_Int_Scale_skip r.1 r.2.1
  (cp2, REBINT_wrap (Grab_Int_Scale_full r.2.2.2 value))

/-- The loop of `Form_Int_Len` that generates the digits in reverse,
`while (val != 0 && maxl > 0 && tp < tmp + MAX_NUM_LEN) { ... }`, as a function
of the room left in `tmp` (`MAX_NUM_LEN - tp`): the final `tmp`, `tp`, `val`
and `maxl`. -/
def Form_Int_Len_digits : Nat → List Nat → Nat → Int → Int → List Nat × Nat × Int × Int
  | 0, tmp, tp, val, maxl => (tmp, tp, val, maxl)
  | room + 1, tmp, tp, val, maxl =>
    if val ≠ 0 ∧ maxl > 0 then
      let n := val.tdiv 10
      let r := val.tmod 10
      Form_Int_Len_digits room (tmp.set tp ((48 + (r % 256).toNat) % 256)) (tp + 1) n
        (REBINT_wrap (maxl - 1))
    else (tmp, tp, val, maxl)

/-- The loop `while ((*buf++ = *tp--)) len++;` of `Form_Int_Len`, as a function
of the number of cells of `tmp` from `tp` down to `tmp[0]`: the final buffer
and `len`. -/
def Form_Int_Len_copy : Nat → List Nat → Nat → List Nat → Nat → Int → List Nat × Int
  | 0, _, _, buf, _, len => (buf, len)
  | k + 1, tmp, tp, buf, bp, len =>
    let c := tmp.getD tp 0
    let buf1 := buf.set bp c
    if c ≠ 0 then Form_Int_Len_copy k tmp (tp - 1) buf1 (bp + 1) (REBINT_wrap (len + 1))
    else (buf1, len)

/-- The constant `MIN_I64`. -/
def MIN_I64 : Int := -9223372036854775808

/-- The bytes of `MIN_I64_STR`, "-9223372036854775808". -/
def MIN_I64_STR : List Nat :=
  [45, 57, 50, 50, 51, 51, 55, 50, 48, 51, 54, 56, 53, 52, 55, 55, 53, 56, 48, 56]

/-- The call `memcpy(buf + at, bytes, n)`: the bytes stored from `at` on. -/
def memcpy (buf : List Nat) : Nat → List Nat → List Nat
  | _, [] => buf
  | i, b :: bytes => memcpy (buf.set i b) (i + 1) bytes

/-- The function `Form_Int_Len(buf, val, maxl)`, with the constant
`MAX_NUM_LEN` of the headers as a parameter: the buffer afterwards and the
returned length. The local array `tmp` is not read before it is written. -/
def Form_Int_Len (MAX_NUM_LEN : Nat) (buf : List Nat) (val : Int) (maxl : Int) :
    List Nat × Int :=
  -- defaults for problem cases
  let buf0 := (buf.set 0 63).set 1 0
  if maxl = 0 then (buf0, 0)
  else if val = 0 then ((buf0.set 0 48).set 1 0, 1)
  else if val = MIN_I64 then
    let len : Int := MIN_I64_STR.length
    if maxl < len + 1 then (buf0, 0)
    else (memcpy buf0 0 (MIN_I64_STR ++ [0]), len)
  else
    let neg := decide (val < 0)
    let val1 := if neg then REBI64_wrap (-val) else val
    let buf1 := if neg then buf0.set 0 45 else buf0
    let bp := if neg then 1 else 0
    let maxl1 := if neg then REBINT_wrap (maxl - 1) else maxl
    let len : Int := if neg then 1 else 0
    -- *tp++ = 0
    let tmp := (List.replicate MAX_NUM_LEN 0).set 0 0
    let r := Form_Int_Len_digits (MAX_NUM_LEN - 1) tmp 1 val1 maxl1
    -- tp--
    let tp := r.2.1 - 1
    if r.2.2.2 = 0 then (buf1, 0)
    else Form_Int_Len_copy (tp + 1) r.1 tp buf1 bp len

/-- The decimal representation of an integer, stated independently of the
code: a leading '-' for a negative number, then the decimal digits of its
magnitude, most significant first ("0" for zero), as ASCII bytes. -/
def spec_decimal_repr (val : Int) : List Nat :=
  (if val < 0 then [45] else []) ++
    (if val = 0 then [48] else ((Nat.digits 10 val.natAbs).reverse.map fun d => d + 48))

/-- The value of a sequence of decimal digits `d1 .. dk`, most significant
first, stated independently of the code. -/
def spec_decimal_value (ds : List Nat) : Nat := Nat.ofDigits 10 ds.reverse

/-- The string "-x". -/
def ex_minus_x : List Nat := [45, 120]

/-- The string "1'000". -/
def ex_ticked : List Nat := [49, 39, 48, 48, 48]

/-- The string "3000000000". -/
def ex_three_billion : List Nat := [51, 48, 48, 48, 48, 48, 48, 48, 48, 48]

/-- The string "-1234x". -/
def ex_minus_1234 : List Nat := [45, 49, 50, 51, 52, 120]

/-- A buffer of 24 bytes holding 255 everywhere. -/
def ex_buf : List Nat := List.replicate 24 255

/-! ## Padded forming of integers and a spare chunker -/

/-- The call `strcpy(buf + at, src)`: the bytes of `src` up to and with its
NUL are stored from `at` on (the end of the list `src` reads as the NUL). -/
def strcpy (buf : List Nat) : Nat → List Nat → List Nat
  | i, [] => buf.set i 0
  | i, c :: src => if c = 0 then buf.set i 0 else strcpy (buf.set i c) (i + 1) src

/-- The padding loops of `Form_Int_Pad`, `for (; n < len; n++) *buf++ = pad;`
and `for (; n < -len; len++) *buf++ = pad;`, as a function of the number of
iterations: the buffer and the position `buf` afterwards. -/
def Form_Int_Pad_fill : Nat → List Nat → Nat → Nat → List Nat × Nat
  | 0, buf, bp, _ => (buf, bp)
  | k + 1, buf, bp, pad => Form_Int_Pad_fill k (buf.set bp pad) (bp + 1) pad

/-- The function `Form_Int_Pad(buf, val, max, len, pad)`, with the constant
`MAX_NUM_LEN` of the headers as a parameter: the buffer afterwards and the
returned position. The local array `tmp` is not read before
`Form_Int_Len` has written it. -/
def Form_Int_Pad (MAX_NUM_LEN : Nat) (buf : List Nat) (val : Int) (max len : Int)
    (pad : Nat) : List Nat × Nat :=
  let r := Form_Int_Len MAX_NUM_LEN (List.replicate MAX_NUM_LEN 0) val (REBINT_wrap (max + 1))
  let tmp := r.1
  let n := r.2
  if n = 0 then
    -- strcpy(buf, "??"), too long
    (strcpy buf 0 [63, 63], 0)
  else if len ≥ 0 then
    let buf1 := strcpy buf 0 tmp
    let f := Form_Int_Pad_fill (len - n).toNat buf1 n.toNat pad
    (f.1.set f.2 0, f.2)
  else
    let f := Form_Int_Pad_fill (REBINT_wrap (-len) - n).toNat buf 0 pad
    let buf1 := strcpy f.1 f.2 tmp
    (buf1.set (f.2 + n.toNat) 0, f.2 + n.toNat)

/-- Modelled from the spec: when the current chunker has no room the arena
"allocates a new chunker ... and links it in", and "at most one spare chunker
is retained as headroom"; the push and drop routines are outside the module.
A spare chunker with `payload` bytes of payload is allocated like the root
(header plus payload) and linked behind the root. -/
def Link_Spare_Chunker (cc : ChunkConfig) (g : Globals) (payload : Nat) : Globals :=
  match g.TG_Root_Chunker.bind fun r => g.chunkers[r]?.map fun c => (r, c) with
  | none => g
  | some (r, root) =>
    let spare := g.chunkers.length
    { g with chunkers := g.chunkers.set r { root with next := some spare } ++
               [{ next := none, size := payload, payload := [] }],
             allocated := g.allocated ++ [(spare, cc.BASE_CHUNKER_SIZE + payload)] }

/-- The started example globals with a spare chunker of 4096 bytes linked. -/
def ex_globals_spare : Globals :=
  Link_Spare_Chunker ex_chunk_config ex_globals_started 4096

/-- The padded representation of an integer, stated independently of the
code: for `len ≥ 0` the decimal representation followed by copies of `pad` up
to the width `len`, for `len < 0` copies of `pad` up to the width `|len|`
followed by the representation; no padding when the representation is as
wide as `|len|` or wider. -/
def spec_padded (val len : Int) (pad : Nat) : List Nat :=
  if 0 ≤ len then
    spec_decimal_repr val ++ List.replicate (len.natAbs - (spec_decimal_repr val).length) pad
  else
    List.replicate (len.natAbs - (spec_decimal_repr val).length) pad ++ spec_decimal_repr val

/-! ## Lemmas on the copy walks and the fill loop -/

theorem copy_cells_forward_length (k head : Nat) (mem : List Cell) :
    (copy_cells_forward k head mem).length = k := by
  induction k generalizing head with
  | zero => rfl
  | succ k ih => simp [copy_cells_forward, ih]

theorem copy_cells_backward_length (k head : Nat) (mem : List Cell) :
    (copy_cells_backward k head mem).length = k := by
  induction k generalizing head with
  | zero => rfl
  | succ k ih => simp [copy_cells_backward, ih]

theorem copy_cells_forward_get (k head : Nat) (mem : List Cell) (i : Nat) (hi : i < k) :
    (copy_cells_forward k head mem)[i]? = some (mem.getD (head + i) Cell.END) := by
  induction k generalizing head i with
  | zero => omega
  | succ k ih =>
    cases i with
    | zero => simp [copy_cells_forward]
    | succ i =>
      simp only [copy_cells_forward, List.getElem?_cons_succ]
      rw [ih (head + 1) i (by omega)]
      congr 2
      omega

theorem copy_cells_backward_get (k head : Nat) (mem : List Cell) (i : Nat) (hi : i < k) :
    (copy_cells_backward k head mem)[i]? = some (mem.getD (head - i) Cell.END) := by
  induction k generalizing head i with
  | zero => omega
  | succ k ih =>
    cases i with
    | zero => simp [copy_cells_backward]
    | succ i =>
      simp only [copy_cells_backward, List.getElem?_cons_succ]
      rw [ih (head - 1) i (by omega)]
      congr 2
      omega

theorem Expand_fill_cursor (k value : Nat) (data : List Cell) :
    (Expand_fill k value data).2 = value + k := by
  induction k generalizing value data with
  | zero => rfl
  | succ k ih => simp only [Expand_fill, ih]; omega

theorem Expand_fill_length (k value : Nat) (data : List Cell) :
    (Expand_fill k value data).1.length = data.length := by
  induction k generalizing value data with
  | zero => rfl
  | succ k ih => simp only [Expand_fill, ih, List.length_set]

theorem Expand_fill_below (k value : Nat) (data : List Cell) (i : Nat) (hi : i < value) :
    (Expand_fill k value data).1[i]? = data[i]? := by
  induction k generalizing value data with
  | zero => rfl
  | succ k ih =>
    simp only [Expand_fill]
    rw [ih (value + 1) _ (by omega), List.getElem?_set_ne (by omega)]

theorem Expand_fill_above (k value : Nat) (data : List Cell) (i : Nat) (hi : value + k ≤ i) :
    (Expand_fill k value data).1[i]? = data[i]? := by
  induction k generalizing value data with
  | zero => rfl
  | succ k ih =>
    simp only [Expand_fill]
    rw [ih (value + 1) _ (by omega), List.getElem?_set_ne (by omega)]

theorem Expand_fill_inside (k value : Nat) (data : List Cell) (i : Nat)
    (h1 : value ≤ i) (h2 : i < value + k) (h3 : i < data.length) :
    (Expand_fill k value data).1[i]? = some Cell.Unreadable := by
  induction k generalizing value data with
  | zero => omega
  | succ k ih =>
    simp only [Expand_fill]
    by_cases h : i = value
    · subst h
      rw [Expand_fill_below k (i + 1) _ i (by omega)]
      simp [h3]
    · exact ih (value + 1) _ (by omega) (by omega) (by simpa using h3)

/-! ## The state after a data-stack expansion -/

/-- The extended array of a successful `Extend_Series`. -/
theorem Extend_Series_eq_some (cfg : Config) (a b : REBSER) (delta : Nat)
    (h : Extend_Series cfg a delta = some b) :
    SER_REST a + delta < 2 ^ 32 ∧ b.len = a.len ∧ b.data.length = a.data.length + delta ∧
    ∀ i, i < a.data.length → b.data[i]? = a.data[i]? := by
  unfold Extend_Series at h
  split at h
  · rename_i hlt
    cases h
    refine ⟨hlt, rfl, by simp, ?_⟩
    intro i hi
    simp [List.getElem?_append_left hi]
  · cases h

/-- An in-bounds END at the stack pointer puts the pointer below the capacity. -/
theorem lt_rest_of_ARR_AT (a : REBSER) (n : Nat) (c : Cell) (h : ARR_AT a n = some c) :
    n < SER_REST a := by
  unfold ARR_AT at h
  unfold SER_REST
  by_contra hn
  rw [List.getElem?_eq_none (by omega)] at h
  cases h

/-- The outcome of `Expand_Data_Stack_May_Fail`, case by case, for a call made
on the end marker (or in a build without assertions). -/
theorem Expand_outcome (cfg : Config) (s : DataStack) (amount : Nat)
    (hpre : cfg.NDEBUG = true ∨ Expand_entry_ok s = true) :
    (cfg.STACK_LIMIT ≤ REBCNT_wrap (SER_REST s.DS_Array + amount) ∧
      Expand_Data_Stack_May_Fail cfg s amount = Outcome.failed Error.Stack_Overflow s) ∨
    (REBCNT_wrap (SER_REST s.DS_Array + amount) < cfg.STACK_LIMIT ∧
      Extend_Series cfg s.DS_Array amount = none ∧
      Expand_Data_Stack_May_Fail cfg s amount = Outcome.failed Error.No_Memory s) ∨
    (REBCNT_wrap (SER_REST s.DS_Array + amount) < cfg.STACK_LIMIT ∧
      ∃ a, Extend_Series cfg s.DS_Array amount = some a ∧
        (Expand_Data_Stack_May_Fail cfg s amount =
            Outcome.returned { s with DS_Array := (TERM_ARRAY_LEN ({ a with data :=
              (Expand_fill (REBCNT_wrap (s.DS_Array.len + amount) - s.DS_Array.len)
                (DSP s) a.data).1 }) (REBCNT_wrap (s.DS_Array.len + amount))) } ∨
         (cfg.NDEBUG = false ∧
          (Expand_fill (REBCNT_wrap (s.DS_Array.len + amount) - s.DS_Array.len)
                (DSP s) a.data).2 ≠ REBCNT_wrap (s.DS_Array.len + amount) ∧
          Expand_Data_Stack_May_Fail cfg s amount =
            Outcome.failed (Error.Assertion 202) { s with DS_Array := (TERM_ARRAY_LEN ({ a with data :=
              (Expand_fill (REBCNT_wrap (s.DS_Array.len + amount) - s.DS_Array.len)
                (DSP s) a.data).1 }) (REBCNT_wrap (s.DS_Array.len + amount))) }))) := by
  have hentry : (!cfg.NDEBUG && !Expand_entry_ok s) = false := by
    rcases hpre with h | h <;> simp [h]
  unfold Expand_Data_Stack_May_Fail
  simp only [hentry, Bool.false_eq_true, if_false]
  by_cases hlim : cfg.STACK_LIMIT ≤ REBCNT_wrap (SER_REST s.DS_Array + amount)
  · left
    exact ⟨hlim, by simp [hlim]⟩
  · right
    have hlt : REBCNT_wrap (SER_REST s.DS_Array + amount) < cfg.STACK_LIMIT := by omega
    cases hext : Extend_Series cfg s.DS_Array amount with
    | none =>
      left
      exact ⟨hlt, rfl, by simp [hlim]⟩
    | some a =>
      right
      refine ⟨hlt, a, rfl, ?_⟩
      by_cases hcur : (Expand_fill (REBCNT_wrap (s.DS_Array.len + amount) - s.DS_Array.len)
                (DSP s) a.data).2 = REBCNT_wrap (s.DS_Array.len + amount)
      · left
        simp [hlim, TERM_ARRAY_LEN, hcur]
      · by_cases hnd : cfg.NDEBUG = true
        · left
          simp [hlim, TERM_ARRAY_LEN, hnd]
        · right
          have hnd2 : cfg.NDEBUG = false := by simpa using hnd
          exact ⟨hnd2, hcur, by simp [hlim, TERM_ARRAY_LEN, hcur, hnd2]⟩

/-- For a call on the end marker whose extension succeeded, the new length
does not wrap. -/
theorem Expand_len_new (s : DataStack) (amount : Nat)
    (hdsp : DSP s = s.DS_Array.len) (hend : ARR_AT s.DS_Array (DSP s) = some Cell.END)
    (hfit : SER_REST s.DS_Array + amount < 2 ^ 32) :
    REBCNT_wrap (s.DS_Array.len + amount) = s.DS_Array.len + amount := by
  have hlt := lt_rest_of_ARR_AT _ _ _ hend
  unfold REBCNT_wrap
  exact Nat.mod_eq_of_lt (by omega)

theorem Expand_entry_ok_of (s : DataStack)
    (hdsp : DSP s = s.DS_Array.len) (hend : ARR_AT s.DS_Array (DSP s) = some Cell.END) :
    Expand_entry_ok s = true := by
  simp only [Expand_entry_ok, hend]
  simp [hdsp, IS_END]

theorem Expand_entry_ok_elim (s : DataStack) (h : Expand_entry_ok s = true) :
    ARR_AT s.DS_Array (DSP s) = some Cell.END ∧ DSP s = s.DS_Array.len := by
  simp only [Expand_entry_ok, Bool.and_eq_true, decide_eq_true_eq] at h
  refine ⟨?_, h.2⟩
  cases hc : ARR_AT s.DS_Array (DSP s) with
  | none => simp [hc] at h
  | some c =>
    cases c <;> simp [hc, IS_END] at h
    rfl

/-! ## Claims on the data stack -/

/-- C1: for every data stack whose top lies inside the allocation and every
mark `dsp_start ≤ DSP`, `Pop_Stack_Values_Core(dsp_start, flags)` returns a new
array of length `DSP - dsp_start` whose element `i` is the stack cell at index
`dsp_start + 1 + i`, terminated by an END; afterwards `DSP = dsp_start` and the
stack array itself is untouched. -/
theorem Pop_Stack_Values_Core_forward (s : DataStack) (dsp_start : Nat) (flags : SeriesFlags)
    (hmark : dsp_start ≤ DSP s) (htop : DSP s < SER_REST s.DS_Array) :
    (Pop_Stack_Values_Core s dsp_start flags).1.len = DSP s - dsp_start ∧
    (∀ i, i < DSP s - dsp_start →
      ∃ c, ARR_AT s.DS_Array (dsp_start + 1 + i) = some c ∧
        ARR_AT (Pop_Stack_Values_Core s dsp_start flags).1 i = some c) ∧
    ARR_AT (Pop_Stack_Values_Core s dsp_start flags).1 (DSP s - dsp_start) = some Cell.END ∧
    DSP (Pop_Stack_Values_Core s dsp_start flags).2 = dsp_start ∧
    (Pop_Stack_Values_Core s dsp_start flags).2.DS_Array = s.DS_Array := by
  refine ⟨?_, ?_, ?_, rfl, rfl⟩
  · simp [Pop_Stack_Values_Core, Copy_Values_Len_Shallow_Core, Make_Array_Of,
      copy_cells_forward_length]
  · intro i hi
    have hin : dsp_start + 1 + i < s.DS_Array.data.length := by
      unfold SER_REST at htop
      omega
    refine ⟨s.DS_Array.data[dsp_start + 1 + i], ?_, ?_⟩
    · simp [ARR_AT, hin]
    · simp only [ARR_AT, Pop_Stack_Values_Core, Copy_Values_Len_Shallow_Core, Make_Array_Of]
      rw [List.getElem?_append_left (by simpa [copy_cells_forward_length] using hi),
        copy_cells_forward_get _ _ _ _ hi]
      simp [hin]
  · simp only [ARR_AT, Pop_Stack_Values_Core, Copy_Values_Len_Shallow_Core, Make_Array_Of]
    rw [List.getElem?_append_right (by simp [copy_cells_forward_length])]
    simp [copy_cells_forward_length]

/-- Witness of C1: pushing 10, 20, 30 from mark 0 and collecting from mark 0
gives the array 10, 20, 30 and leaves `DSP = 0`. -/
theorem Pop_Stack_Values_Core_forward_witness :
    0 ≤ DSP ex_stack_10_20_30 ∧
    DSP ex_stack_10_20_30 < SER_REST ex_stack_10_20_30.DS_Array ∧
    (Pop_Stack_Values_Core ex_stack_10_20_30 0 SeriesFlags.none).1.len = 3 ∧
    ARR_cells (Pop_Stack_Values_Core ex_stack_10_20_30 0 SeriesFlags.none).1 =
      [Cell.Value 10, Cell.Value 20, Cell.Value 30] ∧
    DSP (Pop_Stack_Values_Core ex_stack_10_20_30 0 SeriesFlags.none).2 = 0 :=
  ⟨by decide, by decide,
    (Pop_Stack_Values_Core_forward ex_stack_10_20_30 0 SeriesFlags.none
      (by decide) (by decide)).1,
    by decide,
    (Pop_Stack_Values_Core_forward ex_stack_10_20_30 0 SeriesFlags.none
      (by decide) (by decide)).2.2.2.1⟩

/-- C2: for every data stack whose top lies inside the allocation and every
mark `dsp_start ≤ DSP`, the contents of the array returned by
`Pop_Stack_Values_Reversed(dsp_start)` are the reverse of the contents of the
array `Pop_Stack_Values_Core(dsp_start, flags)` returns from the same state,
its element `i` is the stack cell at index `DSP - i`, both arrays have length
`DSP - dsp_start`, and both calls leave `DSP = dsp_start`. -/
theorem Pop_Stack_Values_Reversed_reverse (s : DataStack) (dsp_start : Nat)
    (flags : SeriesFlags) (hmark : dsp_start ≤ DSP s) (htop : DSP s < SER_REST s.DS_Array) :
    ARR_cells (Pop_Stack_Values_Reversed s dsp_start).1 =
      (ARR_cells (Pop_Stack_Values_Core s dsp_start flags).1).reverse ∧
    (Pop_Stack_Values_Reversed s dsp_start).1.len = DSP s - dsp_start ∧
    (Pop_Stack_Values_Core s dsp_start flags).1.len = DSP s - dsp_start ∧
    (∀ i, i < DSP s - dsp_start →
      ∃ c, ARR_AT s.DS_Array (DSP s - i) = some c ∧
        ARR_AT (Pop_Stack_Values_Reversed s dsp_start).1 i = some c) ∧
    DSP (Pop_Stack_Values_Reversed s dsp_start).2 = dsp_start ∧
    DSP (Pop_Stack_Values_Core s dsp_start flags).2 = dsp_start := by
  have hlen : s.DS_Array.data.length = SER_REST s.DS_Array := rfl
  refine ⟨?_, ?_, ?_, ?_, rfl, rfl⟩
  · simp only [ARR_cells, Pop_Stack_Values_Reversed, Pop_Stack_Values_Core,
      Copy_Values_Len_Reversed_Shallow, Copy_Values_Len_Shallow_Core, Make_Array_Of]
    rw [List.take_left, List.take_left]
    apply List.ext_getElem?
    intro i
    by_cases hi : i < DSP s - dsp_start
    · rw [copy_cells_backward_get _ _ _ _ hi,
        List.getElem?_reverse (by simpa [copy_cells_forward_length] using hi),
        copy_cells_forward_length,
        copy_cells_forward_get _ _ _ _ (by omega)]
      congr 2
      omega
    · rw [List.getElem?_eq_none (by simp [copy_cells_backward_length]; omega),
        List.getElem?_eq_none (by simp [copy_cells_forward_length]; omega)]
  · simp [Pop_Stack_Values_Reversed, Copy_Values_Len_Reversed_Shallow, Make_Array_Of,
      copy_cells_backward_length]
  · simp [Pop_Stack_Values_Core, Copy_Values_Len_Shallow_Core, Make_Array_Of,
      copy_cells_forward_length]
  · intro i hi
    have hin : DSP s - i < s.DS_Array.data.length := by omega
    refine ⟨s.DS_Array.data[DSP s - i], ?_, ?_⟩
    · simp [ARR_AT, hin]
    · simp only [ARR_AT, Pop_Stack_Values_Reversed, Copy_Values_Len_Reversed_Shallow,
        Make_Array_Of]
      rw [List.getElem?_append_left (by simpa [copy_cells_backward_length] using hi),
        copy_cells_backward_get _ _ _ _ hi]
      simp [hin]

/-- Witness of C2: with 10, 20, 30 pushed from mark 0 the reversed collection
is 30, 20, 10, the reverse of the forward one, and `DSP` ends at 0. -/
theorem Pop_Stack_Values_Reversed_reverse_witness :
    0 ≤ DSP ex_stack_10_20_30 ∧
    DSP ex_stack_10_20_30 < SER_REST ex_stack_10_20_30.DS_Array ∧
    ARR_cells (Pop_Stack_Values_Reversed ex_stack_10_20_30 0).1 =
      [Cell.Value 30, Cell.Value 20, Cell.Value 10] ∧
    ARR_cells (Pop_Stack_Values_Reversed ex_stack_10_20_30 0).1 =
      (ARR_cells (Pop_Stack_Values_Core ex_stack_10_20_30 0 SeriesFlags.none).1).reverse ∧
    DSP (Pop_Stack_Values_Reversed ex_stack_10_20_30 0).2 = 0 :=
  ⟨by decide, by decide, by decide,
    (Pop_Stack_Values_Reversed_reverse ex_stack_10_20_30 0 SeriesFlags.none
      (by decide) (by decide)).1,
    by decide⟩

/-- Counterexample to C3 as stated: with capacity 5, `amount = 995` and
`STACK_LIMIT = 1000` the new capacity reaches the limit exactly and does not
exceed it, the call is made on the end marker, and yet it raises the
stack-overflow error. -/
theorem Expand_at_limit_overflows :
    SER_REST ex_full_stack.DS_Array + 995 = ex_config.STACK_LIMIT ∧
    ¬ (SER_REST ex_full_stack.DS_Array + 995 > ex_config.STACK_LIMIT) ∧
    Expand_entry_ok ex_full_stack = true ∧
    Expand_Data_Stack_May_Fail ex_config ex_full_stack 995 =
      Outcome.failed Error.Stack_Overflow ex_full_stack := by
  decide

/-- C3 (amended): called on the end marker (as its assertions require, or in
a build without assertions), `Expand_Data_Stack_May_Fail(amount)` raises the
stack-overflow error exactly when the current capacity plus `amount`, added in
32-bit `REBCNT` arithmetic, is greater than or equal to `STACK_LIMIT`; every
request whose new capacity stays strictly below `STACK_LIMIT` returns. -/
theorem Expand_overflow_iff (cfg : Config) (s : DataStack) (amount : Nat)
    (hpre : cfg.NDEBUG = true ∨ Expand_entry_ok s = true)
    (hlimit : cfg.STACK_LIMIT ≤ 2 ^ 32) :
    ((∃ s', Expand_Data_Stack_May_Fail cfg s amount = Outcome.failed Error.Stack_Overflow s') ↔
      cfg.STACK_LIMIT ≤ REBCNT_wrap (SER_REST s.DS_Array + amount)) ∧
    (SER_REST s.DS_Array + amount < cfg.STACK_LIMIT →
      ∃ s', Expand_Data_Stack_May_Fail cfg s amount = Outcome.returned s') := by
  constructor
  · constructor
    · rintro ⟨s', h⟩
      rcases Expand_outcome cfg s amount hpre with ⟨hl, _⟩ | ⟨_, _, h2⟩ | ⟨_, a, _, h2 | ⟨_, _, h2⟩⟩
      · exact hl
      · rw [h2] at h; cases h
      · rw [h2] at h; cases h
      · rw [h2] at h; cases h
    · intro hl
      rcases Expand_outcome cfg s amount hpre with ⟨_, h2⟩ | ⟨hlt, _⟩ | ⟨hlt, _⟩
      · exact ⟨s, h2⟩
      · omega
      · omega
  · intro hlt
    have hfit : SER_REST s.DS_Array + amount < 2 ^ 32 := by omega
    have hwrap : REBCNT_wrap (SER_REST s.DS_Array + amount) = SER_REST s.DS_Array + amount :=
      Nat.mod_eq_of_lt hfit
    rcases Expand_outcome cfg s amount hpre with
      ⟨hl, _⟩ | ⟨_, hnone, _⟩ | ⟨_, a, _, h2 | ⟨hnd, hcur, _⟩⟩
    · omega
    · exfalso
      unfold Extend_Series at hnone
      rw [if_pos hfit] at hnone
      cases hnone
    · exact ⟨_, h2⟩
    · exfalso
      have hok : Expand_entry_ok s = true := by
        rcases hpre with h | h
        · rw [hnd] at h; cases h
        · exact h
      have hok := Expand_entry_ok_elim s hok
      rw [Expand_fill_cursor, Expand_len_new s amount hok.2 hok.1 hfit, hok.2] at hcur
      omega

/-- Witness of C3: on the full example stack (capacity 5) with limit 1000, a
request of 994 cells stays below the limit and is granted. -/
theorem Expand_overflow_iff_witness :
    (ex_config.NDEBUG = true ∨ Expand_entry_ok ex_full_stack = true) ∧
    ex_config.STACK_LIMIT ≤ 2 ^ 32 ∧
    SER_REST ex_full_stack.DS_Array + 994 < ex_config.STACK_LIMIT ∧
    ∃ s', Expand_Data_Stack_May_Fail ex_config ex_full_stack 994 = Outcome.returned s' :=
  ⟨Or.inr (by decide), by decide, by decide,
    (Expand_overflow_iff ex_config ex_full_stack 994 (Or.inr (by decide)) (by decide)).2
      (by decide)⟩

/-- C4: when `Expand_Data_Stack_May_Fail(amount)` raises the stack-overflow
error, the state in which it is raised is the state before the call: array
length, every cell, the end marker and `DSP` are unchanged. -/
theorem Expand_overflow_no_growth (cfg : Config) (s s' : DataStack) (amount : Nat)
    (h : Expand_Data_Stack_May_Fail cfg s amount = Outcome.failed Error.Stack_Overflow s') :
    s' = s ∧ s'.DS_Array.len = s.DS_Array.len ∧ s'.DS_Array.data = s.DS_Array.data ∧
    DSP s' = DSP s := by
  have hs : s' = s := by
    unfold Expand_Data_Stack_May_Fail at h
    simp only at h
    split at h
    · cases h
    · split at h
      · cases h; rfl
      · split at h
        · cases h
        · split at h <;> cases h
  subst hs
  exact ⟨rfl, rfl, rfl, rfl⟩

/-- Witness of C4: one cell over the limit (capacity 5, request 996, limit
1000) raises the overflow error and leaves the example stack as it was. -/
theorem Expand_overflow_no_growth_witness :
    Expand_Data_Stack_May_Fail ex_config ex_full_stack 996 =
      Outcome.failed Error.Stack_Overflow ex_full_stack ∧
    ex_full_stack.DS_Array.len = 4 ∧ DSP ex_full_stack = 4 :=
  ⟨by decide,
    (Expand_overflow_no_growth ex_config ex_full_stack ex_full_stack 996 (by decide)).2.1,
    (Expand_overflow_no_growth ex_config ex_full_stack ex_full_stack 996 (by decide)).2.2.2⟩

/-- C5: growth is transparent to index-based access. For a call made on the
end marker (`DSP` equals the array length and the cell there is the END) with
an `amount` that passes the limit check, in the state in which
`Expand_Data_Stack_May_Fail(amount)` ends every cell at an index below the old
length holds the value it held before and `DSP` is unchanged; and the call
returns whenever the new capacity fits a `REBCNT`. -/
theorem Expand_preserves_cells (cfg : Config) (s : DataStack) (amount : Nat)
    (hdsp : DSP s = s.DS_Array.len) (hend : ARR_AT s.DS_Array (DSP s) = some Cell.END)
    (hcheck : REBCNT_wrap (SER_REST s.DS_Array + amount) < cfg.STACK_LIMIT) :
    (SER_REST s.DS_Array + amount < 2 ^ 32 →
      ∃ s', Expand_Data_Stack_May_Fail cfg s amount = Outcome.returned s') ∧
    (∀ i, i < s.DS_Array.len →
      ARR_AT (Expand_Data_Stack_May_Fail cfg s amount).state.DS_Array i =
        ARR_AT s.DS_Array i) ∧
    DSP (Expand_Data_Stack_May_Fail cfg s amount).state = DSP s := by
  have hok := Expand_entry_ok_of s hdsp hend
  have hrest := lt_rest_of_ARR_AT _ _ _ hend
  have hkeep : ∀ a, Extend_Series cfg s.DS_Array amount = some a → ∀ i, i < s.DS_Array.len →
      ARR_AT (TERM_ARRAY_LEN ({ a with data :=
          (Expand_fill (REBCNT_wrap (s.DS_Array.len + amount) - s.DS_Array.len)
            (DSP s) a.data).1 }) (REBCNT_wrap (s.DS_Array.len + amount))) i =
        ARR_AT s.DS_Array i := by
    intro a ha i hi
    obtain ⟨hfit, _, _, hsame⟩ := Extend_Series_eq_some cfg _ _ _ ha
    rw [Expand_len_new s amount hdsp hend hfit]
    simp only [ARR_AT, TERM_ARRAY_LEN]
    rw [List.getElem?_set_ne (by omega), Expand_fill_below _ _ _ _ (by omega)]
    exact hsame i (by unfold SER_REST at hrest; omega)
  rcases Expand_outcome cfg s amount (Or.inr hok) with
    ⟨hl, _⟩ | ⟨_, hnone, h2⟩ | ⟨_, a, ha, h2 | ⟨_, hcur, h2⟩⟩
  · omega
  · refine ⟨?_, ?_, ?_⟩
    · intro hfit
      exfalso
      unfold Extend_Series at hnone
      rw [if_pos hfit] at hnone
      cases hnone
    · intro i _
      rw [h2]
      rfl
    · rw [h2]
      rfl
  · refine ⟨fun _ => ⟨_, h2⟩, ?_, ?_⟩
    · intro i hi
      rw [h2]
      exact hkeep a ha i hi
    · rw [h2]
      rfl
  · exfalso
    obtain ⟨hfit, _, _, _⟩ := Extend_Series_eq_some cfg _ _ _ ha
    rw [Expand_fill_cursor, Expand_len_new s amount hdsp hend hfit, hdsp] at hcur
    omega

/-- Witness of C5: expanding the full example stack by 3 cells returns and
keeps the cells 10, 20, 30 at indices 1, 2, 3 and `DSP = 4`. -/
theorem Expand_preserves_cells_witness :
    DSP ex_full_stack = ex_full_stack.DS_Array.len ∧
    ARR_AT ex_full_stack.DS_Array (DSP ex_full_stack) = some Cell.END ∧
    REBCNT_wrap (SER_REST ex_full_stack.DS_Array + 3) < ex_config.STACK_LIMIT ∧
    ARR_AT (Expand_Data_Stack_May_Fail ex_config ex_full_stack 3).state.DS_Array 2 =
      some (Cell.Value 20) ∧
    DSP (Expand_Data_Stack_May_Fail ex_config ex_full_stack 3).state = 4 :=
  ⟨by decide, by decide, by decide,
    ((Expand_preserves_cells ex_config ex_full_stack 3 (by decide) (by decide)
      (by decide)).2.1 2 (by decide)).trans (by decide),
    (Expand_preserves_cells ex_config ex_full_stack 3 (by decide) (by decide)
      (by decide)).2.2⟩

/-- C6: when `Expand_Data_Stack_May_Fail(amount)`, called on the end marker
with old array length `L` and `DSP = L`, returns, the array has length
`L + amount`, every slot at indices `L .. L + amount - 1` holds the unreadable
blank (which is not an END), the END marker sits at index `L + amount`, `DSP`
is still `L`, and the final cursor of the fill loop is the new array tail. -/
theorem Expand_fills_new_slots (cfg : Config) (s s' : DataStack) (amount : Nat)
    (hdsp : DSP s = s.DS_Array.len) (hend : ARR_AT s.DS_Array (DSP s) = some Cell.END)
    (h : Expand_Data_Stack_May_Fail cfg s amount = Outcome.returned s') :
    s'.DS_Array.len = s.DS_Array.len + amount ∧
    (∀ i, s.DS_Array.len ≤ i → i < s.DS_Array.len + amount →
      ARR_AT s'.DS_Array i = some Cell.Unreadable) ∧
    IS_END Cell.Unreadable = false ∧
    ARR_AT s'.DS_Array (s.DS_Array.len + amount) = some Cell.END ∧
    DSP s' = s.DS_Array.len ∧
    (∃ a, Extend_Series cfg s.DS_Array amount = some a ∧
      (Expand_fill (s'.DS_Array.len - s.DS_Array.len) (DSP s) a.data).2 = s'.DS_Array.len) := by
  have hok := Expand_entry_ok_of s hdsp hend
  have hrest := lt_rest_of_ARR_AT _ _ _ hend
  rcases Expand_outcome cfg s amount (Or.inr hok) with
    ⟨_, h2⟩ | ⟨_, _, h2⟩ | ⟨_, a, ha, h2 | ⟨_, _, h2⟩⟩
  · rw [h2] at h; cases h
  · rw [h2] at h; cases h
  · rw [h2] at h
    cases h
    obtain ⟨hfit, _, hlen, _⟩ := Extend_Series_eq_some cfg _ _ _ ha
    have hnew := Expand_len_new s amount hdsp hend hfit
    unfold SER_REST at hrest
    rw [hdsp] at hrest
    simp only [hnew, hdsp]
    refine ⟨rfl, ?_, rfl, ?_, hdsp, ?_⟩
    · intro i h1 h2
      simp only [ARR_AT, TERM_ARRAY_LEN]
      rw [List.getElem?_set_ne (by omega)]
      exact Expand_fill_inside _ _ _ _ h1 (by omega) (by omega)
    · simp only [ARR_AT, TERM_ARRAY_LEN]
      rw [List.getElem?_set_self (by rw [Expand_fill_length]; omega)]
    · refine ⟨a, ha, ?_⟩
      simp only [TERM_ARRAY_LEN]
      rw [Expand_fill_cursor]
      omega
  · rw [h2] at h; cases h

/-- Witness of C6: expanding the full example stack (length 4) by 3 cells
returns a stack of length 7 with END at index 7. -/
theorem Expand_fills_new_slots_witness :
    DSP ex_full_stack = ex_full_stack.DS_Array.len ∧
    ARR_AT ex_full_stack.DS_Array (DSP ex_full_stack) = some Cell.END ∧
    ∃ s', Expand_Data_Stack_May_Fail ex_config ex_full_stack 3 = Outcome.returned s' ∧
      s'.DS_Array.len = 4 + 3 ∧
      ARR_AT s'.DS_Array 5 = some Cell.Unreadable ∧
      ARR_AT s'.DS_Array (4 + 3) = some Cell.END :=
  ⟨by decide, by decide,
    (Expand_Data_Stack_May_Fail ex_config ex_full_stack 3).state, by decide,
    (Expand_fills_new_slots ex_config ex_full_stack _ 3 (by decide) (by decide)
      (by decide)).1,
    (Expand_fills_new_slots ex_config ex_full_stack _ 3 (by decide) (by decide)
      (by decide)).2.1 5 (by decide) (by decide),
    (Expand_fills_new_slots ex_config ex_full_stack _ 3 (by decide) (by decide)
      (by decide)).2.2.2.1⟩

/-! ## The nodes after a reification -/

theorem modify_node_get (nodes : List REBSER) (p : Nat) (g : REBSER → REBSER) (i : Nat) :
    (modify_node nodes p g)[i]? = if i = p then nodes[i]?.map g else nodes[i]? := by
  unfold modify_node
  by_cases hip : i = p
  · subst hip
    cases hget : nodes[i]? with
    | none => simp [hget]
    | some a =>
      have hlt : i < nodes.length := by
        by_contra hn
        rw [List.getElem?_eq_none (by omega)] at hget
        cases hget
      simp [hlt]
  · cases hget : nodes[p]? with
    | none => simp [hip]
    | some a =>
      simp only [hip, if_false]
      exact List.getElem?_set_ne (fun h => hip h.symm)

theorem Reify_nodes_get (nodes : List REBSER) (f v k : Nat) (fr : REBFRM) (i : Nat) :
    (Reify_nodes nodes f v k fr)[i]? = nodes[i]?.map (Reify_node f v k fr i) := by
  unfold Reify_nodes INIT_CTX_KEYLIST_SHARED Reify_node
  cases hh : fr.DO_FLAG_NATIVE_HOLD <;>
  by_cases hv : i = v <;> by_cases hk : i = k <;>
  cases hget : nodes[i]? <;>
  simp [modify_node_get, hv, hk, hget] <;>
  simp_all

theorem Reify_context_returned (cfg : Config) (m m' : Memory) (f v : Nat) (fr : REBFRM)
    (h : Reify_context cfg m f fr v = Outcome.returned m') :
    m' = { m with nodes := Reify_nodes m.nodes f v (cfg.FUNC_PARAMLIST fr.underlying) fr } ∧
    m.nodes[cfg.FUNC_PARAMLIST fr.underlying]? ≠ none ∧
    ((INIT_CTX_KEYLIST_SHARED m.nodes v (cfg.FUNC_PARAMLIST fr.underlying))[v]?.bind
      fun a => a.data[0]?) ≠ none := by
  unfold Reify_context at h
  unfold Reify_nodes
  cases hh : fr.DO_FLAG_NATIVE_HOLD <;>
  simp only [hh, Bool.false_eq_true, if_false, if_true] at h ⊢ <;>
  · split at h
    · cases h
    · rename_i hk
      split at h
      · cases h
      · rename_i hroot
        split at h
        · cases h
        · split at h
          · cases h
          · split at h
            · cases h
            · cases h
              exact ⟨rfl, hk, hroot⟩

theorem Reify_varlist_ok (cfg : Config) (m m1 : Memory) (f v : Nat) (fr : REBFRM)
    (h : Reify_varlist cfg m f fr = Except.ok (m1, v)) :
    (fr.varlist = some v ∧ m1 = { m with nodes := modify_node m.nodes v SET_ARRAY_FLAG_VARLIST } ∧
      ∃ a, m.nodes[v]? = some a ∧
        (cfg.NDEBUG = false → a.flags.ARRAY_FLAG_VARLIST = false)) ∨
    (fr.varlist = none ∧ v = m.nodes.length ∧
      m1 = { nodes := m.nodes ++ [Reify_fresh_varlist],
             frames := m.frames.set f { fr with varlist := some v } }) := by
  unfold Reify_varlist at h
  split at h
  · rename_i w hw
    split at h
    · cases h
    · rename_i a ha
      split at h
      · cases h
      · rename_i hflag
        split at h
        · cases h
        · split at h
          · cases h
          · cases h
            left
            refine ⟨hw, rfl, a, ha, ?_⟩
            intro hnd
            simpa [hnd] using hflag
  · rename_i hw
    cases h
    right
    exact ⟨hw, rfl, rfl⟩

/-- The memory with which `Reify_Frame_Context_Maybe_Fulfilling(f)` returns:
`f->varlist` is `v`, the other frames are as before, and the nodes are those
of `base` (the nodes before the call with the varlist flagged, or with a fresh
varlist appended) after the updates of lines 301-337. -/
theorem Reify_returned (cfg : Config) (m m' : Memory) (f : Nat) (fr : REBFRM)
    (hf : m.frames[f]? = some fr)
    (h : Reify_Frame_Context_Maybe_Fulfilling cfg m f = Outcome.returned m') :
    ∃ v a1 base,
      m'.frames[f]? = some { fr with varlist := some v } ∧
      (∀ g, g ≠ f → m'.frames[g]? = m.frames[g]?) ∧
      base[v]? = some a1 ∧ a1.flags.ARRAY_FLAG_VARLIST = true ∧ a1.data[0]? ≠ none ∧
      base[cfg.FUNC_PARAMLIST fr.underlying]? ≠ none ∧
      m'.nodes = Reify_nodes base f v (cfg.FUNC_PARAMLIST fr.underlying) fr ∧
      ((fr.varlist = some v ∧ base = modify_node m.nodes v SET_ARRAY_FLAG_VARLIST ∧
          ∃ a, m.nodes[v]? = some a ∧ a1 = SET_ARRAY_FLAG_VARLIST a ∧
            (cfg.NDEBUG = false → a.flags.ARRAY_FLAG_VARLIST = false)) ∨
       (fr.varlist = none ∧ v = m.nodes.length ∧ base = m.nodes ++ [Reify_fresh_varlist])) ∧
      (cfg.NDEBUG = false → fr.Is_Any_Function_Frame = true) := by
  unfold Reify_Frame_Context_Maybe_Fulfilling at h
  rw [hf] at h
  simp only at h
  split at h
  · cases h
  · rename_i hfun
    have hfn : cfg.NDEBUG = false → fr.Is_Any_Function_Frame = true := by
      intro hnd
      simpa [hnd] using hfun
    split at h
    · cases h
    · rename_i m1 v hvar
      obtain ⟨hm', hk, hroot⟩ := Reify_context_returned cfg m1 m' f v fr h
      have hflt : f < m.frames.length := by
        by_contra hn
        rw [List.getElem?_eq_none (by omega)] at hf
        cases hf
      rcases Reify_varlist_ok cfg m m1 f v fr hvar with ⟨hw, hm1, a, ha, hdbg⟩ | ⟨hw, hv, hm1⟩
      · subst hm1
        have hbase : (modify_node m.nodes v SET_ARRAY_FLAG_VARLIST)[v]? =
            some (SET_ARRAY_FLAG_VARLIST a) := by
          simp [modify_node_get, ha]
        refine ⟨v, SET_ARRAY_FLAG_VARLIST a, _, ?_, ?_, hbase, rfl, ?_, hk, ?_,
          Or.inl ⟨hw, rfl, a, ha, rfl, hdbg⟩, hfn⟩
        · rw [hm', hf]
          cases fr
          simp_all
        · intro g _
          rw [hm']
        · intro hnone
          apply hroot
          simp [INIT_CTX_KEYLIST_SHARED, modify_node_get, ha, SET_ARRAY_FLAG_VARLIST] at hnone ⊢
          by_cases hvk : v = cfg.FUNC_PARAMLIST fr.underlying
          · simp only [← hvk, if_true]
            simp [ha, SET_ARRAY_FLAG_VARLIST, SET_SERIES_INFO_SHARED_KEYLIST, hnone]
          · simp [hvk, ha, SET_ARRAY_FLAG_VARLIST, hnone]
        · rw [hm']
      · subst hm1
        subst hv
        have hbase : (m.nodes ++ [Reify_fresh_varlist])[m.nodes.length]? =
            some Reify_fresh_varlist := by
          simp
        refine ⟨m.nodes.length, Reify_fresh_varlist, _, ?_, ?_, hbase, rfl, ?_, hk, ?_,
          Or.inr ⟨hw, rfl, rfl⟩, hfn⟩
        · rw [hm']
          simp [hflt]
        · intro g hg
          rw [hm']
          simp only
          rw [List.getElem?_set_ne (fun h => hg h.symm)]
        · simp [Reify_fresh_varlist, SET_CONTEXT_INFO_STACK, Alloc_Singular_Array_Core]
        · rw [hm']

/-- The varlist node with which a reification returns: it is the node `a1`
(the flagged old varlist, or the fresh one) after the updates of lines
301-337. -/
theorem Reify_returned_node (cfg : Config) (m m' : Memory) (f : Nat) (fr : REBFRM)
    (hf : m.frames[f]? = some fr)
    (h : Reify_Frame_Context_Maybe_Fulfilling cfg m f = Outcome.returned m') :
    ∃ v a1,
      m'.frames[f]? = some { fr with varlist := some v } ∧
      m'.nodes[v]? = some (Reify_node f v (cfg.FUNC_PARAMLIST fr.underlying) fr v a1) ∧
      a1.flags.ARRAY_FLAG_VARLIST = true ∧ a1.data[0]? ≠ none ∧
      ((fr.varlist = some v ∧ ∃ a, m.nodes[v]? = some a ∧ a1 = SET_ARRAY_FLAG_VARLIST a) ∨
       (fr.varlist = none ∧ v = m.nodes.length ∧ a1 = Reify_fresh_varlist)) := by
  obtain ⟨v, a1, base, hfr, _, hbase, hflag, hroot, _, hnodes, hcase, _⟩ :=
    Reify_returned cfg m m' f fr hf h
  refine ⟨v, a1, hfr, ?_, hflag, hroot, ?_⟩
  · rw [hnodes, Reify_nodes_get, hbase]
    rfl
  · rcases hcase with ⟨hw, hb, a, ha, ha1, _⟩ | ⟨hw, hv, hb⟩
    · exact Or.inl ⟨hw, a, ha, ha1⟩
    · right
      refine ⟨hw, hv, ?_⟩
      subst hb
      subst hv
      simpa using hbase.symm

/-- A node whose key-list link is the parameter list of the function of frame
`f` still has that link after `f` is reified. -/
theorem Reify_keeps_keylist (cfg : Config) (m m' : Memory) (f p : Nat) (fr : REBFRM) (a : REBSER)
    (hf : m.frames[f]? = some fr)
    (h : Reify_Frame_Context_Maybe_Fulfilling cfg m f = Outcome.returned m')
    (ha : m.nodes[p]? = some a)
    (hlink : a.link_keylist = some (cfg.FUNC_PARAMLIST fr.underlying)) :
    ∃ a', m'.nodes[p]? = some a' ∧
      a'.link_keylist = some (cfg.FUNC_PARAMLIST fr.underlying) := by
  obtain ⟨v, a1, base, _, _, _, _, _, _, hnodes, hcase, _⟩ := Reify_returned cfg m m' f fr hf h
  have hp : p < m.nodes.length := by
    by_contra hn
    rw [List.getElem?_eq_none (by omega)] at ha
    cases ha
  have hbase : ∃ b, base[p]? = some b ∧
      b.link_keylist = some (cfg.FUNC_PARAMLIST fr.underlying) := by
    rcases hcase with ⟨_, hb, _⟩ | ⟨_, _, hb⟩
    · subst hb
      by_cases hpv : p = v
      · subst hpv
        exact ⟨SET_ARRAY_FLAG_VARLIST a, by simp [modify_node_get, ha], hlink⟩
      · exact ⟨a, by simp [modify_node_get, hpv, ha], hlink⟩
    · subst hb
      exact ⟨a, by rw [List.getElem?_append_left hp, ha], hlink⟩
  obtain ⟨b, hb, hbl⟩ := hbase
  refine ⟨_, by rw [hnodes, Reify_nodes_get, hb]; rfl, ?_⟩
  unfold Reify_node
  by_cases hpv : p = v <;> by_cases hpk : p = cfg.FUNC_PARAMLIST fr.underlying <;>
    cases hh : fr.DO_FLAG_NATIVE_HOLD <;>
    simp [hpv, hpk, hh, MANAGE_ARRAY, SET_SERIES_INFO_HOLD, Init_Rootvar,
      SET_SERIES_INFO_SHARED_KEYLIST] <;>
    simp_all

/-! ## Claims on reification -/

/-- C9: when `Reify_Frame_Context_Maybe_Fulfilling(f)` returns, `f->varlist`
is a node whose root slot (index 0) is a `FRAME!` value with varlist field
`f->varlist` itself, phase `f->phase` and binding `f->binding`; the node
carries `ARRAY_FLAG_VARLIST`, is managed, and its back-reference `misc.f` is
`f`. The frame keeps its other fields. -/
theorem Reify_root_slot (cfg : Config) (m m' : Memory) (f : Nat) (fr : REBFRM)
    (hf : m.frames[f]? = some fr)
    (h : Reify_Frame_Context_Maybe_Fulfilling cfg m f = Outcome.returned m') :
    ∃ v a',
      m'.frames[f]? = some { fr with varlist := some v } ∧
      FRM_varlist m' f = some v ∧
      m'.nodes[v]? = some a' ∧
      ARR_AT a' 0 = some (Cell.Frame v fr.phase fr.binding) ∧
      a'.flags.ARRAY_FLAG_VARLIST = true ∧
      a'.flags.NODE_FLAG_MANAGED = true ∧
      a'.misc_f = some f := by
  obtain ⟨v, a1, hfr, hnode, hflag, hroot, _⟩ := Reify_returned_node cfg m m' f fr hf h
  have hlen : 0 < a1.data.length := by
    by_contra hn
    exact hroot (List.getElem?_eq_none (by omega))
  refine ⟨v, _, hfr, by simp [FRM_varlist, hfr], hnode, ?_, ?_, ?_, ?_⟩ <;>
    unfold Reify_node <;>
    by_cases hk : v = cfg.FUNC_PARAMLIST fr.underlying <;>
    cases hh : fr.DO_FLAG_NATIVE_HOLD <;>
    simp [ARR_AT, hk, hh, MANAGE_ARRAY, SET_SERIES_INFO_HOLD, Init_Rootvar,
      SET_SERIES_INFO_SHARED_KEYLIST, hflag, hlen]

/-- Witness of C9: reifying frame 0 of the example memory in a debug build
returns; node 1 then has the root slot `FRAME!` (varlist 1, phase 0, no
binding), is a managed varlist, and points back to frame 0. -/
theorem Reify_root_slot_witness :
    ∃ m', Reify_Frame_Context_Maybe_Fulfilling ex_config ex_memory 0 = Outcome.returned m' ∧
      ∃ v a', FRM_varlist m' 0 = some v ∧ m'.nodes[v]? = some a' ∧
        ARR_AT a' 0 = some (Cell.Frame v 0 none) ∧
        a'.flags.ARRAY_FLAG_VARLIST = true ∧ a'.flags.NODE_FLAG_MANAGED = true ∧
        a'.misc_f = some 0 :=
  ⟨ex_memory_reified0, by decide,
    (Reify_root_slot ex_config ex_memory ex_memory_reified0 0 ex_frame0
      (by decide) (by decide)).elim
      fun v hv => hv.elim fun a' ha => ⟨v, a', ha.2⟩⟩

/-- The key list of the context of frame `f` once its reification returned. -/
theorem Reify_keylist (cfg : Config) (m m' : Memory) (f : Nat) (fr : REBFRM)
    (hf : m.frames[f]? = some fr)
    (h : Reify_Frame_Context_Maybe_Fulfilling cfg m f = Outcome.returned m') :
    ∃ v a', m'.frames[f]? = some { fr with varlist := some v } ∧ m'.nodes[v]? = some a' ∧
      a'.link_keylist = some (cfg.FUNC_PARAMLIST fr.underlying) := by
  obtain ⟨v, a1, hfr, hnode, _, _, _⟩ := Reify_returned_node cfg m m' f fr hf h
  refine ⟨v, _, hfr, hnode, ?_⟩
  unfold Reify_node
  by_cases hk : v = cfg.FUNC_PARAMLIST fr.underlying <;>
    cases hh : fr.DO_FLAG_NATIVE_HOLD <;>
    simp [hk, hh, MANAGE_ARRAY, SET_SERIES_INFO_HOLD, Init_Rootvar,
      SET_SERIES_INFO_SHARED_KEYLIST]

/-- C10: when `Reify_Frame_Context_Maybe_Fulfilling(f1)` returns, the key list
of the context of `f1` is the pointer `FUNC_PARAMLIST(FRM_UNDERLYING(f1))`
itself; and when a frame `f2` with the same underlying function is reified
next, both contexts have that same key list pointer. -/
theorem Reify_keylist_shared (cfg : Config) (m m1 m2 : Memory) (f1 f2 : Nat)
    (fr1 fr2 : REBFRM)
    (h1 : m.frames[f1]? = some fr1) (h2 : m.frames[f2]? = some fr2)
    (hsame : fr1.underlying = fr2.underlying)
    (r1 : Reify_Frame_Context_Maybe_Fulfilling cfg m f1 = Outcome.returned m1)
    (r2 : Reify_Frame_Context_Maybe_Fulfilling cfg m1 f2 = Outcome.returned m2) :
    FRM_CTX_KEYLIST m1 f1 = some (cfg.FUNC_PARAMLIST fr1.underlying) ∧
    FRM_CTX_KEYLIST m2 f2 = some (cfg.FUNC_PARAMLIST fr1.underlying) ∧
    FRM_CTX_KEYLIST m2 f1 = FRM_CTX_KEYLIST m2 f2 := by
  obtain ⟨v1, a1, hfr1, hn1, hl1⟩ := Reify_keylist cfg m m1 f1 fr1 h1 r1
  have hk1 : FRM_CTX_KEYLIST m1 f1 = some (cfg.FUNC_PARAMLIST fr1.underlying) := by
    simp [FRM_CTX_KEYLIST, FRM_varlist, hfr1, hn1, hl1]
  -- the frame `f2` as the second call finds it
  have hfr2 : ∃ fr2', m1.frames[f2]? = some fr2' ∧ fr2'.underlying = fr1.underlying := by
    by_cases hff : f2 = f1
    · subst hff
      exact ⟨_, hfr1, rfl⟩
    · obtain ⟨_, _, _, _, hother, _⟩ := Reify_returned cfg m m1 f1 fr1 h1 r1
      exact ⟨fr2, by rw [hother f2 hff, h2], hsame.symm⟩
  obtain ⟨fr2', hfr2', hund⟩ := hfr2
  obtain ⟨v2, a2, hfr2m, hn2, hl2⟩ := Reify_keylist cfg m1 m2 f2 fr2' hfr2' r2
  rw [hund] at hl2
  have hk2 : FRM_CTX_KEYLIST m2 f2 = some (cfg.FUNC_PARAMLIST fr1.underlying) := by
    simp [FRM_CTX_KEYLIST, FRM_varlist, hfr2m, hn2, hl2]
  refine ⟨hk1, hk2, ?_⟩
  rw [hk2]
  by_cases hff : f1 = f2
  · subst hff
    exact hk2
  · obtain ⟨_, _, _, _, hother, _⟩ := Reify_returned cfg m1 m2 f2 fr2' hfr2' r2
    obtain ⟨a1', hn1', hl1'⟩ := Reify_keeps_keylist cfg m1 m2 f2 v1 fr2' a1 hfr2' r2 hn1
      (by rw [hund]; exact hl1)
    rw [hund] at hl1'
    simp [FRM_CTX_KEYLIST, FRM_varlist, hother f1 hff, hfr1, hn1', hl1']

/-- Witness of C10: frames 0 and 1 of the example memory run the same
function 0; reified one after the other (debug build) both get the key list
node 0, the parameter list of that function. -/
theorem Reify_keylist_shared_witness :
    ex_frame0.underlying = ex_frame1.underlying ∧
    ∃ m1 m2,
      Reify_Frame_Context_Maybe_Fulfilling ex_config ex_memory 0 = Outcome.returned m1 ∧
      Reify_Frame_Context_Maybe_Fulfilling ex_config m1 1 = Outcome.returned m2 ∧
      FRM_CTX_KEYLIST m2 0 = some 0 ∧ FRM_CTX_KEYLIST m2 1 = some 0 ∧
      FRM_CTX_KEYLIST m2 0 = FRM_CTX_KEYLIST m2 1 :=
  ⟨by decide, ex_memory_reified0, ex_memory_reified01,
    by decide, by decide, by decide, by decide,
    (Reify_keylist_shared ex_config ex_memory ex_memory_reified0 ex_memory_reified01 0 1
      ex_frame0 ex_frame1 (by decide) (by decide) (by decide) (by decide) (by decide)).2.2⟩

/-- C8: reification preserves argument content. If frame `f` already has the
varlist `v` and `Reify_Frame_Context_Maybe_Fulfilling(f)` returns, then
`f->varlist` is still `v`, every cell of that node at an index `i ≥ 1` holds
the value it held before, and the node differs from the old one only in its
flag and info bits, its key-list link, its frame back-pointer and its root
slot (index 0). -/
theorem Reify_preserves_args (cfg : Config) (m m' : Memory) (f v : Nat) (fr : REBFRM)
    (a : REBSER)
    (hf : m.frames[f]? = some fr) (hv : fr.varlist = some v) (ha : m.nodes[v]? = some a)
    (h : Reify_Frame_Context_Maybe_Fulfilling cfg m f = Outcome.returned m') :
    FRM_varlist m' f = some v ∧
    ∃ a', m'.nodes[v]? = some a' ∧
      (∀ i, 1 ≤ i → ARR_AT a' i = ARR_AT a i) ∧
      a'.len = a.len ∧
      a' = { a with flags := a'.flags, bits := a'.bits, link_keylist := a'.link_keylist,
                    misc_f := a'.misc_f,
                    data := a.data.set 0 (Cell.Frame v fr.phase fr.binding) } := by
  obtain ⟨w, a1, hfr, hnode, _, _, hcase⟩ := Reify_returned_node cfg m m' f fr hf h
  rcases hcase with ⟨hw, b, hb, ha1⟩ | ⟨hw, _, _⟩
  · rw [hv] at hw
    cases hw
    rw [ha] at hb
    cases hb
    subst ha1
    refine ⟨by simp [FRM_varlist, hfr], _, hnode, ?_, ?_, ?_⟩ <;>
      unfold Reify_node <;>
      by_cases hk : v = cfg.FUNC_PARAMLIST fr.underlying <;>
      cases hh : fr.DO_FLAG_NATIVE_HOLD <;>
      simp [ARR_AT, hk, hh, MANAGE_ARRAY, SET_SERIES_INFO_HOLD, Init_Rootvar,
        SET_SERIES_INFO_SHARED_KEYLIST, SET_ARRAY_FLAG_VARLIST] <;>
      intro i hi <;>
      exact List.getElem?_set_ne (by omega)
  · rw [hv] at hw
    cases hw

/-- Witness of C8: reifying frame 0 of the example memory keeps the arguments
7 and 8 at indices 1 and 2 of node 1. -/
theorem Reify_preserves_args_witness :
    ∃ m', Reify_Frame_Context_Maybe_Fulfilling ex_config ex_memory 0 = Outcome.returned m' ∧
      FRM_varlist m' 0 = some 1 ∧
      ∃ a', m'.nodes[1]? = some a' ∧
        (∀ i, 1 ≤ i → ARR_AT a' i = ARR_AT ex_arglist i) ∧
        ARR_AT a' 1 = some (Cell.Value 7) ∧ ARR_AT a' 2 = some (Cell.Value 8) :=
  ⟨ex_memory_reified0, by decide,
    (Reify_preserves_args ex_config ex_memory ex_memory_reified0 0 1 ex_frame0 ex_arglist
      (by decide) (by decide) (by decide) (by decide)).1,
    (Reify_preserves_args ex_config ex_memory ex_memory_reified0 0 1 ex_frame0 ex_arglist
      (by decide) (by decide) (by decide) (by decide)).2.elim
      fun a' ha => ⟨a', ha.1, ha.2.1,
        (ha.2.1 1 (by decide)).trans (by decide), (ha.2.1 2 (by decide)).trans (by decide)⟩⟩

/-- In a build without assertions `Reify_context` returns as soon as the key
list pointer and the root slot exist. -/
theorem Reify_context_release (cfg : Config) (m : Memory) (f v : Nat) (fr : REBFRM)
    (hnd : cfg.NDEBUG = true)
    (hk : m.nodes[cfg.FUNC_PARAMLIST fr.underlying]? ≠ none)
    (hroot : ((INIT_CTX_KEYLIST_SHARED m.nodes v (cfg.FUNC_PARAMLIST fr.underlying))[v]?.bind
      fun a => a.data[0]?) ≠ none) :
    Reify_context cfg m f fr v = Outcome.returned
      { m with nodes := Reify_nodes m.nodes f v (cfg.FUNC_PARAMLIST fr.underlying) fr } := by
  unfold Reify_context Reify_nodes
  simp only [hnd, Bool.not_true, Bool.false_and, Bool.false_eq_true, if_false]
  rw [if_neg hk, if_neg hroot]

/-- Running the updates of a reification a second time on the nodes they
produced changes nothing. -/
theorem Reify_nodes_again (base : List REBSER) (f v k : Nat) (fr : REBFRM) (a1 : REBSER)
    (hbase : base[v]? = some a1) (hflag : a1.flags.ARRAY_FLAG_VARLIST = true) :
    Reify_nodes (modify_node (Reify_nodes base f v k fr) v SET_ARRAY_FLAG_VARLIST) f v k
        { fr with varlist := some v } =
      Reify_nodes base f v k fr := by
  apply List.ext_getElem?
  intro i
  rw [Reify_nodes_get, modify_node_get, Reify_nodes_get]
  by_cases hiv : i = v
  · subst hiv
    rw [hbase]
    simp only [if_true, Option.map_some']
    congr 1
    obtain ⟨⟨fv, fl, fm⟩, bits, link, misc, len, data⟩ := a1
    simp only at hflag
    subst hflag
    unfold Reify_node
    by_cases hk : i = k <;> cases hh : fr.DO_FLAG_NATIVE_HOLD <;>
      simp [hk, hh, MANAGE_ARRAY, SET_SERIES_INFO_HOLD, Init_Rootvar,
        SET_SERIES_INFO_SHARED_KEYLIST, SET_ARRAY_FLAG_VARLIST]
  · simp only [hiv, if_false]
    cases base[i]? with
    | none => rfl
    | some b =>
      simp only [Option.map_some']
      congr 1
      unfold Reify_node
      by_cases hk : i = k
      · subst hk
        simp [hiv, SET_SERIES_INFO_SHARED_KEYLIST]
      · simp [hiv, hk]

/-- Counterexample to C7 as stated: in a build with assertions, reifying
frame 0 of the example memory returns, and a second call on the same frame
stops at the assertion of line 290 (the varlist must not yet carry
`ARRAY_FLAG_VARLIST`). -/
theorem Reify_twice_asserts :
    Reify_Frame_Context_Maybe_Fulfilling ex_config ex_memory 0 =
      Outcome.returned ex_memory_reified0 ∧
    Reify_Frame_Context_Maybe_Fulfilling ex_config ex_memory_reified0 0 =
      Outcome.failed (Error.Assertion 290) ex_memory_reified0 := by
  decide

/-- C7 (amended): after a call of `Reify_Frame_Context_Maybe_Fulfilling(f)`
that returned, a second call on the same frame stops, in a build with
assertions, at the assertion that the varlist does not yet carry
`ARRAY_FLAG_VARLIST` (nothing is changed); in a build without assertions it
returns and leaves the whole memory - `f->varlist`, the varlist node with its
flags, key list, root slot and back-reference - equal to its state after the
first call. -/
theorem Reify_second_call (cfg : Config) (m m1 : Memory) (f : Nat) (fr : REBFRM)
    (hf : m.frames[f]? = some fr)
    (h : Reify_Frame_Context_Maybe_Fulfilling cfg m f = Outcome.returned m1) :
    (cfg.NDEBUG = false →
      Reify_Frame_Context_Maybe_Fulfilling cfg m1 f =
        Outcome.failed (Error.Assertion 290) m1) ∧
    (cfg.NDEBUG = true →
      Reify_Frame_Context_Maybe_Fulfilling cfg m1 f = Outcome.returned m1) := by
  obtain ⟨v, a1, base, hfr, _, hbase, hflag, hroot, hk, hnodes, _, hfun⟩ :=
    Reify_returned cfg m m1 f fr hf h
  have hnode : m1.nodes[v]? =
      some (Reify_node f v (cfg.FUNC_PARAMLIST fr.underlying) fr v a1) := by
    rw [hnodes, Reify_nodes_get, hbase]
    rfl
  have hnodeflag :
      (Reify_node f v (cfg.FUNC_PARAMLIST fr.underlying) fr v a1).flags.ARRAY_FLAG_VARLIST
        = true := by
    unfold Reify_node
    by_cases hkv : v = cfg.FUNC_PARAMLIST fr.underlying <;>
      cases hh : fr.DO_FLAG_NATIVE_HOLD <;>
      simp [hkv, hh, MANAGE_ARRAY, SET_SERIES_INFO_HOLD, Init_Rootvar,
        SET_SERIES_INFO_SHARED_KEYLIST, hflag]
  constructor
  · intro hnd
    unfold Reify_Frame_Context_Maybe_Fulfilling
    rw [hfr]
    simp only [hnd, hfun hnd, Reify_varlist, hnode, hnodeflag, Bool.not_false, Bool.not_true,
      Bool.and_true, Bool.and_false, Bool.false_eq_true, if_false, if_true]
  · intro hnd
    have hvar : Reify_varlist cfg m1 f { fr with varlist := some v } =
        Except.ok ({ m1 with nodes := modify_node m1.nodes v SET_ARRAY_FLAG_VARLIST }, v) := by
      simp only [Reify_varlist, hnode, hnd, Bool.not_true, Bool.false_and, Bool.false_eq_true,
        if_false]
    have hctx := Reify_context_release cfg
      { m1 with nodes := modify_node m1.nodes v SET_ARRAY_FLAG_VARLIST } f v
      { fr with varlist := some v } hnd
      (by
        simp only [modify_node_get, hnodes, Reify_nodes_get]
        cases hb : base[cfg.FUNC_PARAMLIST fr.underlying]? with
        | none => exact absurd hb hk
        | some b => by_cases hkv : cfg.FUNC_PARAMLIST fr.underlying = v <;> simp [hkv])
      (by
        have hlen : 0 < a1.data.length := by
          by_contra hn
          exact hroot (List.getElem?_eq_none (by omega))
        simp only [INIT_CTX_KEYLIST_SHARED, modify_node_get, hnode, if_true]
        unfold Reify_node
        by_cases hkv : v = cfg.FUNC_PARAMLIST fr.underlying <;>
          cases hh : fr.DO_FLAG_NATIVE_HOLD <;>
          simp [hkv, hh, MANAGE_ARRAY, SET_SERIES_INFO_HOLD, Init_Rootvar,
            SET_SERIES_INFO_SHARED_KEYLIST, SET_ARRAY_FLAG_VARLIST, hlen])
    unfold Reify_Frame_Context_Maybe_Fulfilling
    rw [hfr]
    simp only [hnd, Bool.not_true, Bool.false_and, Bool.false_eq_true, if_false, hvar, hctx]
    congr 1
    have hagain := Reify_nodes_again base f v (cfg.FUNC_PARAMLIST fr.underlying) fr a1
      hbase hflag
    rw [← hnodes] at hagain
    cases m1
    simp only at hagain ⊢
    rw [hagain]

/-- Witness of C7: on frame 0 of the example memory the second call stops at
the assertion in the debug build and returns the same memory in the release
build. -/
theorem Reify_second_call_witness :
    Reify_Frame_Context_Maybe_Fulfilling ex_config ex_memory_reified0 0 =
      Outcome.failed (Error.Assertion 290) ex_memory_reified0 ∧
    Reify_Frame_Context_Maybe_Fulfilling ex_config_release ex_memory_reified0 0 =
      Outcome.returned ex_memory_reified0 :=
  ⟨(Reify_second_call ex_config ex_memory ex_memory_reified0 0 ex_frame0
      (by decide) (by decide)).1 (by decide),
   (Reify_second_call ex_config_release ex_memory ex_memory_reified0 0 ex_frame0
      (by decide) (by decide)).2 (by decide)⟩

/-- In a build without assertions a reification returns whenever the pointers
it follows are valid: the frame exists, its varlist is NULL or an allocated
node with a root cell, and the parameter list of its function is allocated. -/
theorem Reify_returns_release (cfg : Config) (m : Memory) (f : Nat) (fr : REBFRM)
    (hnd : cfg.NDEBUG = true) (hf : m.frames[f]? = some fr)
    (hv : ∀ v, fr.varlist = some v → ∃ a c, m.nodes[v]? = some a ∧ a.data[0]? = some c)
    (hk : m.nodes[cfg.FUNC_PARAMLIST fr.underlying]? ≠ none) :
    ∃ m', Reify_Frame_Context_Maybe_Fulfilling cfg m f = Outcome.returned m' := by
  have hklt : cfg.FUNC_PARAMLIST fr.underlying < m.nodes.length := by
    by_contra hn
    exact hk (List.getElem?_eq_none (by omega))
  unfold Reify_Frame_Context_Maybe_Fulfilling
  rw [hf]
  simp only [hnd, Bool.not_true, Bool.false_and, Bool.false_eq_true, if_false]
  cases hw : fr.varlist with
  | none =>
    simp only [Reify_varlist, hw]
    refine ⟨_, Reify_context_release cfg _ f _ fr hnd ?_ ?_⟩
    · simp only
      rw [List.getElem?_append_left hklt]
      exact hk
    · have hne : ¬ m.nodes.length = cfg.FUNC_PARAMLIST fr.underlying := by omega
      simp [INIT_CTX_KEYLIST_SHARED, modify_node_get, hne, SET_CONTEXT_INFO_STACK,
        Alloc_Singular_Array_Core]
  | some v =>
    obtain ⟨a, c, ha, hc⟩ := hv v hw
    simp only [Reify_varlist, hw, ha, hnd, Bool.not_true, Bool.false_and, Bool.false_eq_true,
      if_false]
    refine ⟨_, Reify_context_release cfg _ f v fr hnd ?_ ?_⟩
    · simp only [modify_node_get]
      cases hb : m.nodes[cfg.FUNC_PARAMLIST fr.underlying]? with
      | none => exact absurd hb hk
      | some b => by_cases hkv : cfg.FUNC_PARAMLIST fr.underlying = v <;> simp [hkv]
    · simp only [INIT_CTX_KEYLIST_SHARED, modify_node_get, ha, if_true]
      by_cases hkv : v = cfg.FUNC_PARAMLIST fr.underlying
      · rw [if_pos hkv]
        simp [SET_SERIES_INFO_SHARED_KEYLIST, SET_ARRAY_FLAG_VARLIST, hc]
      · rw [if_neg hkv]
        simp [SET_ARRAY_FLAG_VARLIST, hc]

/-- C11: when `Reify_Frame_Context_Maybe_Fulfilling(f)` returns, the hold bit
`SERIES_INFO_HOLD` of `f->varlist` is set if the flags of `f` contain
`DO_FLAG_NATIVE_HOLD`; if they do not, the call leaves the bit as it was: equal
to its value before the call for a varlist that existed, and clear for a
varlist the call allocated. -/
theorem Reify_hold_bit (cfg : Config) (m m' : Memory) (f : Nat) (fr : REBFRM)
    (hf : m.frames[f]? = some fr)
    (h : Reify_Frame_Context_Maybe_Fulfilling cfg m f = Outcome.returned m') :
    ∃ v a', FRM_varlist m' f = some v ∧ m'.nodes[v]? = some a' ∧
      (fr.DO_FLAG_NATIVE_HOLD = true → a'.bits.SERIES_INFO_HOLD = true) ∧
      (fr.DO_FLAG_NATIVE_HOLD = false →
        (∀ a, fr.varlist = some v → m.nodes[v]? = some a →
          a'.bits.SERIES_INFO_HOLD = a.bits.SERIES_INFO_HOLD) ∧
        (fr.varlist = none → a'.bits.SERIES_INFO_HOLD = false)) := by
  obtain ⟨v, a1, hfr, hnode, _, _, hcase⟩ := Reify_returned_node cfg m m' f fr hf h
  refine ⟨v, _, by simp [FRM_varlist, hfr], hnode, ?_, ?_⟩
  · intro hh
    unfold Reify_node
    by_cases hk : v = cfg.FUNC_PARAMLIST fr.underlying <;>
      simp [hk, hh, MANAGE_ARRAY, SET_SERIES_INFO_HOLD, Init_Rootvar,
        SET_SERIES_INFO_SHARED_KEYLIST]
  · intro hh
    have hbit : (Reify_node f v (cfg.FUNC_PARAMLIST fr.underlying) fr v a1).bits.SERIES_INFO_HOLD
        = a1.bits.SERIES_INFO_HOLD := by
      unfold Reify_node
      by_cases hk : v = cfg.FUNC_PARAMLIST fr.underlying <;>
        simp [hk, hh, MANAGE_ARRAY, Init_Rootvar, SET_SERIES_INFO_SHARED_KEYLIST]
    rw [hbit]
    constructor
    · intro a hv ha
      rcases hcase with ⟨_, b, hb, ha1⟩ | ⟨hw, _, _⟩
      · rw [ha] at hb
        cases hb
        rw [ha1]
        rfl
      · rw [hv] at hw
        cases hw
    · intro hv
      rcases hcase with ⟨hw, _⟩ | ⟨_, _, ha1⟩
      · rw [hv] at hw
        cases hw
      · rw [ha1]
        rfl

/-- Witness of C11: frame 0 of the example memory runs under a native hold and
its varlist (node 1) ends up held; frame 1 does not, and the varlist
allocated for it (node 2) is not held. -/
theorem Reify_hold_bit_witness :
    (∃ v a', FRM_varlist ex_memory_reified0 0 = some v ∧
      ex_memory_reified0.nodes[v]? = some a' ∧ a'.bits.SERIES_INFO_HOLD = true) ∧
    (∃ v a', FRM_varlist ex_memory_reified01 1 = some v ∧
      ex_memory_reified01.nodes[v]? = some a' ∧ a'.bits.SERIES_INFO_HOLD = false) :=
  ⟨(Reify_hold_bit ex_config ex_memory ex_memory_reified0 0 ex_frame0
      (by decide) (by decide)).elim
      fun v hv => hv.elim fun a' ha => ⟨v, a', ha.1, ha.2.1, ha.2.2.1 (by decide)⟩,
   (Reify_hold_bit ex_config ex_memory_reified0 ex_memory_reified01 1 ex_frame1
      (by decide) (by decide)).elim
      fun v hv => hv.elim fun a' ha =>
        ⟨v, a', ha.1, ha.2.1, (ha.2.2.2 (by decide)).2 (by decide)⟩⟩

/-! ## Shared facts on the expansion, the pop walks and the startup state -/

/-- The state in which `Expand_Data_Stack_May_Fail` ends, for a call on the
end marker: below the old length nothing has changed. -/
theorem Expand_state_below (cfg : Config) (s : DataStack) (amount : Nat)
    (hdsp : DSP s = s.DS_Array.len) (hend : ARR_AT s.DS_Array (DSP s) = some Cell.END) :
    (∀ i, i < s.DS_Array.len →
      ARR_AT (Expand_Data_Stack_May_Fail cfg s amount).state.DS_Array i =
        ARR_AT s.DS_Array i) ∧
    DSP (Expand_Data_Stack_May_Fail cfg s amount).state = DSP s := by
  have hok := Expand_entry_ok_of s hdsp hend
  have hrest := lt_rest_of_ARR_AT _ _ _ hend
  have hkeep : ∀ a, Extend_Series cfg s.DS_Array amount = some a → ∀ i, i < s.DS_Array.len →
      ARR_AT (TERM_ARRAY_LEN ({ a with data :=
          (Expand_fill (REBCNT_wrap (s.DS_Array.len + amount) - s.DS_Array.len)
            (DSP s) a.data).1 }) (REBCNT_wrap (s.DS_Array.len + amount))) i =
        ARR_AT s.DS_Array i := by
    intro a ha i hi
    obtain ⟨hfit, _, _, hsame⟩ := Extend_Series_eq_some cfg _ _ _ ha
    rw [Expand_len_new s amount hdsp hend hfit]
    simp only [ARR_AT, TERM_ARRAY_LEN]
    rw [List.getElem?_set_ne (by omega), Expand_fill_below _ _ _ _ (by omega)]
    exact hsame i (by unfold SER_REST at hrest; omega)
  rcases Expand_outcome cfg s amount (Or.inr hok) with
    ⟨_, h2⟩ | ⟨_, _, h2⟩ | ⟨_, a, ha, h2 | ⟨_, _, h2⟩⟩
  · rw [h2]
    exact ⟨fun _ _ => rfl, rfl⟩
  · rw [h2]
    exact ⟨fun _ _ => rfl, rfl⟩
  · rw [h2]
    exact ⟨hkeep a ha, rfl⟩
  · rw [h2]
    exact ⟨hkeep a ha, rfl⟩

/-- The state with which `Expand_Data_Stack_May_Fail` returns, for a call on
the end marker. -/
theorem Expand_returned_state (cfg : Config) (s s' : DataStack) (amount : Nat)
    (hdsp : DSP s = s.DS_Array.len) (hend : ARR_AT s.DS_Array (DSP s) = some Cell.END)
    (h : Expand_Data_Stack_May_Fail cfg s amount = Outcome.returned s') :
    s'.DS_Array.len = s.DS_Array.len + amount ∧
    (∀ i, s.DS_Array.len ≤ i → i < s.DS_Array.len + amount →
      ARR_AT s'.DS_Array i = some Cell.Unreadable) ∧
    ARR_AT s'.DS_Array (s.DS_Array.len + amount) = some Cell.END ∧
    DSP s' = DSP s := by
  have hok := Expand_entry_ok_of s hdsp hend
  have hrest := lt_rest_of_ARR_AT _ _ _ hend
  rcases Expand_outcome cfg s amount (Or.inr hok) with
    ⟨_, h2⟩ | ⟨_, _, h2⟩ | ⟨_, a, ha, h2 | ⟨_, _, h2⟩⟩
  · rw [h2] at h; cases h
  · rw [h2] at h; cases h
  · rw [h2] at h
    cases h
    obtain ⟨hfit, _, hlen, _⟩ := Extend_Series_eq_some cfg _ _ _ ha
    have hnew := Expand_len_new s amount hdsp hend hfit
    unfold SER_REST at hrest
    rw [hdsp] at hrest
    simp only [hnew]
    refine ⟨rfl, ?_, ?_, rfl⟩
    · intro i h1 h2
      simp only [ARR_AT, TERM_ARRAY_LEN]
      rw [List.getElem?_set_ne (by omega)]
      exact Expand_fill_inside _ _ _ _ (by omega) (by omega) (by omega)
    · simp only [ARR_AT, TERM_ARRAY_LEN]
      rw [List.getElem?_set_self (by rw [Expand_fill_length]; omega)]
  · rw [h2] at h; cases h

/-- A call on the end marker whose new capacity stays below the limit returns. -/
theorem Expand_returns (cfg : Config) (s : DataStack) (amount : Nat)
    (hdsp : DSP s = s.DS_Array.len) (hend : ARR_AT s.DS_Array (DSP s) = some Cell.END)
    (hlimit : cfg.STACK_LIMIT ≤ 2 ^ 32)
    (hlt : SER_REST s.DS_Array + amount < cfg.STACK_LIMIT) :
    ∃ s', Expand_Data_Stack_May_Fail cfg s amount = Outcome.returned s' := by
  have hok := Expand_entry_ok_of s hdsp hend
  have hfit : SER_REST s.DS_Array + amount < 2 ^ 32 := by omega
  have hwrap : REBCNT_wrap (SER_REST s.DS_Array + amount) = SER_REST s.DS_Array + amount :=
    Nat.mod_eq_of_lt hfit
  rcases Expand_outcome cfg s amount (Or.inr hok) with
    ⟨hl, _⟩ | ⟨_, hnone, _⟩ | ⟨_, a, _, h2 | ⟨_, hcur, _⟩⟩
  · omega
  · exfalso
    unfold Extend_Series at hnone
    rw [if_pos hfit] at hnone
    cases hnone
  · exact ⟨_, h2⟩
  · exfalso
    rw [Expand_fill_cursor, Expand_len_new s amount hdsp hend hfit, hdsp] at hcur
    omega

/-- The upward copy walk inside the allocation reads a slice of the memory. -/
theorem copy_cells_forward_eq (k head : Nat) (mem : List Cell) (h : head + k ≤ mem.length) :
    copy_cells_forward k head mem = (mem.drop head).take k := by
  apply List.ext_getElem?
  intro i
  by_cases hi : i < k
  · rw [copy_cells_forward_get _ _ _ _ hi, List.getElem?_take_of_lt hi, List.getElem?_drop]
    have hin : head + i < mem.length := by omega
    simp [hin]
  · rw [List.getElem?_eq_none (by rw [copy_cells_forward_length]; omega),
      List.getElem?_eq_none (by simp; omega)]

/-- The data-stack array before the first expansion. -/
theorem Startup_DS_Array_shape (cfg : Config) :
    (Startup_DS_Array cfg).len = 1 ∧
    ARR_AT (Startup_DS_Array cfg) 0 = some Cell.Unreadable ∧
    ARR_AT (Startup_DS_Array cfg) 1 = some Cell.END ∧
    SER_REST (Startup_DS_Array cfg) = 2 := by
  simp [Startup_DS_Array, Make_Array_Core, TERM_ARRAY_LEN, ARR_AT, SER_REST, List.range_succ]

/-- What a returning `Startup_Stacks` leaves: the data stack is the expanded
initial array with one cell dropped, the root chunker is the block just
allocated, with no successor, and the top chunk is at its payload start. -/
theorem Startup_returned (cfg : Config) (cc : ChunkConfig) (g g' : Globals) (size : Nat)
    (h : Startup_Stacks cfg cc g size = Outcome.returned g') :
    ∃ s2, Expand_Data_Stack_May_Fail cfg
        { DS_Array := Startup_DS_Array cfg, DS_Index := 1 } size = Outcome.returned s2 ∧
      g'.stack = DS_DROP s2 ∧ g'.TG_Frame_Stack = none ∧
      g'.TG_Root_Chunker = some g.chunkers.length ∧
      g'.TG_Top_Chunk = some (g.chunkers.length, 0) ∧
      (∃ c, g'.chunkers[g.chunkers.length]? = some c ∧ c.next = none ∧
        c.size = cc.CS_CHUNKER_PAYLOAD) := by
  unfold Startup_Stacks at h
  simp only [List.getElem?_cons_zero, IS_END, Bool.not_true, Bool.and_false,
    Bool.false_eq_true, if_false] at h
  split at h
  · cases h
  · rename_i s2 hs2
    cases h
    refine ⟨s2, hs2, rfl, rfl, rfl, rfl,
      { next := none, size := cc.CS_CHUNKER_PAYLOAD,
        payload := [(0, { header_endlike := true, prev := none, offset := 0,
                          size := cc.BASE_CHUNK_SIZE, values := [Cell.END] })] },
      ?_, rfl, rfl⟩
    simp

/-! ## Claims on popping into an array, startup and shutdown -/

/-- C12: for a target array value `into` at index `k` (inside the array) and a
mark `dsp_start ≤ DSP`, `Pop_Stack_Values_Into(into, dsp_start)` on a writable
target returns with the stack cells `dsp_start + 1 .. DSP`, in their order,
inserted at position `k` (the cells before `k` stay, the cells from `k` on
follow the inserted run), the index of `into` moved to `k + (DSP - dsp_start)`
and `DSP = dsp_start`, the stack array untouched; on a read-only target it
fails with neither the target nor the stack changed. -/
theorem Pop_Stack_Values_Into_inserts (read_only : REBSER → Bool) (into : ANY_ARRAY)
    (s : DataStack) (dsp_start : Nat)
    (hmark : dsp_start ≤ DSP s) (htop : DSP s < SER_REST s.DS_Array)
    (hk : into.VAL_INDEX ≤ into.VAL_ARRAY.len)
    (hwf : into.VAL_ARRAY.len < SER_REST into.VAL_ARRAY)
    (hfit : into.VAL_ARRAY.len + (DSP s - dsp_start) < 2 ^ 32) :
    (read_only into.VAL_ARRAY = false →
      ∃ into' s', Pop_Stack_Values_Into read_only into s dsp_start =
          Outcome.returned (into', s') ∧
        ARR_cells into'.VAL_ARRAY =
          (ARR_cells into.VAL_ARRAY).take into.VAL_INDEX ++
          (s.DS_Array.data.drop (dsp_start + 1)).take (DSP s - dsp_start) ++
          (ARR_cells into.VAL_ARRAY).drop into.VAL_INDEX ∧
        into'.VAL_ARRAY.len = into.VAL_ARRAY.len + (DSP s - dsp_start) ∧
        ARR_AT into'.VAL_ARRAY into'.VAL_ARRAY.len = some Cell.END ∧
        into'.VAL_INDEX = into.VAL_INDEX + (DSP s - dsp_start) ∧
        DSP s' = dsp_start ∧ s'.DS_Array = s.DS_Array) ∧
    (read_only into.VAL_ARRAY = true →
      Pop_Stack_Values_Into read_only into s dsp_start =
        Outcome.failed Error.Read_Only (into, s)) := by
  constructor
  · intro hro
    have hcopy := copy_cells_forward_eq (DSP s - dsp_start) (dsp_start + 1) s.DS_Array.data
      (by unfold SER_REST at htop; omega)
    have hcl : (ARR_cells into.VAL_ARRAY).length = into.VAL_ARRAY.len := by
      unfold ARR_cells SER_REST at *
      rw [List.length_take]
      omega
    have hvl : ((s.DS_Array.data.drop (dsp_start + 1)).take (DSP s - dsp_start)).length =
        DSP s - dsp_start := by
      rw [← hcopy, copy_cells_forward_length]
    have hins : Insert_Series into.VAL_ARRAY into.VAL_INDEX
        (copy_cells_forward (DSP s - dsp_start) (dsp_start + 1) s.DS_Array.data) =
        some ({ into.VAL_ARRAY with
                  len := into.VAL_ARRAY.len + (DSP s - dsp_start),
                  data := (ARR_cells into.VAL_ARRAY).take into.VAL_INDEX ++
                    (s.DS_Array.data.drop (dsp_start + 1)).take (DSP s - dsp_start) ++
                    (ARR_cells into.VAL_ARRAY).drop into.VAL_INDEX ++ [Cell.END] },
              into.VAL_INDEX + (DSP s - dsp_start)) := by
      unfold Insert_Series
      rw [copy_cells_forward_length, if_pos hfit, hcopy]
    have hall : ((ARR_cells into.VAL_ARRAY).take into.VAL_INDEX ++
          (s.DS_Array.data.drop (dsp_start + 1)).take (DSP s - dsp_start) ++
          (ARR_cells into.VAL_ARRAY).drop into.VAL_INDEX).length =
        into.VAL_ARRAY.len + (DSP s - dsp_start) := by
      simp only [List.length_append, List.length_take, List.length_drop, hcl] at hvl ⊢
      omega
    refine ⟨{ VAL_ARRAY := { into.VAL_ARRAY with
                  len := into.VAL_ARRAY.len + (DSP s - dsp_start),
                  data := (ARR_cells into.VAL_ARRAY).take into.VAL_INDEX ++
                    (s.DS_Array.data.drop (dsp_start + 1)).take (DSP s - dsp_start) ++
                    (ARR_cells into.VAL_ARRAY).drop into.VAL_INDEX ++ [Cell.END] },
              VAL_INDEX := into.VAL_INDEX + (DSP s - dsp_start) },
      DS_DROP_TO s dsp_start,
      by simp only [Pop_Stack_Values_Into, hro, hins, Bool.false_eq_true, if_false],
      ?_, rfl, ?_, rfl, rfl, rfl⟩
    · simp only [ARR_cells] at hall ⊢
      rw [← hall, List.take_left]
    · simp only [ARR_AT]
      rw [← hall, List.getElem?_append_right (le_refl _)]
      simp
  · intro hro
    simp only [Pop_Stack_Values_Into, hro, if_true]

/-- Witness of C12: with 10, 20, 30 on the stack from mark 0 and the target
1, 2, 3 at index 1, the target becomes 1, 10, 20, 30, 2, 3 at index 4 and
`DSP` returns to 0; the same target on hold is refused unchanged. -/
theorem Pop_Stack_Values_Into_inserts_witness :
    (∃ into' s', Pop_Stack_Values_Into ex_read_only ex_into ex_stack_10_20_30 0 =
        Outcome.returned (into', s') ∧
      ARR_cells into'.VAL_ARRAY =
        [Cell.Value 1, Cell.Value 10, Cell.Value 20, Cell.Value 30, Cell.Value 2,
          Cell.Value 3] ∧
      into'.VAL_INDEX = 4 ∧ DSP s' = 0) ∧
    Pop_Stack_Values_Into ex_read_only ex_into_held ex_stack_10_20_30 0 =
      Outcome.failed Error.Read_Only (ex_into_held, ex_stack_10_20_30) :=
  ⟨((Pop_Stack_Values_Into_inserts ex_read_only ex_into ex_stack_10_20_30 0
      (by decide) (by decide) (by decide) (by decide) (by decide)).1 (by decide)).elim
      fun into' h1 => h1.elim fun s' h2 =>
        ⟨into', s', h2.1, h2.2.1.trans (by decide), h2.2.2.2.2.1, h2.2.2.2.2.2.1⟩,
   (Pop_Stack_Values_Into_inserts ex_read_only ex_into_held ex_stack_10_20_30 0
      (by decide) (by decide) (by decide) (by decide) (by decide)).2 (by decide)⟩

/-- C13: index 0 of the data stack is never a real value. `Startup_Stacks(size)`
returns for every size whose capacity request stays below the stack limit, and
whenever it returns the cell at index 0 is the unreadable blank and `DSP = 0`.
On every data stack, whatever its state and the mark, the three pop operations
leave the whole stack array as it was, and so its cell at index 0, however
they end. An expansion of a stack of length at least 1 leaves the cell at
index 0 as it was, however it ends: in the debug build on every state (the
entry assertions end a call that is not on the end marker before a cell is
written), and in every build when it is called on the end marker, where it
writes from the old length upward. -/
theorem DS_index_zero_kept (cfg : Config) (cc : ChunkConfig) (g : Globals) (size : Nat)
    (s : DataStack) (amount dsp_start : Nat) (flags : SeriesFlags)
    (read_only : REBSER → Bool) (into : ANY_ARRAY) :
    (cfg.STACK_LIMIT ≤ 2 ^ 32 → SER_REST (Startup_DS_Array cfg) + size < cfg.STACK_LIMIT →
      ∃ g', Startup_Stacks cfg cc g size = Outcome.returned g') ∧
    (∀ g', Startup_Stacks cfg cc g size = Outcome.returned g' →
      ARR_AT g'.stack.DS_Array 0 = some Cell.Unreadable ∧ DSP g'.stack = 0) ∧
    (1 ≤ s.DS_Array.len →
      cfg.NDEBUG = false ∨
        (DSP s = s.DS_Array.len ∧ ARR_AT s.DS_Array (DSP s) = some Cell.END) →
      ARR_AT (Expand_Data_Stack_May_Fail cfg s amount).state.DS_Array 0 =
        ARR_AT s.DS_Array 0) ∧
    ((Pop_Stack_Values_Core s dsp_start flags).2.DS_Array = s.DS_Array ∧
      ARR_AT (Pop_Stack_Values_Core s dsp_start flags).2.DS_Array 0 = ARR_AT s.DS_Array 0) ∧
    ((Pop_Stack_Values_Reversed s dsp_start).2.DS_Array = s.DS_Array ∧
      ARR_AT (Pop_Stack_Values_Reversed s dsp_start).2.DS_Array 0 = ARR_AT s.DS_Array 0) ∧
    ((Pop_Stack_Values_Into read_only into s dsp_start).state.2.DS_Array = s.DS_Array ∧
      ARR_AT (Pop_Stack_Values_Into read_only into s dsp_start).state.2.DS_Array 0 =
        ARR_AT s.DS_Array 0) := by
  have hinto : (Pop_Stack_Values_Into read_only into s dsp_start).state.2.DS_Array =
      s.DS_Array := by
    unfold Pop_Stack_Values_Into
    simp only
    split
    · rfl
    · split <;> rfl
  refine ⟨?_, ?_, ?_, ⟨rfl, rfl⟩, ⟨rfl, rfl⟩, ⟨hinto, by rw [hinto]⟩⟩
  · intro hlimit hsize
    obtain ⟨hl, _, h1, _⟩ := Startup_DS_Array_shape cfg
    obtain ⟨s2, hs2⟩ := Expand_returns cfg
      { DS_Array := Startup_DS_Array cfg, DS_Index := 1 } size hl.symm h1 hlimit hsize
    unfold Startup_Stacks
    simp only [List.getElem?_cons_zero, IS_END, Bool.not_true, Bool.and_false,
      Bool.false_eq_true, if_false, hs2]
    exact ⟨_, rfl⟩
  · intro g' hstart
    obtain ⟨s2, hs2, hstack, _⟩ := Startup_returned cfg cc g g' size hstart
    obtain ⟨hl, h0, h1, _⟩ := Startup_DS_Array_shape cfg
    have hbelow := Expand_state_below cfg
      { DS_Array := Startup_DS_Array cfg, DS_Index := 1 } size hl.symm h1
    rw [hs2] at hbelow
    rw [hstack]
    constructor
    · exact (hbelow.1 0 (by rw [hl]; decide)).trans h0
    · have h := hbelow.2
      simp only [Outcome.state, DSP] at h
      simp [DS_DROP, DSP, h]
  · intro hlen hpre
    have hend_case : DSP s = s.DS_Array.len → ARR_AT s.DS_Array (DSP s) = some Cell.END →
        ARR_AT (Expand_Data_Stack_May_Fail cfg s amount).state.DS_Array 0 =
          ARR_AT s.DS_Array 0 :=
      fun hdsp hend => (Expand_state_below cfg s amount hdsp hend).1 0 (by omega)
    rcases hpre with hdbg | ⟨hdsp, hend⟩
    · by_cases hok : Expand_entry_ok s = true
      · obtain ⟨hend, hdsp⟩ := Expand_entry_ok_elim s hok
        exact hend_case hdsp hend
      · unfold Expand_Data_Stack_May_Fail
        simp [hdbg, hok, Outcome.state]
    · exact hend_case hdsp hend

/-- Witness of C13: `Startup_Stacks(3)` returns in the example debug build with
the unreadable blank at index 0 and `DSP = 0`. The stack holding 10, 20, 30
(`DSP = 3`, not on the end marker) keeps its whole array, with the unreadable
blank at index 0, through each of the three pops to the mark 1, and through an
expansion that the debug build refuses; the full example stack keeps its cell
0 through an expansion by 3 in the debug and in the release build. -/
theorem DS_index_zero_kept_witness :
    (∃ g', Startup_Stacks ex_config ex_chunk_config ex_globals 3 = Outcome.returned g') ∧
    (ARR_AT ex_globals_started.stack.DS_Array 0 = some Cell.Unreadable ∧
      DSP ex_globals_started.stack = 0) ∧
    DSP ex_stack_10_20_30 = 3 ∧
    (Pop_Stack_Values_Core ex_stack_10_20_30 1 SeriesFlags.none).2.DS_Array =
      ex_stack_10_20_30.DS_Array ∧
    ARR_AT (Pop_Stack_Values_Core ex_stack_10_20_30 1 SeriesFlags.none).2.DS_Array 0 =
      some Cell.Unreadable ∧
    ARR_AT (Pop_Stack_Values_Reversed ex_stack_10_20_30 1).2.DS_Array 0 =
      some Cell.Unreadable ∧
    ARR_AT (Pop_Stack_Values_Into ex_read_only ex_into ex_stack_10_20_30 1).state.2.DS_Array 0 =
      some Cell.Unreadable ∧
    ARR_AT (Expand_Data_Stack_May_Fail ex_config ex_stack_10_20_30 3).state.DS_Array 0 =
      some Cell.Unreadable ∧
    ARR_AT (Expand_Data_Stack_May_Fail ex_config ex_full_stack 3).state.DS_Array 0 =
      some Cell.Unreadable ∧
    ARR_AT (Expand_Data_Stack_May_Fail ex_config_release ex_full_stack 3).state.DS_Array 0 =
      some Cell.Unreadable :=
  ⟨(DS_index_zero_kept ex_config ex_chunk_config ex_globals 3 ex_stack_10_20_30 3 1
      SeriesFlags.none ex_read_only ex_into).1 (by decide) (by decide),
    (DS_index_zero_kept ex_config ex_chunk_config ex_globals 3 ex_stack_10_20_30 3 1
      SeriesFlags.none ex_read_only ex_into).2.1 ex_globals_started (by decide),
    by decide,
    (DS_index_zero_kept ex_config ex_chunk_config ex_globals 3 ex_stack_10_20_30 3 1
      SeriesFlags.none ex_read_only ex_into).2.2.2.1.1,
    (DS_index_zero_kept ex_config ex_chunk_config ex_globals 3 ex_stack_10_20_30 3 1
      SeriesFlags.none ex_read_only ex_into).2.2.2.1.2.trans (by decide),
    (DS_index_zero_kept ex_config ex_chunk_config ex_globals 3 ex_stack_10_20_30 3 1
      SeriesFlags.none ex_read_only ex_into).2.2.2.2.1.2.trans (by decide),
    (DS_index_zero_kept ex_config ex_chunk_config ex_globals 3 ex_stack_10_20_30 3 1
      SeriesFlags.none ex_read_only ex_into).2.2.2.2.2.2.trans (by decide),
    ((DS_index_zero_kept ex_config ex_chunk_config ex_globals 3 ex_stack_10_20_30 3 1
      SeriesFlags.none ex_read_only ex_into).2.2.1 (by decide) (Or.inl rfl)).trans (by decide),
    ((DS_index_zero_kept ex_config ex_chunk_config ex_globals 3 ex_full_stack 3 1
      SeriesFlags.none ex_read_only ex_into).2.2.1 (by decide)
      (Or.inr ⟨by decide, by decide⟩)).trans (by decide),
    ((DS_index_zero_kept ex_config_release ex_chunk_config ex_globals 3 ex_full_stack 3 1
      SeriesFlags.none ex_read_only ex_into).2.2.1 (by decide)
      (Or.inr ⟨by decide, by decide⟩)).trans (by decide)⟩

/-- C14: for every initial size whose capacity request stays below the stack
limit, `Startup_Stacks(size)` returns a state in which every assertion of
`Shutdown_Stacks` holds - the frame stack is empty, `DSP` is 0, the head cell
of the data stack is the unreadable blank, the top chunk is the first chunk of
the root chunker's payload - so that `Shutdown_Stacks` returns; and the
data-stack array then has length `size + 1`, cells `0 .. size` unreadable and
the END marker after them. -/
theorem Startup_then_Shutdown_ok (cfg : Config) (cc : ChunkConfig) (g : Globals) (size : Nat)
    (hlimit : cfg.STACK_LIMIT ≤ 2 ^ 32)
    (hsize : SER_REST (Startup_DS_Array cfg) + size < cfg.STACK_LIMIT) :
    ∃ g', Startup_Stacks cfg cc g size = Outcome.returned g' ∧
      g'.TG_Frame_Stack = none ∧
      DSP g'.stack = 0 ∧
      ARR_AT g'.stack.DS_Array 0 = some Cell.Unreadable ∧
      (∃ root, g'.TG_Root_Chunker = some root ∧ g'.TG_Top_Chunk = some (root, 0)) ∧
      g'.stack.DS_Array.len = size + 1 ∧
      (∀ i, i ≤ size → ARR_AT g'.stack.DS_Array i = some Cell.Unreadable) ∧
      ARR_AT g'.stack.DS_Array (size + 1) = some Cell.END ∧
      ∃ g'', Shutdown_Stacks cfg cc g' = Outcome.returned g'' := by
  obtain ⟨hl, h0, h1, _⟩ := Startup_DS_Array_shape cfg
  obtain ⟨s2, hs2⟩ := Expand_returns cfg
    { DS_Array := Startup_DS_Array cfg, DS_Index := 1 } size hl.symm h1 hlimit hsize
  obtain ⟨hlen2, hfill, hend2, hdsp2⟩ := Expand_returned_state cfg
    { DS_Array := Startup_DS_Array cfg, DS_Index := 1 } s2 size hl.symm h1 hs2
  have hbelow := Expand_state_below cfg
    { DS_Array := Startup_DS_Array cfg, DS_Index := 1 } size hl.symm h1
  rw [hs2] at hbelow
  simp only [hl, Outcome.state] at hlen2 hfill hend2 hbelow
  have hhead : ARR_AT s2.DS_Array 0 = some Cell.Unreadable :=
    (hbelow.1 0 (by decide)).trans h0
  have hidx : s2.DS_Index = 1 := hdsp2
  have hstart : ∃ g', Startup_Stacks cfg cc g size = Outcome.returned g' := by
    unfold Startup_Stacks
    simp only [List.getElem?_cons_zero, IS_END, Bool.not_true, Bool.and_false,
      Bool.false_eq_true, if_false, hs2]
    exact ⟨_, rfl⟩
  obtain ⟨g', hg'⟩ := hstart
  obtain ⟨s2', hs2', hstack, hfs, hroot, htopc, c, hc, hnext, _⟩ :=
    Startup_returned cfg cc g g' size hg'
  rw [hs2] at hs2'
  cases hs2'
  have hd : DSP g'.stack = 0 := by
    rw [hstack]
    simp [DS_DROP, DSP, hidx]
  have hh : ARR_AT g'.stack.DS_Array 0 = some Cell.Unreadable := by
    rw [hstack]
    exact hhead
  refine ⟨g', hg', hfs, hd, hh, ⟨_, hroot, htopc⟩, ?_, ?_, ?_, ?_⟩
  · rw [hstack]
    simp only [DS_DROP]
    omega
  · intro i hi
    rw [hstack]
    by_cases hi0 : i = 0
    · subst hi0
      exact hhead
    · exact hfill i (by omega) (by omega)
  · rw [hstack]
    simp only [DS_DROP]
    rw [Nat.add_comm]
    exact hend2
  · unfold Shutdown_Stacks
    simp [hfs, hd, hh, hroot, htopc, hc, hnext, IS_UNREADABLE_IF_DEBUG]

/-- Witness of C14: with the limit 1000, `Startup_Stacks(3)` returns the
started example globals, on which `Shutdown_Stacks` returns in the debug
build. -/
theorem Startup_then_Shutdown_ok_witness :
    ex_config.STACK_LIMIT ≤ 2 ^ 32 ∧
    SER_REST (Startup_DS_Array ex_config) + 3 < ex_config.STACK_LIMIT ∧
    Startup_Stacks ex_config ex_chunk_config ex_globals 3 =
      Outcome.returned ex_globals_started ∧
    (∃ g', Startup_Stacks ex_config ex_chunk_config ex_globals 3 = Outcome.returned g' ∧
      g'.TG_Frame_Stack = none ∧ DSP g'.stack = 0 ∧
      ARR_AT g'.stack.DS_Array 0 = some Cell.Unreadable) :=
  ⟨by decide, by decide, by decide,
    (Startup_then_Shutdown_ok ex_config ex_chunk_config ex_globals 3
      (by decide) (by decide)).elim
      fun g' h => ⟨g', h.1, h.2.1, h.2.2.1, h.2.2.2.1⟩⟩

/-! ## Lemmas on the integer routines -/

theorem REBINT_wrap_of_range (x : Int) (h1 : -2 ^ 31 ≤ x) (h2 : x < 2 ^ 31) :
    REBINT_wrap x = x := by
  unfold REBINT_wrap
  omega

theorem REBI64_wrap_of_range (x : Int) (h1 : -2 ^ 63 ≤ x) (h2 : x < 2 ^ 63) :
    REBI64_wrap x = x := by
  unfold REBI64_wrap
  omega

theorem REBINT_wrap_step (a d : Int) :
    REBINT_wrap (REBINT_wrap a * 10 + d) = REBINT_wrap (a * 10 + d) := by
  unfold REBINT_wrap
  omega

theorem REBINT_wrap_neg (a : Int) : REBINT_wrap (-REBINT_wrap a) = REBINT_wrap (-a) := by
  unfold REBINT_wrap
  omega

theorem REBINT_wrap_REBI64_wrap (a : Int) : REBINT_wrap (REBI64_wrap a) = REBINT_wrap a := by
  unfold REBINT_wrap REBI64_wrap
  omega

theorem REBI64_wrap_step (a d : Int) :
    REBI64_wrap (REBI64_wrap a * 10 + d) = REBI64_wrap (a * 10 + d) := by
  unfold REBI64_wrap
  omega

/-- The digit loop of `Form_Int_Len` on a number `n ≥ 0` that has room in `tmp`
and in `maxl`: it stores the digits of `n`, least significant first, from
`tp` on, and ends with `val = 0`. -/
theorem Form_Int_Len_digits_spec (room : Nat) (tmp : List Nat) (tp n : Nat) (maxl : Int)
    (hroom : (Nat.digits 10 n).length ≤ room)
    (hmaxl : ((Nat.digits 10 n).length : Int) ≤ maxl) (hmaxl2 : maxl < 2 ^ 31)
    (htmp : tp + (Nat.digits 10 n).length ≤ tmp.length) :
    (Form_Int_Len_digits room tmp tp (n : Int) maxl).2.1 = tp + (Nat.digits 10 n).length ∧
    (Form_Int_Len_digits room tmp tp (n : Int) maxl).2.2.1 = 0 ∧
    (Form_Int_Len_digits room tmp tp (n : Int) maxl).2.2.2 =
      maxl - ((Nat.digits 10 n).length : Int) ∧
    (∀ i, i < tp → (Form_Int_Len_digits room tmp tp (n : Int) maxl).1[i]? = tmp[i]?) ∧
    (∀ j, j < (Nat.digits 10 n).length →
      (Form_Int_Len_digits room tmp tp (n : Int) maxl).1[tp + j]? =
        some (48 + (Nat.digits 10 n).getD j 0)) := by
  induction room generalizing tmp tp n maxl with
  | zero =>
    have hnil : Nat.digits 10 n = [] := List.eq_nil_of_length_eq_zero (by omega)
    have hn : n = 0 := by
      by_contra hne
      exact (Nat.digits_ne_nil_iff_ne_zero.mpr hne) hnil
    subst hn
    simp [Form_Int_Len_digits]
  | succ room ih =>
    by_cases hn : n = 0
    · subst hn
      simp [Form_Int_Len_digits]
    · have hpos : 0 < n := Nat.pos_of_ne_zero hn
      have hdig : Nat.digits 10 n = n % 10 :: Nat.digits 10 (n / 10) :=
        Nat.digits_def' (by decide) hpos
      rw [hdig] at hroom hmaxl htmp ⊢
      simp only [List.length_cons] at hroom hmaxl htmp ⊢
      have hdiv : (n : Int).tdiv 10 = ((n / 10 : Nat) : Int) := by
        rw [Int.tdiv_eq_ediv (by omega) (by decide)]
        norm_cast
      have hmod : (n : Int).tmod 10 = ((n % 10 : Nat) : Int) := by
        rw [Int.tmod_eq_emod (by omega) (by decide)]
        norm_cast
      have hbyte : (48 + (((n % 10 : Nat) : Int) % 256).toNat) % 256 = 48 + n % 10 := by
        omega
      have hcond : ((n : Int) ≠ 0 ∧ maxl > 0) := ⟨by omega, by omega⟩
      have hstep : Form_Int_Len_digits (room + 1) tmp tp (n : Int) maxl =
          Form_Int_Len_digits room (tmp.set tp (48 + n % 10)) (tp + 1) ((n / 10 : Nat) : Int)
            (maxl - 1) := by
        rw [Form_Int_Len_digits, if_pos hcond]
        simp only [hdiv, hmod, hbyte]
        rw [REBINT_wrap_of_range (maxl - 1) (by omega) (by omega)]
      rw [hstep]
      obtain ⟨h1, h2, h3, h4, h5⟩ := ih (tmp.set tp (48 + n % 10)) (tp + 1) (n / 10) (maxl - 1)
        (by omega) (by push_cast at hmaxl ⊢; omega) (by omega)
        (by rw [List.length_set]; omega)
      refine ⟨by omega, h2, by push_cast at h3 ⊢; omega, ?_, ?_⟩
      · intro i hi
        rw [h4 i (by omega), List.getElem?_set_ne (by omega)]
      · intro j hj
        by_cases hj0 : j = 0
        · subst hj0
          have h := h4 tp (by omega)
          rw [List.getElem?_set_self (by omega)] at h
          simpa using h
        · obtain ⟨j', rfl⟩ := Nat.exists_eq_succ_of_ne_zero hj0
          have h := h5 j' (by omega)
          rw [show tp + 1 + j' = tp + (j' + 1) by omega] at h
          simpa using h

/-- The copy loop of `Form_Int_Len` on a `tmp` that holds a NUL at index 0 and
non-NUL bytes at `1 .. tp`: it stores `tmp[tp], ..., tmp[1]` and the NUL from
`bp` on and adds `tp` to `len`. -/
theorem Form_Int_Len_copy_spec (tp : Nat) (tmp buf : List Nat) (bp : Nat) (len : Int)
    (h0 : tmp[0]? = some 0)
    (hnz : ∀ i, 1 ≤ i → i ≤ tp → ∃ c, tmp[i]? = some c ∧ c ≠ 0)
    (hroom : bp + tp < buf.length) (hlen0 : 0 ≤ len) (hlen : len + tp < 2 ^ 31) :
    (Form_Int_Len_copy (tp + 1) tmp tp buf bp len).2 = len + tp ∧
    (Form_Int_Len_copy (tp + 1) tmp tp buf bp len).1.length = buf.length ∧
    (∀ i, i < bp → (Form_Int_Len_copy (tp + 1) tmp tp buf bp len).1[i]? = buf[i]?) ∧
    (∀ j, j ≤ tp → (Form_Int_Len_copy (tp + 1) tmp tp buf bp len).1[bp + j]? = tmp[tp - j]?) ∧
    (∀ i, bp + tp < i → (Form_Int_Len_copy (tp + 1) tmp tp buf bp len).1[i]? = buf[i]?) := by
  induction tp generalizing buf bp len with
  | zero =>
    have hc : tmp.getD 0 0 = 0 := by simp [h0]
    simp only [Form_Int_Len_copy, hc, ne_eq, not_true_eq_false, if_false]
    refine ⟨by simp, by simp, ?_, ?_, ?_⟩
    · intro i hi
      rw [List.getElem?_set_ne (by omega)]
    · intro j hj
      have hj0 : j = 0 := by omega
      subst hj0
      rw [Nat.add_zero, List.getElem?_set_self (by omega), h0]
    · intro i hi
      rw [List.getElem?_set_ne (by omega)]
  | succ tp ih =>
    obtain ⟨c, hc, hcne⟩ := hnz (tp + 1) (by omega) (by omega)
    have hget : tmp.getD (tp + 1) 0 = c := by simp [hc]
    have hstep : Form_Int_Len_copy (tp + 1 + 1) tmp (tp + 1) buf bp len =
        Form_Int_Len_copy (tp + 1) tmp tp (buf.set bp c) (bp + 1) (len + 1) := by
      simp only [Form_Int_Len_copy, hget, ne_eq, hcne, not_false_eq_true, if_true,
        Nat.add_sub_cancel]
      rw [REBINT_wrap_of_range (len + 1) (by omega) (by push_cast at hlen; omega)]
    rw [hstep]
    obtain ⟨h1, h2, h3, h4, h5⟩ := ih (buf.set bp c) (bp + 1) (len + 1)
      (fun i hi1 hi2 => hnz i hi1 (by omega)) (by rw [List.length_set]; omega) (by omega)
      (by push_cast at hlen ⊢; omega)
    refine ⟨by push_cast; omega, by rw [h2, List.length_set], ?_, ?_, ?_⟩
    · intro i hi
      rw [h3 i (by omega), List.getElem?_set_ne (by omega)]
    · intro j hj
      by_cases hj0 : j = 0
      · subst hj0
        have h := h3 bp (by omega)
        rw [List.getElem?_set_self (by omega)] at h
        simpa [hc] using h
      · obtain ⟨j', rfl⟩ := Nat.exists_eq_succ_of_ne_zero hj0
        have h := h4 j' (by omega)
        rw [show bp + 1 + j' = bp + (j' + 1) by omega] at h
        rw [h]
        congr 1
        omega
    · intro i hi
      rw [h5 i (by omega), List.getElem?_set_ne (by omega)]

/-- A buffer that holds `pre`, then the digits `ds` in reverse as ASCII, then
a NUL, and is otherwise the old buffer. -/
theorem Form_Int_Len_assemble (pre ds buf out : List Nat)
    (hpre : ∀ i, i < pre.length → out[i]? = pre[i]?)
    (hdig : ∀ j, j < ds.length →
      out[pre.length + j]? = some (48 + ds.getD (ds.length - 1 - j) 0))
    (hnul : out[pre.length + ds.length]? = some 0)
    (hrest : ∀ i, pre.length + ds.length < i → out[i]? = buf[i]?) :
    out = pre ++ (ds.reverse.map fun d => d + 48) ++ [0] ++
      buf.drop (pre.length + ds.length + 1) := by
  apply List.ext_getElem?
  intro i
  by_cases h1 : i < pre.length
  · rw [hpre i h1, List.append_assoc, List.append_assoc, List.getElem?_append_left h1]
  · by_cases h2 : i < pre.length + ds.length
    · have hj := hdig (i - pre.length) (by omega)
      rw [show pre.length + (i - pre.length) = i by omega] at hj
      rw [hj, List.append_assoc, List.append_assoc, List.getElem?_append_right (by omega),
        List.getElem?_append_left (by simp; omega), List.getElem?_map,
        List.getElem?_reverse (by omega)]
      have hin : ds.length - 1 - (i - pre.length) < ds.length := by omega
      simp [hin, Nat.add_comm]
    · by_cases h3 : i = pre.length + ds.length
      · subst h3
        rw [hnul, List.getElem?_append_left (by simp),
          List.getElem?_append_right (by simp)]
        simp
      · rw [hrest i (by omega), List.getElem?_append_right (by simp; omega),
          List.getElem?_drop]
        congr 1
        simp
        omega

theorem memcpy_length (bytes buf : List Nat) (i : Nat) :
    (memcpy buf i bytes).length = buf.length := by
  induction bytes generalizing buf i with
  | nil => rfl
  | cons b bytes ih => simp [memcpy, ih]

theorem memcpy_get (bytes buf : List Nat) (i j : Nat) (h : i + bytes.length ≤ buf.length) :
    (memcpy buf i bytes)[j]? =
      if i ≤ j ∧ j < i + bytes.length then bytes[j - i]? else buf[j]? := by
  induction bytes generalizing buf i with
  | nil =>
    simp only [memcpy, List.length_nil]
    rw [if_neg (by omega)]
  | cons b bytes ih =>
    simp only [memcpy, List.length_cons] at h ⊢
    rw [ih (buf.set i b) (i + 1) (by rw [List.length_set]; omega)]
    by_cases hji : j = i
    · subst hji
      rw [if_neg (by omega), if_pos (by omega), List.getElem?_set_self (by omega)]
      simp
    · by_cases hlt : i + 1 ≤ j ∧ j < i + 1 + bytes.length
      · have h2 : i ≤ j ∧ j < i + (bytes.length + 1) := by omega
        rw [if_pos hlt, if_pos h2]
        obtain ⟨k, hk⟩ : ∃ k, j - i = k + 1 := ⟨j - i - 1, by omega⟩
        rw [hk, List.getElem?_cons_succ]
        congr 1
        omega
      · have h2 : ¬ (i ≤ j ∧ j < i + (bytes.length + 1)) := by omega
        rw [if_neg hlt, if_neg h2, List.getElem?_set_ne (fun h => hji h.symm)]

/-- The two loops of `Form_Int_Len` on a magnitude `n > 0` of at most 19 digits
that fits `maxl`: the reversed digits and a NUL are stored from `bp` on, the
rest of the buffer is kept, and `len` grows by the number of digits. -/
theorem Form_Int_Len_loops (M : Nat) (buf1 : List Nat) (bp : Nat) (len : Int) (n : Nat)
    (maxl1 : Int) (hM : 20 ≤ M) (hD : (Nat.digits 10 n).length ≤ 19)
    (hmaxl : ((Nat.digits 10 n).length : Int) + 1 ≤ maxl1) (hmaxl2 : maxl1 < 2 ^ 31)
    (hroom : bp + (Nat.digits 10 n).length < buf1.length)
    (hlen0 : 0 ≤ len) (hlen1 : len ≤ 1) :
    (Form_Int_Len_digits (M - 1) ((List.replicate M 0).set 0 0) 1 (n : Int) maxl1).2.2.2 ≠ 0 ∧
    (Form_Int_Len_copy
      ((Form_Int_Len_digits (M - 1) ((List.replicate M 0).set 0 0) 1 (n : Int) maxl1).2.1 - 1 + 1)
      (Form_Int_Len_digits (M - 1) ((List.replicate M 0).set 0 0) 1 (n : Int) maxl1).1
      ((Form_Int_Len_digits (M - 1) ((List.replicate M 0).set 0 0) 1 (n : Int) maxl1).2.1 - 1)
      buf1 bp len).2 = len + ((Nat.digits 10 n).length : Int) ∧
    (∀ i, i < bp → (Form_Int_Len_copy
      ((Form_Int_Len_digits (M - 1) ((List.replicate M 0).set 0 0) 1 (n : Int) maxl1).2.1 - 1 + 1)
      (Form_Int_Len_digits (M - 1) ((List.replicate M 0).set 0 0) 1 (n : Int) maxl1).1
      ((Form_Int_Len_digits (M - 1) ((List.replicate M 0).set 0 0) 1 (n : Int) maxl1).2.1 - 1)
      buf1 bp len).1[i]? = buf1[i]?) ∧
    (∀ j, j < (Nat.digits 10 n).length → (Form_Int_Len_copy
      ((Form_Int_Len_digits (M - 1) ((List.replicate M 0).set 0 0) 1 (n : Int) maxl1).2.1 - 1 + 1)
      (Form_Int_Len_digits (M - 1) ((List.replicate M 0).set 0 0) 1 (n : Int) maxl1).1
      ((Form_Int_Len_digits (M - 1) ((List.replicate M 0).set 0 0) 1 (n : Int) maxl1).2.1 - 1)
      buf1 bp len).1[bp + j]? =
        some (48 + (Nat.digits 10 n).getD ((Nat.digits 10 n).length - 1 - j) 0)) ∧
    (Form_Int_Len_copy
      ((Form_Int_Len_digits (M - 1) ((List.replicate M 0).set 0 0) 1 (n : Int) maxl1).2.1 - 1 + 1)
      (Form_Int_Len_digits (M - 1) ((List.replicate M 0).set 0 0) 1 (n : Int) maxl1).1
      ((Form_Int_Len_digits (M - 1) ((List.replicate M 0).set 0 0) 1 (n : Int) maxl1).2.1 - 1)
      buf1 bp len).1[bp + (Nat.digits 10 n).length]? = some 0 ∧
    (∀ i, bp + (Nat.digits 10 n).length < i → (Form_Int_Len_copy
      ((Form_Int_Len_digits (M - 1) ((List.replicate M 0).set 0 0) 1 (n : Int) maxl1).2.1 - 1 + 1)
      (Form_Int_Len_digits (M - 1) ((List.replicate M 0).set 0 0) 1 (n : Int) maxl1).1
      ((Form_Int_Len_digits (M - 1) ((List.replicate M 0).set 0 0) 1 (n : Int) maxl1).2.1 - 1)
      buf1 bp len).1[i]? = buf1[i]?) := by
  have htmp0 : ((List.replicate M 0).set 0 0)[0]? = some 0 := by
    rw [List.getElem?_set_self (by simp; omega)]
  obtain ⟨h1, _, h3, h4, h5⟩ := Form_Int_Len_digits_spec (M - 1)
    ((List.replicate M 0).set 0 0) 1 n maxl1 (by omega) (by omega) hmaxl2
    (by simp; omega)
  have htp : (Form_Int_Len_digits (M - 1) ((List.replicate M 0).set 0 0) 1 (n : Int)
      maxl1).2.1 - 1 = (Nat.digits 10 n).length := by omega
  rw [htp]
  obtain ⟨c1, _, c3, c4, c5⟩ := Form_Int_Len_copy_spec (Nat.digits 10 n).length
    (Form_Int_Len_digits (M - 1) ((List.replicate M 0).set 0 0) 1 (n : Int) maxl1).1
    buf1 bp len
    (by rw [h4 0 (by omega), htmp0])
    (by
      intro i hi1 hi2
      have h := h5 (i - 1) (by omega)
      rw [show 1 + (i - 1) = i by omega] at h
      exact ⟨_, h, by omega⟩)
    hroom hlen0 (by omega)
  refine ⟨by rw [h3]; omega, c1, c3, ?_, ?_, c5⟩
  · intro j hj
    rw [c4 j (by omega)]
    have h := h5 ((Nat.digits 10 n).length - 1 - j) (by omega)
    rw [show 1 + ((Nat.digits 10 n).length - 1 - j) = (Nat.digits 10 n).length - j by omega] at h
    exact h
  · rw [c4 _ (le_refl _), Nat.sub_self, h4 0 (by omega), htmp0]

/-- A 64-bit magnitude has at most 19 decimal digits. -/
theorem digits_length_le_19 (n : Nat) (h : n < 2 ^ 63) : (Nat.digits 10 n).length ≤ 19 := by
  have h1 := Nat.le_digits_len_le 10 n 9223372036854775807 (by omega)
  have h2 : (Nat.digits 10 9223372036854775807).length = 19 := by norm_num
  omega

/-! ## Claims on the integer routines -/

/-- C19: for every 64-bit signed `val` (zero, negatives and the minimum value
included) and every `maxl` that leaves room for the decimal representation of
`val`, of length `L` counting a leading '-', and its terminator
(`L + 1 ≤ maxl`), `Form_Int_Len(buf, val, maxl)` on a buffer with room for
`L + 1` bytes returns `L` and leaves in `buf` exactly that representation, a
NUL after it, and the old bytes behind. -/
theorem Form_Int_Len_forms (MAX_NUM_LEN : Nat) (buf : List Nat) (val maxl : Int)
    (hM : 20 ≤ MAX_NUM_LEN)
    (hval1 : -2 ^ 63 ≤ val) (hval2 : val < 2 ^ 63) (hmaxl : maxl < 2 ^ 31)
    (hfit : ((spec_decimal_repr val).length : Int) + 1 ≤ maxl)
    (hroom : (spec_decimal_repr val).length + 1 ≤ buf.length) :
    (Form_Int_Len MAX_NUM_LEN buf val maxl).2 = ((spec_decimal_repr val).length : Int) ∧
    (Form_Int_Len MAX_NUM_LEN buf val maxl).1 =
      spec_decimal_repr val ++ [0] ++ buf.drop ((spec_decimal_repr val).length + 1) := by
  have hmaxl0 : ¬ maxl = 0 := by omega
  by_cases h0 : val = 0
  · subst h0
    simp only [spec_decimal_repr] at hroom ⊢
    simp only [Form_Int_Len, hmaxl0, if_false, if_true]
    obtain ⟨a, b, rest, rfl⟩ : ∃ a b rest, buf = a :: b :: rest := by
      match buf, hroom with
      | a :: b :: rest, _ => exact ⟨a, b, rest, rfl⟩
    simp
  · by_cases hmin : val = MIN_I64
    · subst hmin
      have hrepr : spec_decimal_repr MIN_I64 = MIN_I64_STR := by
        simp only [spec_decimal_repr, MIN_I64, MIN_I64_STR]
        norm_num
      rw [hrepr] at hfit hroom ⊢
      have hl : MIN_I64_STR.length = 20 := rfl
      have hl21 : (MIN_I64_STR ++ [0]).length = 21 := rfl
      have hb0 : ((buf.set 0 63).set 1 0).length = buf.length := by simp
      rw [hl] at hfit hroom ⊢
      have hlt : ¬ maxl < ((20 : Nat) : Int) + 1 := by omega
      have hform : Form_Int_Len MAX_NUM_LEN buf MIN_I64 maxl =
          (memcpy ((buf.set 0 63).set 1 0) 0 (MIN_I64_STR ++ [0]), ((20 : Nat) : Int)) := by
        simp only [Form_Int_Len, hmaxl0, h0, if_false, if_true, hl, hlt]
      rw [hform]
      refine ⟨rfl, ?_⟩
      apply List.ext_getElem?
      intro j
      rw [memcpy_get _ _ _ _ (by rw [hl21, hb0]; omega), hl21]
      by_cases hj : j < 21
      · rw [if_pos (by omega), Nat.sub_zero]
        exact (List.getElem?_append_left (by rw [hl21]; exact hj)).symm
      · rw [if_neg (by omega), List.getElem?_append_right (by rw [hl21]; omega),
          List.getElem?_drop, List.getElem?_set_ne (by omega), List.getElem?_set_ne (by omega),
          hl21]
        congr 1
        omega
    · have hminlt : -2 ^ 63 < val := by
        unfold MIN_I64 at hmin
        omega
      have hn : val.natAbs ≠ 0 := by omega
      have hnlt : val.natAbs < 2 ^ 63 := by omega
      have hD := digits_length_le_19 val.natAbs hnlt
      have hD1 : 1 ≤ (Nat.digits 10 val.natAbs).length := by
        have hnil : Nat.digits 10 val.natAbs ≠ [] := Nat.digits_ne_nil_iff_ne_zero.mpr hn
        cases hd : Nat.digits 10 val.natAbs with
        | nil => exact absurd hd hnil
        | cons d ds => simp
      by_cases hneg : val < 0
      · have hrepr : spec_decimal_repr val =
            [45] ++ ((Nat.digits 10 val.natAbs).reverse.map fun d => d + 48) := by
          simp [spec_decimal_repr, hneg, h0]
        have hL : (spec_decimal_repr val).length = 1 + (Nat.digits 10 val.natAbs).length := by
          rw [hrepr]
          simp
          omega
        rw [hL] at hfit hroom ⊢
        rw [hrepr]
        have hv : REBI64_wrap (-val) = ((val.natAbs : Nat) : Int) := by
          rw [REBI64_wrap_of_range _ (by omega) (by omega)]
          omega
        have hm : REBINT_wrap (maxl - 1) = maxl - 1 :=
          REBINT_wrap_of_range _ (by omega) (by omega)
        obtain ⟨l1, l2, l3, l4, l5, l6⟩ := Form_Int_Len_loops MAX_NUM_LEN
          (((buf.set 0 63).set 1 0).set 0 45) 1 1 val.natAbs (maxl - 1) hM hD
          (by push_cast at hfit ⊢; omega) (by omega) (by simp; omega) (by decide) (by decide)
        simp only [Form_Int_Len, hmaxl0, h0, hmin, if_false, hneg, decide_True, if_true, hv, hm,
          l1]
        refine ⟨by rw [l2]; push_cast; ring, ?_⟩
        have hasm := Form_Int_Len_assemble [45] (Nat.digits 10 val.natAbs) buf _
          (by
            intro i hi
            have hi0 : i = 0 := by simpa using hi
            subst hi0
            rw [l3 0 (by decide), List.getElem?_set_self (by simp; omega)]
            rfl)
          (by
            intro j hj
            exact l4 j hj)
          l5
          (by
            intro i hi
            simp only [List.length_singleton] at hi
            rw [l6 i hi, List.getElem?_set_ne (by omega), List.getElem?_set_ne (by omega),
              List.getElem?_set_ne (by omega)])
        simpa using hasm
      · have hrepr : spec_decimal_repr val =
            [] ++ ((Nat.digits 10 val.natAbs).reverse.map fun d => d + 48) := by
          simp [spec_decimal_repr, hneg, h0]
        have hL : (spec_decimal_repr val).length = (Nat.digits 10 val.natAbs).length := by
          rw [hrepr]
          simp
        rw [hL] at hfit hroom ⊢
        rw [hrepr]
        have hv : val = ((val.natAbs : Nat) : Int) := by omega
        obtain ⟨l1, l2, l3, l4, l5, l6⟩ := Form_Int_Len_loops MAX_NUM_LEN
          ((buf.set 0 63).set 1 0) 0 0 val.natAbs maxl hM hD
          (by omega) (by omega) (by simp; omega) (by decide) (by decide)
        rw [← hv] at l1 l2 l3 l4 l5 l6
        simp only [Form_Int_Len, hmaxl0, h0, hmin, if_false, hneg, decide_False,
          Bool.false_eq_true, l1]
        refine ⟨by rw [l2]; ring, ?_⟩
        have hasm := Form_Int_Len_assemble [] (Nat.digits 10 val.natAbs) buf _
          (by
            intro i hi
            simp at hi)
          (by
            intro j hj
            exact l4 j hj)
          l5
          (by
            intro i hi
            simp only [List.length_nil, Nat.zero_add] at hi
            rw [l6 i (by omega), List.getElem?_set_ne (by omega),
              List.getElem?_set_ne (by omega)])
        simpa using hasm

/-- Witness of C19: -12345 with `maxl = 7` is formed as "-12345" and a NUL,
length 6; the minimum value with `maxl = 21` is formed as
"-9223372036854775808", length 20. -/
theorem Form_Int_Len_forms_witness :
    (Form_Int_Len 64 ex_buf (-12345) 7).2 = 6 ∧
    (Form_Int_Len 64 ex_buf (-12345) 7).1 =
      [45, 49, 50, 51, 52, 53] ++ [0] ++ ex_buf.drop 7 ∧
    (Form_Int_Len 64 ex_buf MIN_I64 21).2 = 20 ∧
    (Form_Int_Len 64 ex_buf MIN_I64 21).1 = MIN_I64_STR ++ [0] ++ ex_buf.drop 21 := by
  have hrepr : spec_decimal_repr (-12345) = [45, 49, 50, 51, 52, 53] := by
    norm_num [spec_decimal_repr]
  have hmin : spec_decimal_repr MIN_I64 = MIN_I64_STR := by
    norm_num [spec_decimal_repr, MIN_I64, MIN_I64_STR]
  have h1 := Form_Int_Len_forms 64 ex_buf (-12345) 7 (by decide) (by decide) (by decide)
    (by decide) (by rw [hrepr]; decide) (by rw [hrepr]; decide)
  have h2 := Form_Int_Len_forms 64 ex_buf MIN_I64 21 (by decide) (by decide) (by decide)
    (by decide) (by rw [hmin]; decide) (by rw [hmin]; decide)
  rw [hrepr] at h1
  rw [hmin] at h2
  exact ⟨h1.1, h1.2, h2.1, h2.2⟩

/-- C20, the failing input: for `val = 0` and `maxl = 1` the representation "0"
with its terminator takes 2 bytes and does not fit, yet `Form_Int_Len` stores
'0' and the NUL and returns 1; for `val = 5` and the same `maxl` it returns 0. -/
theorem Form_Int_Len_zero_ignores_maxl :
    (spec_decimal_repr 0).length + 1 > 1 ∧
    (Form_Int_Len 64 ex_buf 0 1).2 = 1 ∧
    (Form_Int_Len 64 ex_buf 0 1).1.take 2 = [48, 0] ∧
    (Form_Int_Len 64 ex_buf 5 1).2 = 0 := by
  refine ⟨?_, by decide, by decide, by decide⟩
  simp [spec_decimal_repr]

/-- The value of a digit sequence with one more leading digit. -/
theorem spec_decimal_value_cons (d : Nat) (ds : List Nat) :
    spec_decimal_value (d :: ds) = d * 10 ^ ds.length + spec_decimal_value ds := by
  unfold spec_decimal_value
  rw [List.reverse_cons, Nat.ofDigits_append, Nat.ofDigits_singleton, List.length_reverse]
  ring

theorem REBINT_wrap_congr (x y : Int) (h : (4294967296 : Int) ∣ x - y) :
    REBINT_wrap x = REBINT_wrap y := by
  unfold REBINT_wrap
  omega

theorem REBI64_wrap_dvd (a : Int) : (4294967296 : Int) ∣ REBI64_wrap a - a := by
  unfold REBI64_wrap
  omega

/-- The digit loop of `Grab_Int` over the digits `ds` followed by a non-digit:
it stops at the non-digit with the 32-bit value of the digits appended to the
value it started from. -/
theorem Grab_Int_digits_spec (ds : List Nat) (hds : ∀ d ∈ ds, d < 10) (c : Nat)
    (rest : List Nat) (hc : ¬ (48 ≤ c ∧ c ≤ 57)) (cp : Nat) (a : Int) :
    Grab_Int_digits ((ds.map fun d => d + 48) ++ c :: rest) cp (REBINT_wrap a) =
      (cp + ds.length,
        REBINT_wrap (a * 10 ^ ds.length + (spec_decimal_value ds : Int))) := by
  induction ds generalizing cp a with
  | nil =>
    simp [Grab_Int_digits, hc, spec_decimal_value]
  | cons d ds ih =>
    have hd : d < 10 := hds d (List.mem_cons_self _ _)
    have hdig : 48 ≤ d + 48 ∧ d + 48 ≤ 57 := by omega
    rw [List.map_cons, List.cons_append, Grab_Int_digits, if_pos hdig, Nat.add_sub_cancel,
      REBINT_wrap_step, ih (fun x hx => hds x (List.mem_cons_of_mem _ hx)),
      spec_decimal_value_cons]
    simp only [List.length_cons]
    refine Prod.ext (by simp; omega) ?_
    simp only
    congr 1
    push_cast
    ring

/-- C15: for a string made of an optional '+' or '-', then `k ≥ 1` decimal
digits, then a byte that is not a digit, `Grab_Int` returns the position of
that byte and stores the decimal value of the digits, negated after a '-', as
computed in 32-bit `REBINT` arithmetic. -/
theorem Grab_Int_parses (sign ds rest : List Nat) (c : Nat)
    (hsign : sign = [] ∨ sign = [43] ∨ sign = [45])
    (hk : ds ≠ []) (hds : ∀ d ∈ ds, d < 10) (hc : ¬ (48 ≤ c ∧ c ≤ 57)) :
    Grab_Int (sign ++ (ds.map fun d => d + 48) ++ c :: rest) 0 =
      (sign.length + ds.length,
        REBINT_wrap (if sign = [45] then -(spec_decimal_value ds : Int)
          else (spec_decimal_value ds : Int))) ∧
    byte_at (sign ++ (ds.map fun d => d + 48) ++ c :: rest) (sign.length + ds.length) = c := by
  have hloop := fun cp => Grab_Int_digits_spec ds hds c rest hc cp 0
  have hw0 : REBINT_wrap 0 = 0 := by decide
  simp only [hw0, zero_mul, zero_add] at hloop
  have hbyte : byte_at (sign ++ (ds.map fun d => d + 48) ++ c :: rest)
      (sign.length + ds.length) = c := by
    unfold byte_at
    rw [List.getD_eq_getElem?_getD, List.getElem?_append_right (by simp)]
    simp
  refine ⟨?_, hbyte⟩
  obtain ⟨d, ds', rfl⟩ : ∃ d ds', ds = d :: ds' := by
    cases ds with
    | nil => exact absurd rfl hk
    | cons d ds' => exact ⟨d, ds', rfl⟩
  have hd : d < 10 := hds d (List.mem_cons_self _ _)
  rcases hsign with h | h | h
  · subst h
    have h45 : ¬ d + 48 = 45 := by omega
    have h43 : ¬ d + 48 = 43 := by omega
    simp only [Grab_Int, byte_at, List.nil_append, List.map_cons, List.cons_append,
      List.getD_cons_zero, h45, h43, decide_False, if_false, Bool.false_eq_true,
      List.drop_zero, List.length_nil, Nat.zero_add]
    have := hloop 0
    simp only [List.map_cons, List.cons_append, Nat.zero_add] at this
    rw [this]
    have hne : ¬ ([] : List Nat) = [45] := by simp
    rw [if_neg hne]
  · subst h
    simp only [Grab_Int, byte_at, List.cons_append, List.nil_append, List.map_cons,
      List.getD_cons_zero, Nat.reduceEqDiff, decide_False, if_false, if_true,
      Bool.false_eq_true, List.drop_succ_cons, List.drop_zero, List.length_singleton]
    have := hloop (0 + 1)
    simp only [List.map_cons, List.cons_append] at this
    rw [this]
    have hne : ¬ ([43] : List Nat) = [45] := by simp
    rw [if_neg hne]
  · subst h
    simp only [Grab_Int, byte_at, List.cons_append, List.nil_append, List.map_cons,
      List.getD_cons_zero, decide_True, if_true, List.drop_succ_cons, List.drop_zero,
      List.length_singleton]
    have := hloop (0 + 1)
    simp only [List.map_cons, List.cons_append] at this
    rw [this, REBINT_wrap_neg]

/-- Witness of C15: in "-1234x" the integer ends at position 5 and its value is
-1234. -/
theorem Grab_Int_parses_witness :
    Grab_Int ex_minus_1234 0 = (5, -1234) ∧ byte_at ex_minus_1234 5 = 120 := by
  have h := Grab_Int_parses [45] [1, 2, 3, 4] [] 120 (by decide) (by decide) (by decide)
    (by decide)
  have hv : spec_decimal_value [1, 2, 3, 4] = 1234 := by
    norm_num [spec_decimal_value, Nat.ofDigits]
  rw [hv] at h
  exact ⟨h.1.trans (by decide), h.2⟩

/-- C16, failing inputs: on "-x" and on "+", where no integer is found,
`Grab_Int` returns position 1, not the position 0 it was given. -/
theorem Grab_Int_sign_alone_moves :
    (Grab_Int ex_minus_x 0).1 = 1 ∧ (Grab_Int [43] 0).1 = 1 ∧
    (Grab_Int [120] 0).1 = 0 := by
  decide

/-- C17, failing input: on "1'000" `Grab_Int` stops at the tick mark - it
returns position 1 and stores 1, not position 5 and 1000. -/
theorem Grab_Int_stops_at_tick :
    Grab_Int ex_ticked 0 = (1, 1) ∧ ex_ticked.length = 5 := by
  decide

/-- The first loop of `Grab_Int_Scale` over the digits `ds` followed by a
non-digit: it takes the first `min ds.length scale` digits. -/
theorem Grab_Int_Scale_digits_spec (ds : List Nat) (hds : ∀ d ∈ ds, d < 10) (c : Nat)
    (rest : List Nat) (hc : ¬ (48 ≤ c ∧ c ≤ 57)) (cp : Nat) (a : Int) (scale : Nat) :
    Grab_Int_Scale_digits ((ds.map fun d => d + 48) ++ c :: rest) cp (REBI64_wrap a) scale =
      (((ds.drop (min ds.length scale)).map fun d => d + 48) ++ c :: rest,
        cp + min ds.length scale,
        REBI64_wrap (a * 10 ^ (min ds.length scale) +
          (spec_decimal_value (ds.take (min ds.length scale)) : Int)),
        scale - min ds.length scale) := by
  induction ds generalizing cp a scale with
  | nil =>
    have hcond : ¬ (0 < scale ∧ 48 ≤ c ∧ c ≤ 57) := fun h => hc h.2
    simp [Grab_Int_Scale_digits, hcond, spec_decimal_value]
  | cons d ds ih =>
    have hd : d < 10 := hds d (List.mem_cons_self _ _)
    cases scale with
    | zero =>
      have hcond : ¬ (0 < 0 ∧ 48 ≤ d + 48 ∧ d + 48 ≤ 57) := by omega
      rw [List.map_cons, List.cons_append, Grab_Int_Scale_digits, if_neg hcond]
      simp [spec_decimal_value]
    | succ s =>
      have hcond : 0 < s + 1 ∧ 48 ≤ d + 48 ∧ d + 48 ≤ 57 := by omega
      have hmin : min (d :: ds).length (s + 1) = min ds.length s + 1 := by
        simp only [List.length_cons]
        omega
      rw [List.map_cons, List.cons_append, Grab_Int_Scale_digits, if_pos hcond,
        Nat.add_sub_cancel, REBI64_wrap_step, Nat.add_sub_cancel,
        ih (fun x hx => hds x (List.mem_cons_of_mem _ hx)), hmin]
      have htl : (ds.take (min ds.length s)).length = min ds.length s := by
        rw [List.length_take]
        omega
      simp only [List.drop_succ_cons, List.take_succ_cons, spec_decimal_value_cons, htl]
      refine Prod.ext rfl (Prod.ext (by simp only; omega) (Prod.ext ?_ (by simp only; omega)))
      simp only
      congr 1
      push_cast
      ring

theorem Grab_Int_Scale_skip_spec (ds : List Nat) (hds : ∀ d ∈ ds, d < 10) (c : Nat)
    (rest : List Nat) (hc : ¬ (48 ≤ c ∧ c ≤ 57)) (cp : Nat) :
    Grab_Int_Scale_skip ((ds.map fun d => d + 48) ++ c :: rest) cp = cp + ds.length := by
  induction ds generalizing cp with
  | nil => simp [Grab_Int_Scale_skip, hc]
  | cons d ds ih =>
    have hd : d < 10 := hds d (List.mem_cons_self _ _)
    have hdig : 48 ≤ d + 48 ∧ d + 48 ≤ 57 := by omega
    rw [List.map_cons, List.cons_append, Grab_Int_Scale_skip, if_pos hdig,
      ih (fun x hx => hds x (List.mem_cons_of_mem _ hx))]
    simp only [List.length_cons]
    omega

theorem Grab_Int_Scale_full_spec (scale : Nat) (v : Int) :
    REBINT_wrap (Grab_Int_Scale_full scale v) = REBINT_wrap (v * 10 ^ scale) := by
  induction scale generalizing v with
  | zero => simp [Grab_Int_Scale_full]
  | succ n ih =>
    rw [Grab_Int_Scale_full, ih]
    apply REBINT_wrap_congr
    have h := REBI64_wrap_dvd (v * 10)
    have h2 : REBI64_wrap (v * 10) * 10 ^ n - v * 10 ^ (n + 1) =
        (REBI64_wrap (v * 10) - v * 10) * 10 ^ n := by ring
    rw [h2]
    exact Dvd.dvd.mul_right h _

/-- Counterexample to C18 as stated: for the ten digits "3000000000" and
`scale = 10` the scaled digit string is 3000000000, but `Grab_Int_Scale`
stores -1294967296, the conversion of that number to the 32-bit `REBINT`. -/
theorem Grab_Int_Scale_truncates :
    ex_three_billion = ([3, 0, 0, 0, 0, 0, 0, 0, 0, 0].map fun d => d + 48) ∧
    spec_decimal_value [3, 0, 0, 0, 0, 0, 0, 0, 0, 0] * 10 ^ (10 - 10) = 3000000000 ∧
    Grab_Int_Scale ex_three_billion 0 10 = (10, -1294967296) := by
  refine ⟨by decide, ?_, ?_⟩
  · norm_num [spec_decimal_value, Nat.ofDigits]
  · simp only [Grab_Int_Scale, ex_three_billion, List.drop_zero, Grab_Int_Scale_digits]
    norm_num [Grab_Int_Scale_skip, Grab_Int_Scale_full, REBI64_wrap, REBINT_wrap]

/-- C18 (amended): for `k` decimal digits `d1 .. dk` followed by a byte that
is not a digit, `Grab_Int_Scale` returns the position just after all `k`
digits and stores, converted to the 32-bit `REBINT`, the number
`value(d1..dk) * 10^(scale - k)` if `k ≤ scale`, and `value(d1..d_scale)` plus
1 when digit `d_(scale+1)` is at least 5 if `k > scale`; whenever that number
fits in 32 bits it is stored unchanged. -/
theorem Grab_Int_Scale_scaled (ds rest : List Nat) (c scale : Nat)
    (hds : ∀ d ∈ ds, d < 10) (hc : ¬ (48 ≤ c ∧ c ≤ 57)) :
    Grab_Int_Scale ((ds.map fun d => d + 48) ++ c :: rest) 0 scale =
      (ds.length,
        REBINT_wrap (if ds.length ≤ scale then
            (spec_decimal_value ds : Int) * 10 ^ (scale - ds.length)
          else (spec_decimal_value (ds.take scale) : Int) +
            (if 5 ≤ ds.getD scale 0 then 1 else 0))) ∧
    ((if ds.length ≤ scale then
            (spec_decimal_value ds : Int) * 10 ^ (scale - ds.length)
          else (spec_decimal_value (ds.take scale) : Int) +
            (if 5 ≤ ds.getD scale 0 then 1 else 0)) < 2 ^ 31 →
      (Grab_Int_Scale ((ds.map fun d => d + 48) ++ c :: rest) 0 scale).2 =
        (if ds.length ≤ scale then
            (spec_decimal_value ds : Int) * 10 ^ (scale - ds.length)
          else (spec_decimal_value (ds.take scale) : Int) +
            (if 5 ≤ ds.getD scale 0 then 1 else 0))) := by
  have hmain : Grab_Int_Scale ((ds.map fun d => d + 48) ++ c :: rest) 0 scale =
      (ds.length,
        REBINT_wrap (if ds.length ≤ scale then
            (spec_decimal_value ds : Int) * 10 ^ (scale - ds.length)
          else (spec_decimal_value (ds.take scale) : Int) +
            (if 5 ≤ ds.getD scale 0 then 1 else 0))) := by
    have hloop := Grab_Int_Scale_digits_spec ds hds c rest hc 0 0 scale
    rw [show REBI64_wrap 0 = 0 by decide] at hloop
    simp only [zero_mul, zero_add] at hloop
    simp only [Grab_Int_Scale, List.drop_zero, hloop]
    by_cases hle : ds.length ≤ scale
    · have hmin : min ds.length scale = ds.length := by omega
      have hc2 : ¬ (53 ≤ c ∧ c ≤ 57) := fun h => hc ⟨by omega, h.2⟩
      simp only [hmin, List.drop_length, List.map_nil, List.nil_append, List.headD_cons, hc2,
        if_false, List.take_length, Grab_Int_Scale_skip, hc, if_pos hle]
      refine Prod.ext rfl ?_
      simp only
      rw [Grab_Int_Scale_full_spec]
      apply REBINT_wrap_congr
      have h := REBI64_wrap_dvd (spec_decimal_value ds : Int)
      have h2 : REBI64_wrap (spec_decimal_value ds : Int) * 10 ^ (scale - ds.length) -
          (spec_decimal_value ds : Int) * 10 ^ (scale - ds.length) =
          (REBI64_wrap (spec_decimal_value ds : Int) - (spec_decimal_value ds : Int)) *
            10 ^ (scale - ds.length) := by ring
      rw [h2]
      exact Dvd.dvd.mul_right h _
    · have hlt : scale < ds.length := by omega
      have hmin : min ds.length scale = scale := by omega
      obtain ⟨d, tl, hdrop⟩ : ∃ d tl, ds.drop scale = d :: tl := by
        cases hd : ds.drop scale with
        | nil =>
          have hl := congrArg List.length hd
          rw [List.length_drop, List.length_nil] at hl
          omega
        | cons d tl => exact ⟨d, tl, rfl⟩
      have hget : ds.getD scale 0 = d := by
        have h := List.getElem?_drop ds scale 0
        rw [hdrop, List.getElem?_cons_zero, Nat.add_zero] at h
        rw [List.getD_eq_getElem?_getD, ← h]
        rfl
      have hdlt : d < 10 :=
        hds d (List.mem_of_mem_drop (by rw [hdrop]; exact List.mem_cons_self _ _))
      have hskip := Grab_Int_Scale_skip_spec (ds.drop scale)
        (fun x hx => hds x (List.mem_of_mem_drop hx)) c rest hc scale
      have hdl : (ds.drop scale).length = ds.length - scale := List.length_drop _ _
      rw [hdl] at hskip
      rw [hmin, hskip, Nat.sub_self, if_neg hle, hget]
      simp only [Grab_Int_Scale_full]
      rw [hdrop]
      simp only [List.map_cons, List.cons_append, List.headD_cons]
      refine Prod.ext (by simp only; omega) ?_
      simp only
      by_cases h5 : 5 ≤ d
      · have h53 : 53 ≤ d + 48 ∧ d + 48 ≤ 57 := by omega
        rw [if_pos h53, if_pos h5, REBINT_wrap_REBI64_wrap]
        apply REBINT_wrap_congr
        have h := REBI64_wrap_dvd (spec_decimal_value (ds.take scale) : Int)
        have h2 : REBI64_wrap (spec_decimal_value (ds.take scale) : Int) + 1 -
            ((spec_decimal_value (ds.take scale) : Int) + 1) =
            REBI64_wrap (spec_decimal_value (ds.take scale) : Int) -
              (spec_decimal_value (ds.take scale) : Int) := by ring
        rw [h2]
        exact h
      · have h53 : ¬ (53 ≤ d + 48 ∧ d + 48 ≤ 57) := by omega
        rw [if_neg h53, if_neg h5, REBINT_wrap_REBI64_wrap, add_zero]
  refine ⟨hmain, ?_⟩
  intro hfit
  rw [hmain]
  simp only
  apply REBINT_wrap_of_range _ _ hfit
  have h0 : (0 : Int) ≤ (if ds.length ≤ scale then
            (spec_decimal_value ds : Int) * 10 ^ (scale - ds.length)
          else (spec_decimal_value (ds.take scale) : Int) +
            (if 5 ≤ ds.getD scale 0 then 1 else 0)) := by
    split
    · positivity
    · split <;> positivity
  omega

/-- Witness of C18: "12345" followed by a NUL, scaled to 3 digits, is 123 (the
fourth digit 4 does not round up), scaled to 4 digits is 1235 (the fifth digit
5 rounds up), and scaled to 9 digits is 123450000; the position is 5 each
time. -/
theorem Grab_Int_Scale_scaled_witness :
    Grab_Int_Scale [49, 50, 51, 52, 53, 0] 0 3 = (5, 123) ∧
    Grab_Int_Scale [49, 50, 51, 52, 53, 0] 0 4 = (5, 1235) ∧
    Grab_Int_Scale [49, 50, 51, 52, 53, 0] 0 9 = (5, 123450000) := by
  have h3 := (Grab_Int_Scale_scaled [1, 2, 3, 4, 5] [] 0 3 (by decide) (by decide)).1
  have h4 := (Grab_Int_Scale_scaled [1, 2, 3, 4, 5] [] 0 4 (by decide) (by decide)).1
  have h9 := (Grab_Int_Scale_scaled [1, 2, 3, 4, 5] [] 0 9 (by decide) (by decide)).1
  refine ⟨h3.trans ?_, h4.trans ?_, h9.trans ?_⟩ <;>
    norm_num [spec_decimal_value, Nat.ofDigits, REBINT_wrap]

/-! ## Lemmas on the bytes `Form_Int_Len` leaves alone -/

theorem memcpy_get_outside (bytes buf : List Nat) (i j : Nat)
    (h : j < i ∨ i + bytes.length ≤ j) : (memcpy buf i bytes)[j]? = buf[j]? := by
  induction bytes generalizing buf i with
  | nil => rfl
  | cons b bytes ih =>
    simp only [memcpy, List.length_cons] at h ⊢
    rw [ih _ _ (by omega), List.getElem?_set_ne (by omega)]

theorem Form_Int_Len_copy_outside (k : Nat) (tmp : List Nat) (tp : Nat) (buf : List Nat)
    (bp : Nat) (len : Int) (i : Nat) (h : i < bp ∨ bp + k ≤ i) :
    (Form_Int_Len_copy k tmp tp buf bp len).1[i]? = buf[i]? := by
  induction k generalizing tp buf bp len with
  | zero => rfl
  | succ k ih =>
    simp only [Form_Int_Len_copy]
    split
    · rw [ih _ _ _ _ (by omega), List.getElem?_set_ne (by omega)]
    · rw [List.getElem?_set_ne (by omega)]

/-- The digit loop of `Form_Int_Len` takes from `maxl` what it adds to `tp`,
and leaves `maxl` non-negative. -/
theorem Form_Int_Len_digits_count (room : Nat) (tmp : List Nat) (tp : Nat) (val maxl : Int)
    (h0 : 0 ≤ maxl) (h1 : maxl < 2 ^ 31) :
    0 ≤ (Form_Int_Len_digits room tmp tp val maxl).2.2.2 ∧
    ((Form_Int_Len_digits room tmp tp val maxl).2.1 : Int) +
      (Form_Int_Len_digits room tmp tp val maxl).2.2.2 = (tp : Int) + maxl := by
  induction room generalizing tmp tp val maxl with
  | zero => exact ⟨h0, rfl⟩
  | succ room ih =>
    simp only [Form_Int_Len_digits]
    split
    · have hw : REBINT_wrap (maxl - 1) = maxl - 1 :=
        REBINT_wrap_of_range _ (by omega) (by omega)
      rw [hw]
      obtain ⟨a, b⟩ := ih (tmp.set tp ((48 + (val.tmod 10 % 256).toNat) % 256)) (tp + 1)
        (val.tdiv 10) (maxl - 1) (by omega) (by omega)
      refine ⟨a, ?_⟩
      rw [b]
      push_cast
      ring
    · exact ⟨h0, rfl⟩

/-- From `maxl = 2` on, `Form_Int_Len` leaves every byte of `buf` at an index
of `maxl` or more as it was, for every `val`. -/
theorem Form_Int_Len_keeps_from_maxl (MAX_NUM_LEN : Nat) (buf : List Nat) (val maxl : Int)
    (h2 : 2 ≤ maxl) (hmaxl : maxl < 2 ^ 31) (i : Nat) (hi : maxl ≤ (i : Int)) :
    (Form_Int_Len MAX_NUM_LEN buf val maxl).1[i]? = buf[i]? := by
  have hmaxl0 : ¬ maxl = 0 := by omega
  have hb : ((buf.set 0 63).set 1 0)[i]? = buf[i]? := by
    rw [List.getElem?_set_ne (by omega), List.getElem?_set_ne (by omega)]
  by_cases h0 : val = 0
  · simp only [Form_Int_Len, hmaxl0, h0, if_false, if_true]
    rw [List.getElem?_set_ne (by omega), List.getElem?_set_ne (by omega), hb]
  · by_cases hmin : val = MIN_I64
    · subst hmin
      have hl : MIN_I64_STR.length = 20 := rfl
      have hl21 : (MIN_I64_STR ++ [0]).length = 21 := rfl
      have h0m : ¬ MIN_I64 = 0 := by decide
      simp only [Form_Int_Len, hmaxl0, h0m, if_false, if_true, hl]
      split
      · exact hb
      · rename_i hlt
        have hi21 : 0 + (MIN_I64_STR ++ [0]).length ≤ i := by
          rw [hl21]
          omega
        have hout := memcpy_get_outside (MIN_I64_STR ++ [0]) ((buf.set 0 63).set 1 0) 0 i
          (Or.inr hi21)
        simp only []
        rw [hout, hb]
    · by_cases hneg : val < 0
      · have hm : REBINT_wrap (maxl - 1) = maxl - 1 :=
          REBINT_wrap_of_range _ (by omega) (by omega)
        obtain ⟨c1, c2⟩ := Form_Int_Len_digits_count (MAX_NUM_LEN - 1)
          ((List.replicate MAX_NUM_LEN 0).set 0 0) 1 (REBI64_wrap (-val)) (maxl - 1)
          (by omega) (by omega)
        simp only [Form_Int_Len, hmaxl0, h0, hmin, if_false, hneg, decide_True, if_true, hm]
        split
        · rw [List.getElem?_set_ne (by omega), hb]
        · rw [Form_Int_Len_copy_outside _ _ _ _ _ _ _ (Or.inr (by omega)),
            List.getElem?_set_ne (by omega), hb]
      · obtain ⟨c1, c2⟩ := Form_Int_Len_digits_count (MAX_NUM_LEN - 1)
          ((List.replicate MAX_NUM_LEN 0).set 0 0) 1 val maxl (by omega) (by omega)
        simp only [Form_Int_Len, hmaxl0, h0, hmin, if_false, hneg, decide_False,
          Bool.false_eq_true]
        split
        · exact hb
        · rw [Form_Int_Len_copy_outside _ _ _ _ _ _ _ (Or.inr (by omega)), hb]

/-! ## Claims on the bound `maxl` -/

/-- C21, the failing input: for `val = 5` and `maxl = 0` `Form_Int_Len` stores
the default bytes '?' and NUL in `buf[0]` and `buf[1]`, two bytes where none
is allowed, and returns 0; for `maxl = 1` it stores the same two bytes, and
for `val = -5` and `maxl = 1` it stores '-' and NUL. -/
theorem Form_Int_Len_writes_past_maxl :
    ex_buf.take 2 = [255, 255] ∧
    Form_Int_Len 64 ex_buf 5 0 = ([63, 0] ++ ex_buf.drop 2, 0) ∧
    Form_Int_Len 64 ex_buf 5 1 = ([63, 0] ++ ex_buf.drop 2, 0) ∧
    Form_Int_Len 64 ex_buf (-5) 1 = ([45, 0] ++ ex_buf.drop 2, 0) := by
  decide

/-! ## Lemmas on padded forming -/

/-- The result of `Form_Int_Len` as one equation, for a `val` whose
representation and terminator fit both `maxl` and the buffer. -/
theorem Form_Int_Len_result (MAX_NUM_LEN : Nat) (buf : List Nat) (val maxl : Int)
    (hM : 20 ≤ MAX_NUM_LEN)
    (hval1 : -2 ^ 63 ≤ val) (hval2 : val < 2 ^ 63) (hmaxl : maxl < 2 ^ 31)
    (hfit : ((spec_decimal_repr val).length : Int) + 1 ≤ maxl)
    (hroom : (spec_decimal_repr val).length + 1 ≤ buf.length) :
    (Form_Int_Len MAX_NUM_LEN buf val maxl).2 = ((spec_decimal_repr val).length : Int) ∧
    (Form_Int_Len MAX_NUM_LEN buf val maxl).1 =
      spec_decimal_repr val ++ [0] ++ buf.drop ((spec_decimal_repr val).length + 1) := by
  have hmaxl0 : ¬ maxl = 0 := by omega
  by_cases h0 : val = 0
  · subst h0
    simp only [spec_decimal_repr] at hroom ⊢
    simp only [Form_Int_Len, hmaxl0, if_false, if_true]
    obtain ⟨a, b, rest, rfl⟩ : ∃ a b rest, buf = a :: b :: rest := by
      match buf, hroom with
      | a :: b :: rest, _ => exact ⟨a, b, rest, rfl⟩
    simp
  · by_cases hmin : val = MIN_I64
    · subst hmin
      have hrepr : spec_decimal_repr MIN_I64 = MIN_I64_STR := by
        simp only [spec_decimal_repr, MIN_I64, MIN_I64_STR]
        norm_num
      rw [hrepr] at hfit hroom ⊢
      have hl : MIN_I64_STR.length = 20 := rfl
      have hl21 : (MIN_I64_STR ++ [0]).length = 21 := rfl
      have hb0 : ((buf.set 0 63).set 1 0).length = buf.length := by simp
      rw [hl] at hfit hroom ⊢
      have hlt : ¬ maxl < ((20 : Nat) : Int) + 1 := by omega
      have hform : Form_Int_Len MAX_NUM_LEN buf MIN_I64 maxl =
          (memcpy ((buf.set 0 63).set 1 0) 0 (MIN_I64_STR ++ [0]), ((20 : Nat) : Int)) := by
        simp only [Form_Int_Len, hmaxl0, h0, if_false, if_true, hl, hlt]
      rw [hform]
      refine ⟨rfl, ?_⟩
      apply List.ext_getElem?
      intro j
      rw [memcpy_get _ _ _ _ (by rw [hl21, hb0]; omega), hl21]
      by_cases hj : j < 21
      · rw [if_pos (by omega), Nat.sub_zero]
        exact (List.getElem?_append_left (by rw [hl21]; exact hj)).symm
      · rw [if_neg (by omega), List.getElem?_append_right (by rw [hl21]; omega),
          List.getElem?_drop, List.getElem?_set_ne (by omega), List.getElem?_set_ne (by omega),
          hl21]
        congr 1
        omega
    · have hminlt : -2 ^ 63 < val := by
        unfold MIN_I64 at hmin
        omega
      have hn : val.natAbs ≠ 0 := by omega
      have hnlt : val.natAbs < 2 ^ 63 := by omega
      have hD := digits_length_le_19 val.natAbs hnlt
      have hD1 : 1 ≤ (Nat.digits 10 val.natAbs).length := by
        have hnil : Nat.digits 10 val.natAbs ≠ [] := Nat.digits_ne_nil_iff_ne_zero.mpr hn
        cases hd : Nat.digits 10 val.natAbs with
        | nil => exact absurd hd hnil
        | cons d ds => simp
      by_cases hneg : val < 0
      · have hrepr : spec_decimal_repr val =
            [45] ++ ((Nat.digits 10 val.natAbs).reverse.map fun d => d + 48) := by
          simp [spec_decimal_repr, hneg, h0]
        have hL : (spec_decimal_repr val).length = 1 + (Nat.digits 10 val.natAbs).length := by
          rw [hrepr]
          simp
          omega
        rw [hL] at hfit hroom ⊢
        rw [hrepr]
        have hv : REBI64_wrap (-val) = ((val.natAbs : Nat) : Int) := by
          rw [REBI64_wrap_of_range _ (by omega) (by omega)]
          omega
        have hm : REBINT_wrap (maxl - 1) = maxl - 1 :=
          REBINT_wrap_of_range _ (by omega) (by omega)
        obtain ⟨l1, l2, l3, l4, l5, l6⟩ := Form_Int_Len_loops MAX_NUM_LEN
          (((buf.set 0 63).set 1 0).set 0 45) 1 1 val.natAbs (maxl - 1) hM hD
          (by push_cast at hfit ⊢; omega) (by omega) (by simp; omega) (by decide) (by decide)
        simp only [Form_Int_Len, hmaxl0, h0, hmin, if_false, hneg, decide_True, if_true, hv, hm,
          l1]
        refine ⟨by rw [l2]; push_cast; ring, ?_⟩
        have hasm := Form_Int_Len_assemble [45] (Nat.digits 10 val.natAbs) buf _
          (by
            intro i hi
            have hi0 : i = 0 := by simpa using hi
            subst hi0
            rw [l3 0 (by decide), List.getElem?_set_self (by simp; omega)]
            rfl)
          (by
            intro j hj
            exact l4 j hj)
          l5
          (by
            intro i hi
            simp only [List.length_singleton] at hi
            rw [l6 i hi, List.getElem?_set_ne (by omega), List.getElem?_set_ne (by omega),
              List.getElem?_set_ne (by omega)])
        simpa using hasm
      · have hrepr : spec_decimal_repr val =
            [] ++ ((Nat.digits 10 val.natAbs).reverse.map fun d => d + 48) := by
          simp [spec_decimal_repr, hneg, h0]
        have hL : (spec_decimal_repr val).length = (Nat.digits 10 val.natAbs).length := by
          rw [hrepr]
          simp
        rw [hL] at hfit hroom ⊢
        rw [hrepr]
        have hv : val = ((val.natAbs : Nat) : Int) := by omega
        obtain ⟨l1, l2, l3, l4, l5, l6⟩ := Form_Int_Len_loops MAX_NUM_LEN
          ((buf.set 0 63).set 1 0) 0 0 val.natAbs maxl hM hD
          (by omega) (by omega) (by simp; omega) (by decide) (by decide)
        rw [← hv] at l1 l2 l3 l4 l5 l6
        simp only [Form_Int_Len, hmaxl0, h0, hmin, if_false, hneg, decide_False,
          Bool.false_eq_true, l1]
        refine ⟨by rw [l2]; ring, ?_⟩
        have hasm := Form_Int_Len_assemble [] (Nat.digits 10 val.natAbs) buf _
          (by
            intro i hi
            simp at hi)
          (by
            intro j hj
            exact l4 j hj)
          l5
          (by
            intro i hi
            simp only [List.length_nil, Nat.zero_add] at hi
            rw [l6 i (by omega), List.getElem?_set_ne (by omega),
              List.getElem?_set_ne (by omega)])
        simpa using hasm

theorem spec_decimal_repr_ne_zero (val : Int) : ∀ b ∈ spec_decimal_repr val, b ≠ 0 := by
  intro b hb
  unfold spec_decimal_repr at hb
  rw [List.mem_append] at hb
  rcases hb with hb | hb
  · split at hb
    · simp at hb
      omega
    · simp at hb
  · split at hb
    · simp at hb
      omega
    · simp at hb
      obtain ⟨a, _, ha⟩ := hb
      omega

theorem spec_decimal_repr_length (val : Int) (hval1 : -2 ^ 63 ≤ val) (hval2 : val < 2 ^ 63) :
    1 ≤ (spec_decimal_repr val).length ∧ (spec_decimal_repr val).length ≤ 20 := by
  unfold spec_decimal_repr
  by_cases h0 : val = 0
  · subst h0
    simp
  · have hnil : Nat.digits 10 val.natAbs ≠ [] :=
      Nat.digits_ne_nil_iff_ne_zero.mpr (by omega)
    have hpos : 1 ≤ (Nat.digits 10 val.natAbs).length := by
      cases hd : Nat.digits 10 val.natAbs with
      | nil => exact absurd hd hnil
      | cons d ds => simp
    by_cases hmin : val = -2 ^ 63
    · subst hmin
      norm_num
    · have hD := digits_length_le_19 val.natAbs (by omega)
      by_cases hneg : val < 0
      · simp only [hneg, h0, if_true, if_false, List.length_append, List.length_map,
          List.length_reverse, List.length_singleton]
        omega
      · simp only [hneg, h0, if_false, List.length_append, List.length_map,
          List.length_reverse, List.length_nil]
        omega

theorem strcpy_eq_memcpy (s rest buf : List Nat) (i : Nat) (hs : ∀ b ∈ s, b ≠ 0) :
    strcpy buf i (s ++ 0 :: rest) = memcpy buf i (s ++ [0]) := by
  induction s generalizing buf i with
  | nil => simp [strcpy, memcpy]
  | cons c s ih =>
    have hc : c ≠ 0 := hs c (by simp)
    simp only [List.cons_append, strcpy, if_neg hc, memcpy]
    exact ih _ _ (fun b hb => hs b (by simp [hb]))

theorem Form_Int_Pad_fill_eq (k : Nat) (buf : List Nat) (bp pad : Nat) :
    Form_Int_Pad_fill k buf bp pad = (memcpy buf bp (List.replicate k pad), bp + k) := by
  induction k generalizing buf bp with
  | zero => rfl
  | succ k ih =>
    rw [Form_Int_Pad_fill, ih, List.replicate_succ, memcpy]
    congr 1
    omega

/-- A buffer that holds `a`, then `b`, then a NUL, and is otherwise the old
buffer. -/
theorem Form_Int_Pad_assemble (a b buf out : List Nat)
    (ha : ∀ i, i < a.length → out[i]? = a[i]?)
    (hb : ∀ j, j < b.length → out[a.length + j]? = b[j]?)
    (hnul : out[a.length + b.length]? = some 0)
    (hrest : ∀ i, a.length + b.length < i → out[i]? = buf[i]?) :
    out = a ++ b ++ [0] ++ buf.drop ((a ++ b).length + 1) := by
  apply List.ext_getElem?
  intro i
  rw [List.length_append]
  by_cases h1 : i < a.length
  · rw [ha i h1, List.append_assoc, List.append_assoc, List.getElem?_append_left h1]
  · by_cases h2 : i < a.length + b.length
    · have hj := hb (i - a.length) (by omega)
      rw [show a.length + (i - a.length) = i by omega] at hj
      rw [hj, List.append_assoc, List.append_assoc, List.getElem?_append_right (by omega),
        List.getElem?_append_left (by omega)]
    · by_cases h3 : i = a.length + b.length
      · subst h3
        rw [hnul, List.getElem?_append_left (by simp),
          List.getElem?_append_right (by simp)]
        simp
      · rw [hrest i (by omega), List.getElem?_append_right (by simp; omega),
          List.getElem?_drop]
        congr 1
        simp
        omega

theorem spec_padded_length (val len : Int) (pad : Nat) :
    (spec_padded val len pad).length = Nat.max (spec_decimal_repr val).length len.natAbs := by
  unfold spec_padded
  split
  · rw [List.length_append, List.length_replicate]
    simp only [Nat.max_def]
    split <;> omega
  · rw [List.length_append, List.length_replicate]
    simp only [Nat.max_def]
    split <;> omega

/-! ## Claims on padded forming -/

/-- C22: for every 64-bit `val` whose decimal representation `s` has length
`n ≤ max`, `Form_Int_Pad(buf, val, max, len, pad)` on a buffer with room
leaves in `buf` a string of length `max(n, |len|)` with a NUL after it and the
old bytes behind: `s` followed by `len - n` copies of `pad` when `len ≥ 0`,
`|len| - n` copies of `pad` followed by `s` when `len < 0`, and `s` alone when
`|len| ≤ n`; the returned position is that of the NUL. -/
theorem Form_Int_Pad_pads (MAX_NUM_LEN : Nat) (buf : List Nat) (val max len : Int) (pad : Nat)
    (hM : 21 ≤ MAX_NUM_LEN)
    (hval1 : -2 ^ 63 ≤ val) (hval2 : val < 2 ^ 63)
    (hn : ((spec_decimal_repr val).length : Int) ≤ max) (hmax : max + 1 < 2 ^ 31)
    (hlen1 : -2 ^ 31 < len) (hlen2 : len < 2 ^ 31)
    (hroom : Nat.max (spec_decimal_repr val).length len.natAbs + 1 ≤ buf.length) :
    (spec_padded val len pad).length = Nat.max (spec_decimal_repr val).length len.natAbs ∧
    (Form_Int_Pad MAX_NUM_LEN buf val max len pad).1 =
      spec_padded val len pad ++ [0] ++ buf.drop ((spec_padded val len pad).length + 1) ∧
    (Form_Int_Pad MAX_NUM_LEN buf val max len pad).2 = (spec_padded val len pad).length ∧
    (Form_Int_Pad MAX_NUM_LEN buf val max len pad).1[
      (Form_Int_Pad MAX_NUM_LEN buf val max len pad).2]? = some 0 := by
  obtain ⟨hn1, hn20⟩ := spec_decimal_repr_length val hval1 hval2
  have hplen := spec_padded_length val len pad
  have hwrap : REBINT_wrap (max + 1) = max + 1 :=
    REBINT_wrap_of_range _ (by omega) hmax
  obtain ⟨r2, r1⟩ := Form_Int_Len_result MAX_NUM_LEN (List.replicate MAX_NUM_LEN 0) val
    (max + 1) (by omega) hval1 hval2 hmax (by omega)
    (by rw [List.length_replicate]; omega)
  have hne : ¬ ((spec_decimal_repr val).length : Int) = 0 := by omega
  have hmax_le : (spec_decimal_repr val).length ≤
      Nat.max (spec_decimal_repr val).length len.natAbs := Nat.le_max_left _ _
  have hmax_le2 : len.natAbs ≤
      Nat.max (spec_decimal_repr val).length len.natAbs := Nat.le_max_right _ _
  have hsl : (spec_decimal_repr val ++ [0]).length = (spec_decimal_repr val).length + 1 := by
    simp
  have key : (Form_Int_Pad MAX_NUM_LEN buf val max len pad).1 =
      spec_padded val len pad ++ [0] ++ buf.drop ((spec_padded val len pad).length + 1) ∧
      (Form_Int_Pad MAX_NUM_LEN buf val max len pad).2 = (spec_padded val len pad).length := by
    by_cases hlen : len ≥ 0
    · have hk : (len - ((spec_decimal_repr val).length : Int)).toNat =
          len.natAbs - (spec_decimal_repr val).length := by omega
      have hpad : spec_padded val len pad = spec_decimal_repr val ++
          List.replicate (len.natAbs - (spec_decimal_repr val).length) pad := by
        unfold spec_padded
        rw [if_pos hlen]
      have hroom1 : (spec_decimal_repr val).length +
          (len.natAbs - (spec_decimal_repr val).length) < buf.length := by omega
      simp only [Form_Int_Pad, hwrap, r2, hne, if_false, hlen, if_true, r1, Int.toNat_ofNat,
        Form_Int_Pad_fill_eq, hk, List.append_assoc, List.singleton_append,
        strcpy_eq_memcpy _ _ _ _ (spec_decimal_repr_ne_zero val)]
      rw [hpad]
      refine ⟨?_, by simp⟩
      have hasm := Form_Int_Pad_assemble (spec_decimal_repr val)
        (List.replicate (len.natAbs - (spec_decimal_repr val).length) pad) buf
        ((memcpy (memcpy buf 0 (spec_decimal_repr val ++ [0])) (spec_decimal_repr val).length
          (List.replicate (len.natAbs - (spec_decimal_repr val).length) pad)).set
          ((spec_decimal_repr val).length + (len.natAbs - (spec_decimal_repr val).length)) 0)
        (by
          intro i hi
          rw [List.getElem?_set_ne (by omega),
            memcpy_get _ _ _ _ (by rw [memcpy_length, List.length_replicate]; omega),
            if_neg (by omega), memcpy_get _ _ _ _ (by rw [hsl]; omega),
            if_pos (by rw [hsl]; omega), Nat.sub_zero, List.getElem?_append_left hi])
        (by
          intro j hj
          rw [List.length_replicate] at hj
          rw [List.getElem?_set_ne (by omega),
            memcpy_get _ _ _ _ (by rw [memcpy_length, List.length_replicate]; omega),
            if_pos (by rw [List.length_replicate]; omega), Nat.add_sub_cancel_left])
        (by
          rw [List.length_replicate, List.getElem?_set_self
            (by rw [memcpy_length, memcpy_length]; omega)])
        (by
          intro i hi
          rw [List.length_replicate] at hi
          rw [List.getElem?_set_ne (by omega),
            memcpy_get _ _ _ _ (by rw [memcpy_length, List.length_replicate]; omega),
            if_neg (by rw [List.length_replicate]; omega),
            memcpy_get _ _ _ _ (by rw [hsl]; omega), if_neg (by rw [hsl]; omega)])
      simpa using hasm
    · have hw : REBINT_wrap (-len) = -len := REBINT_wrap_of_range _ (by omega) (by omega)
      have hk : (-len - ((spec_decimal_repr val).length : Int)).toNat =
          len.natAbs - (spec_decimal_repr val).length := by omega
      have hpad : spec_padded val len pad =
          List.replicate (len.natAbs - (spec_decimal_repr val).length) pad ++
            spec_decimal_repr val := by
        unfold spec_padded
        rw [if_neg (by omega)]
      have hroom1 : (len.natAbs - (spec_decimal_repr val).length) +
          (spec_decimal_repr val).length < buf.length := by omega
      simp only [Form_Int_Pad, hwrap, r2, hne, if_false, hlen, r1, Int.toNat_ofNat,
        Form_Int_Pad_fill_eq, hw, hk, List.append_assoc, List.singleton_append, Nat.zero_add,
        strcpy_eq_memcpy _ _ _ _ (spec_decimal_repr_ne_zero val)]
      rw [hpad]
      refine ⟨?_, by simp⟩
      have hasm := Form_Int_Pad_assemble
        (List.replicate (len.natAbs - (spec_decimal_repr val).length) pad)
        (spec_decimal_repr val) buf
        ((memcpy (memcpy buf 0 (List.replicate (len.natAbs - (spec_decimal_repr val).length) pad))
          (len.natAbs - (spec_decimal_repr val).length) (spec_decimal_repr val ++ [0])).set
          ((len.natAbs - (spec_decimal_repr val).length) + (spec_decimal_repr val).length) 0)
        (by
          intro i hi
          rw [List.length_replicate] at hi
          rw [List.getElem?_set_ne (by omega),
            memcpy_get _ _ _ _ (by rw [memcpy_length, hsl]; omega),
            if_neg (by omega), memcpy_get _ _ _ _ (by rw [List.length_replicate]; omega),
            if_pos (by rw [List.length_replicate]; omega), Nat.sub_zero])
        (by
          intro j hj
          rw [List.length_replicate]
          rw [List.getElem?_set_ne (by omega),
            memcpy_get _ _ _ _ (by rw [memcpy_length, hsl]; omega),
            if_pos (by rw [hsl]; omega), Nat.add_sub_cancel_left,
            List.getElem?_append_left hj])
        (by
          rw [List.length_replicate, List.getElem?_set_self
            (by rw [memcpy_length, memcpy_length]; omega)])
        (by
          intro i hi
          rw [List.length_replicate] at hi
          rw [List.getElem?_set_ne (by omega),
            memcpy_get _ _ _ _ (by rw [memcpy_length, hsl]; omega),
            if_neg (by rw [hsl]; omega),
            memcpy_get _ _ _ _ (by rw [List.length_replicate]; omega),
            if_neg (by rw [List.length_replicate]; omega)])
      simpa using hasm
  refine ⟨hplen, key.1, key.2, ?_⟩
  rw [key.2, key.1, List.append_assoc, List.getElem?_append_right (le_refl _), Nat.sub_self]
  simp

/-- Witness of C22: 123 with width 6 is formed left aligned as "123" and three
blanks, with width -6 right aligned as three blanks and "123"; -123 with width
2 is formed without padding. -/
theorem Form_Int_Pad_pads_witness :
    Form_Int_Pad 64 ex_buf 123 10 6 32 = ([49, 50, 51, 32, 32, 32] ++ [0] ++ ex_buf.drop 7, 6) ∧
    Form_Int_Pad 64 ex_buf 123 10 (-6) 32 =
      ([32, 32, 32, 49, 50, 51] ++ [0] ++ ex_buf.drop 7, 6) ∧
    Form_Int_Pad 64 ex_buf (-123) 10 2 32 = ([45, 49, 50, 51] ++ [0] ++ ex_buf.drop 5, 4) := by
  have hr1 : spec_decimal_repr 123 = [49, 50, 51] := by norm_num [spec_decimal_repr]
  have hr2 : spec_decimal_repr (-123) = [45, 49, 50, 51] := by norm_num [spec_decimal_repr]
  have hp1 : spec_padded 123 6 32 = [49, 50, 51, 32, 32, 32] := by
    simp [spec_padded, hr1, List.replicate]
  have hp2 : spec_padded 123 (-6) 32 = [32, 32, 32, 49, 50, 51] := by
    simp [spec_padded, hr1, List.replicate]
  have hp3 : spec_padded (-123) 2 32 = [45, 49, 50, 51] := by
    simp [spec_padded, hr2]
  have h1 := Form_Int_Pad_pads 64 ex_buf 123 10 6 32 (by decide) (by decide) (by decide)
    (by rw [hr1]; decide) (by decide) (by decide) (by decide) (by rw [hr1]; decide)
  have h2 := Form_Int_Pad_pads 64 ex_buf 123 10 (-6) 32 (by decide) (by decide) (by decide)
    (by rw [hr1]; decide) (by decide) (by decide) (by decide) (by rw [hr1]; decide)
  have h3 := Form_Int_Pad_pads 64 ex_buf (-123) 10 2 32 (by decide) (by decide) (by decide)
    (by rw [hr2]; decide) (by decide) (by decide) (by decide) (by rw [hr2]; decide)
  rw [hp1] at h1
  rw [hp2] at h2
  rw [hp3] at h3
  exact ⟨Prod.ext h1.2.1 h1.2.2.1, Prod.ext h2.2.1 h2.2.2.1, Prod.ext h3.2.1 h3.2.2.1⟩

/-! ## Lemmas on the chunkers -/

/-- The chunker, the live blocks and the freed blocks a returning
`Startup_Stacks` leaves. -/
theorem Startup_returned_chunkers (cfg : Config) (cc : ChunkConfig) (g g' : Globals)
    (size : Nat) (h : Startup_Stacks cfg cc g size = Outcome.returned g') :
    (∃ c ch, g'.chunkers = g.chunkers ++ [c] ∧ c.next = none ∧
      c.size = cc.CS_CHUNKER_PAYLOAD ∧ c.payload = [(0, ch)] ∧ ch.prev = none ∧
      ch.offset = 0 ∧ ch.size = cc.BASE_CHUNK_SIZE ∧ ch.values = [Cell.END]) ∧
    g'.allocated =
      g.allocated ++ [(g.chunkers.length, cc.BASE_CHUNKER_SIZE + cc.CS_CHUNKER_PAYLOAD)] ∧
    g'.freed = g.freed := by
  unfold Startup_Stacks at h
  simp only [List.getElem?_cons_zero, IS_END, Bool.not_true, Bool.and_false,
    Bool.false_eq_true, if_false] at h
  split at h
  · cases h
  · cases h
    exact ⟨⟨_, _, rfl, rfl, rfl, rfl, rfl, rfl, rfl, rfl⟩, rfl, rfl⟩

theorem erase_append_singleton_perm (l : List (Nat × Nat)) (a : Nat × Nat) :
    ((l ++ [a]).erase a).Perm l := by
  induction l with
  | nil => simp
  | cons b l ih =>
    by_cases hb : b = a
    · subst hb
      simp only [List.cons_append, List.erase_cons_head]
      exact List.perm_append_singleton b l
    · rw [List.cons_append, List.erase_cons_tail (by simpa using hb)]
      exact ih.cons b

theorem perm_erase_block (l1 l2 : List (Nat × Nat)) (a : Nat × Nat) (h : l1.Perm l2) :
    (l1.erase a).Perm (l2.erase a) := by
  induction h with
  | nil => exact List.Perm.nil
  | cons x hp ih =>
    by_cases hx : x = a
    · subst hx
      rw [List.erase_cons_head, List.erase_cons_head]
      exact hp
    · rw [List.erase_cons_tail (by simpa using hx), List.erase_cons_tail (by simpa using hx)]
      exact ih.cons x
  | swap x y l =>
    by_cases hx : x = a
    · subst hx
      by_cases hy : y = x
      · subst hy
        exact List.Perm.refl _
      · rw [List.erase_cons_tail (by simpa using hy), List.erase_cons_head,
          List.erase_cons_head]
    · by_cases hy : y = a
      · subst hy
        rw [List.erase_cons_head, List.erase_cons_tail (by simpa using hx),
          List.erase_cons_head]
      · rw [List.erase_cons_tail (by simpa using hy), List.erase_cons_tail (by simpa using hx),
          List.erase_cons_tail (by simpa using hx), List.erase_cons_tail (by simpa using hy)]
        exact List.Perm.swap x y _
  | trans _ _ ih1 ih2 => exact ih1.trans ih2

/-- The state `Link_Spare_Chunker` leaves when the root pointer is valid. -/
theorem Link_Spare_Chunker_eq (cc : ChunkConfig) (g : Globals) (payload r : Nat)
    (root : Reb_Chunker) (hr : g.TG_Root_Chunker = some r) (hc : g.chunkers[r]? = some root) :
    (Link_Spare_Chunker cc g payload).chunkers =
        g.chunkers.set r { root with next := some g.chunkers.length } ++
          [{ next := none, size := payload, payload := [] }] ∧
    (Link_Spare_Chunker cc g payload).allocated =
        g.allocated ++ [(g.chunkers.length, cc.BASE_CHUNKER_SIZE + payload)] ∧
    (Link_Spare_Chunker cc g payload).freed = g.freed ∧
    (Link_Spare_Chunker cc g payload).TG_Root_Chunker = g.TG_Root_Chunker ∧
    (Link_Spare_Chunker cc g payload).TG_Top_Chunk = g.TG_Top_Chunk ∧
    (Link_Spare_Chunker cc g payload).stack = g.stack ∧
    (Link_Spare_Chunker cc g payload).TG_Frame_Stack = g.TG_Frame_Stack := by
  simp [Link_Spare_Chunker, hr, hc]

/-- A returning `Shutdown_Stacks` on globals whose root has no successor frees
the root with its size plus the header size. -/
theorem Shutdown_frees_root (cfg : Config) (cc : ChunkConfig) (g : Globals) (r : Nat)
    (root : Reb_Chunker)
    (hfs : g.TG_Frame_Stack = none) (hd : DSP g.stack = 0)
    (hh : ARR_AT g.stack.DS_Array 0 = some Cell.Unreadable)
    (hr : g.TG_Root_Chunker = some r) (ht : g.TG_Top_Chunk = some (r, 0))
    (hc : g.chunkers[r]? = some root) (hnext : root.next = none) :
    ∃ g2, Shutdown_Stacks cfg cc g = Outcome.returned g2 ∧
      g2.freed = g.freed ++ [(r, root.size + cc.BASE_CHUNKER_SIZE)] ∧
      g2.allocated = g.allocated.erase (r, root.size + cc.BASE_CHUNKER_SIZE) ∧
      g2.chunkers = g.chunkers := by
  unfold Shutdown_Stacks
  simp [hfs, hd, hh, hr, ht, hc, hnext, IS_UNREADABLE_IF_DEBUG, Free_Mem]

/-- A returning `Shutdown_Stacks` on globals whose root has a successor frees
the successor and then the root, each with its size plus the header size. -/
theorem Shutdown_frees_spare (cfg : Config) (cc : ChunkConfig) (g : Globals) (r n : Nat)
    (root next : Reb_Chunker)
    (hfs : g.TG_Frame_Stack = none) (hd : DSP g.stack = 0)
    (hh : ARR_AT g.stack.DS_Array 0 = some Cell.Unreadable)
    (hr : g.TG_Root_Chunker = some r) (ht : g.TG_Top_Chunk = some (r, 0))
    (hc : g.chunkers[r]? = some root) (hnext : root.next = some n)
    (hn : g.chunkers[n]? = some next) :
    ∃ g2, Shutdown_Stacks cfg cc g = Outcome.returned g2 ∧
      g2.freed = g.freed ++
        [(n, next.size + cc.BASE_CHUNKER_SIZE), (r, root.size + cc.BASE_CHUNKER_SIZE)] ∧
      g2.allocated = (g.allocated.erase (n, next.size + cc.BASE_CHUNKER_SIZE)).erase
        (r, root.size + cc.BASE_CHUNKER_SIZE) := by
  unfold Shutdown_Stacks
  simp [hfs, hd, hh, hr, ht, hc, hnext, hn, IS_UNREADABLE_IF_DEBUG, Free_Mem]

/-! ## Claims on the chunkers -/

/-- C23: for every initial size whose capacity request stays below the stack
limit, `Startup_Stacks` returns having added exactly one chunker, the root,
allocated with `BASE_CHUNKER_SIZE + CS_CHUNKER_PAYLOAD` bytes, with no
successor and payload capacity `CS_CHUNKER_PAYLOAD`, whose first chunk is the
top chunk, with no predecessor, offset 0, size `BASE_CHUNK_SIZE` and only an
END at `values[0]`. `Shutdown_Stacks` then returns having freed the root once,
with the byte count of its allocation, and the live blocks are those from
before the startup; with one spare chunker linked behind the root it returns
having freed the spare once and then the root once, each with the byte count
of its allocation, and again the live blocks are those from before the
startup. -/
theorem Chunkers_allocated_and_freed_balance (cfg : Config) (cc : ChunkConfig) (g : Globals)
    (size : Nat) (hlimit : cfg.STACK_LIMIT ≤ 2 ^ 32)
    (hsize : SER_REST (Startup_DS_Array cfg) + size < cfg.STACK_LIMIT) :
    ∃ g1, Startup_Stacks cfg cc g size = Outcome.returned g1 ∧
      (∃ c ch, g1.chunkers = g.chunkers ++ [c] ∧ c.next = none ∧
        c.size = cc.CS_CHUNKER_PAYLOAD ∧ c.payload = [(0, ch)] ∧ ch.prev = none ∧
        ch.offset = 0 ∧ ch.size = cc.BASE_CHUNK_SIZE ∧ ch.values = [Cell.END]) ∧
      g1.TG_Root_Chunker = some g.chunkers.length ∧
      g1.TG_Top_Chunk = some (g.chunkers.length, 0) ∧
      g1.allocated =
        g.allocated ++ [(g.chunkers.length, cc.BASE_CHUNKER_SIZE + cc.CS_CHUNKER_PAYLOAD)] ∧
      g1.freed = g.freed ∧
      (∃ g2, Shutdown_Stacks cfg cc g1 = Outcome.returned g2 ∧
        g2.freed =
          g.freed ++ [(g.chunkers.length, cc.BASE_CHUNKER_SIZE + cc.CS_CHUNKER_PAYLOAD)] ∧
        g2.allocated.Perm g.allocated) ∧
      (∀ payload, ∃ g2,
        Shutdown_Stacks cfg cc (Link_Spare_Chunker cc g1 payload) = Outcome.returned g2 ∧
        g2.freed = g.freed ++
          [(g.chunkers.length + 1, cc.BASE_CHUNKER_SIZE + payload),
           (g.chunkers.length, cc.BASE_CHUNKER_SIZE + cc.CS_CHUNKER_PAYLOAD)] ∧
        g2.allocated.Perm g.allocated) := by
  obtain ⟨hl, h0, h1, _⟩ := Startup_DS_Array_shape cfg
  obtain ⟨s2, hs2⟩ := Expand_returns cfg
    { DS_Array := Startup_DS_Array cfg, DS_Index := 1 } size hl.symm h1 hlimit hsize
  obtain ⟨_, _, _, hdsp2⟩ := Expand_returned_state cfg
    { DS_Array := Startup_DS_Array cfg, DS_Index := 1 } s2 size hl.symm h1 hs2
  have hbelow := Expand_state_below cfg
    { DS_Array := Startup_DS_Array cfg, DS_Index := 1 } size hl.symm h1
  rw [hs2] at hbelow
  simp only [hl, Outcome.state] at hbelow
  have hhead : ARR_AT s2.DS_Array 0 = some Cell.Unreadable :=
    (hbelow.1 0 (by decide)).trans h0
  have hidx : s2.DS_Index = 1 := hdsp2
  have hstart : ∃ g1, Startup_Stacks cfg cc g size = Outcome.returned g1 := by
    unfold Startup_Stacks
    simp only [List.getElem?_cons_zero, IS_END, Bool.not_true, Bool.and_false,
      Bool.false_eq_true, if_false, hs2]
    exact ⟨_, rfl⟩
  obtain ⟨g1, hg1⟩ := hstart
  obtain ⟨s2', hs2', hstack, hfs, hroot, htopc, _⟩ := Startup_returned cfg cc g g1 size hg1
  rw [hs2] at hs2'
  cases hs2'
  obtain ⟨⟨c, ch, hch, hnext, hsz, hpay, hprev, hoff, hchsz, hvals⟩, halloc, hfreed⟩ :=
    Startup_returned_chunkers cfg cc g g1 size hg1
  have hd : DSP g1.stack = 0 := by
    rw [hstack]
    simp [DS_DROP, DSP, hidx]
  have hh : ARR_AT g1.stack.DS_Array 0 = some Cell.Unreadable := by
    rw [hstack]
    exact hhead
  have hc : g1.chunkers[g.chunkers.length]? = some c := by
    rw [hch]
    simp
  have hlen1 : g1.chunkers.length = g.chunkers.length + 1 := by
    rw [hch]
    simp
  refine ⟨g1, hg1, ⟨c, ch, hch, hnext, hsz, hpay, hprev, hoff, hchsz, hvals⟩, hroot, htopc,
    halloc, hfreed, ?_, ?_⟩
  · obtain ⟨g2, hg2, hf, ha, _⟩ := Shutdown_frees_root cfg cc g1 g.chunkers.length c
      hfs hd hh hroot htopc hc hnext
    refine ⟨g2, hg2, ?_, ?_⟩
    · rw [hf, hfreed, hsz, Nat.add_comm cc.CS_CHUNKER_PAYLOAD]
    · rw [ha, halloc, hsz, Nat.add_comm cc.CS_CHUNKER_PAYLOAD]
      exact erase_append_singleton_perm _ _
  · intro payload
    obtain ⟨lc, la, lf, lr, lt, ls, lfs⟩ := Link_Spare_Chunker_eq cc g1 payload
      g.chunkers.length c hroot hc
    have hc2 : (Link_Spare_Chunker cc g1 payload).chunkers[g.chunkers.length]? =
        some { c with next := some g1.chunkers.length } := by
      rw [lc, List.getElem?_append_left (by rw [List.length_set]; omega),
        List.getElem?_set_self (by omega)]
    have hn2 : (Link_Spare_Chunker cc g1 payload).chunkers[g1.chunkers.length]? =
        some { next := none, size := payload, payload := [] } := by
      rw [lc, List.getElem?_append_right (by rw [List.length_set]), List.length_set,
        Nat.sub_self]
      rfl
    obtain ⟨g2, hg2, hf, ha⟩ := Shutdown_frees_spare cfg cc (Link_Spare_Chunker cc g1 payload)
      g.chunkers.length g1.chunkers.length _ _
      (lfs.trans hfs) (by rw [ls]; exact hd) (by rw [ls]; exact hh) (lr.trans hroot)
      (lt.trans htopc) hc2 rfl hn2
    refine ⟨g2, hg2, ?_, ?_⟩
    · rw [hf, lf, hfreed, hlen1]
      simp only [hsz, Nat.add_comm]
    · rw [ha, la, halloc, hlen1]
      simp only [hsz]
      rw [Nat.add_comm payload, Nat.add_comm cc.CS_CHUNKER_PAYLOAD]
      exact (perm_erase_block _ _ _ (erase_append_singleton_perm _ _)).trans
        (erase_append_singleton_perm _ _)

/-- Witness of C23: in the example debug build `Startup_Stacks(3)` on globals
with nothing allocated leaves the one block (0, 16 + 2048) live; shutdown
frees it and nothing stays live; with a spare chunker of 4096 bytes linked,
shutdown frees the spare and the root and nothing stays live. -/
theorem Chunkers_allocated_and_freed_balance_witness :
    ex_config.STACK_LIMIT ≤ 2 ^ 32 ∧
    SER_REST (Startup_DS_Array ex_config) + 3 < ex_config.STACK_LIMIT ∧
    ex_globals_started.allocated = [(0, 2064)] ∧
    (∃ g2, Shutdown_Stacks ex_config ex_chunk_config ex_globals_started =
        Outcome.returned g2 ∧ g2.freed = [(0, 2064)] ∧ g2.allocated = []) ∧
    (∃ g2, Shutdown_Stacks ex_config ex_chunk_config ex_globals_spare =
        Outcome.returned g2 ∧ g2.freed = [(1, 4112), (0, 2064)] ∧ g2.allocated = []) := by
  have hst : Startup_Stacks ex_config ex_chunk_config ex_globals 3 =
      Outcome.returned ex_globals_started := by decide
  obtain ⟨g1, hg1, _, _, _, ha, _, ⟨g2, h2, hf2, hp2⟩, hsp⟩ :=
    Chunkers_allocated_and_freed_balance ex_config ex_chunk_config ex_globals 3
      (by decide) (by decide)
  rw [hst] at hg1
  cases hg1
  obtain ⟨g3, h3, hf3, hp3⟩ := hsp 4096
  exact ⟨by decide, by decide, ha, ⟨g2, h2, hf2, List.Perm.eq_nil hp2⟩,
    ⟨g3, h3, hf3, List.Perm.eq_nil hp3⟩⟩

end RenC
